import Mathlib

/-!
# Tone Ladder — verification of the color engine against its specification

This file is a shallow embedding, over exact real arithmetic, of the Tone
Ladder color engine:

* `convert.js` — hex ↔ sRGB ↔ linear RGB ↔ OKLab ↔ OKLCH conversions,
  sRGB gamut clamping, hue arithmetic;
* `hueShift.js` — the ramp generator `generateOklchRamp` with its
  near-neutral branch, hue-stability damping, highlight convergence in
  OKLab, yellow-family guardrail and endpoint chroma floors;
* `index.js` — input validation (`normalizeHex`, `validateInputs`) and the
  public `generateRamp` entry point with its default arguments.

JavaScript numbers are modelled as exact reals (ℝ); a small inductive type
`JSNum` models the IEEE comparison behaviour of `NaN` and the infinities
where validation semantics depend on it.  Theorems about the engine follow
after the definitions.
-/

open Real

namespace ToneLadder

noncomputable section

/-! ## JavaScript arithmetic primitives -/

/-- JS `Math.sign`. -/
def jsSign (x : ℝ) : ℝ := if 0 < x then 1 else if x < 0 then -1 else 0

/-- Truncation toward zero, as used by the JS `%` operator. -/
def jsTrunc (x : ℝ) : ℤ := if 0 ≤ x then ⌊x⌋ else -⌊-x⌋

/-- JS remainder `a % b` (takes the sign of the dividend). -/
def jsMod (a b : ℝ) : ℝ := a - b * (jsTrunc (a / b) : ℝ)

/-- JS `Math.round` (half-up): `⌊x + 0.5⌋`. -/
def jsRound (x : ℝ) : ℤ := ⌊x + 1 / 2⌋

/-- JS `Math.cbrt` (sign-preserving cube root). -/
def jsCbrt (x : ℝ) : ℝ := if x < 0 then -((-x) ^ ((1 : ℝ) / 3)) else x ^ ((1 : ℝ) / 3)

/-- JS `Math.atan2 y x`. -/
def jsAtan2 (y x : ℝ) : ℝ :=
  if 0 < x then arctan (y / x)
  else if x < 0 then (if 0 ≤ y then arctan (y / x) + π else arctan (y / x) - π)
  else if 0 < y then π / 2
  else if y < 0 then -(π / 2)
  else 0

/-- `Math.max(0, Math.min(1, v))`. -/
def clamp01 (x : ℝ) : ℝ := max 0 (min 1 x)

/-! ## Color value types -/

structure Srgb where
  r : ℝ
  g : ℝ
  b : ℝ

structure LinearRgb where
  r : ℝ
  g : ℝ
  b : ℝ

structure Oklab where
  L : ℝ
  a : ℝ
  b : ℝ

structure Oklch where
  L : ℝ
  C : ℝ
  H : ℝ

/-! ## Hex parsing and rendering (`convert.js`: `hexToSrgb`, `srgbToHex`)

`parseInt(…, 16)` is modelled by `hexDigitVal`; on a character that is not
a hex digit the JS code would produce `NaN`, which the pipeline only ever
avoids because `generateRamp` validates its input first, so the default
value 0 of `hexDigitVal` is never observable through the public API. -/

def hexDigitVal (c : Char) : ℕ :=
  if 48 ≤ c.toNat ∧ c.toNat ≤ 57 then c.toNat - 48
  else if 97 ≤ c.toNat ∧ c.toNat ≤ 102 then c.toNat - 97 + 10
  else if 65 ≤ c.toNat ∧ c.toNat ≤ 70 then c.toNat - 65 + 10
  else 0

def isHexDigitChar (c : Char) : Bool :=
  ((48 ≤ c.toNat ∧ c.toNat ≤ 57) ∨ (97 ≤ c.toNat ∧ c.toNat ≤ 102) ∨
    (65 ≤ c.toNat ∧ c.toNat ≤ 70) : Prop)

/-- `hex.replace(/^#/, '')`. -/
def stripHash (s : String) : List Char :=
  match s.data with
  | '#' :: rest => rest
  | l => l

def hexPairVal (c1 c2 : Char) : ℕ := 16 * hexDigitVal c1 + hexDigitVal c2

/-- The three 8-bit channels of a (stripped) hex string. -/
def hexChannels (s : String) : ℕ × ℕ × ℕ :=
  match stripHash s with
  | [c1, c2, c3, c4, c5, c6] => (hexPairVal c1 c2, hexPairVal c3 c4, hexPairVal c5 c6)
  | _ => (0, 0, 0)

def hexToSrgb (s : String) : Srgb :=
  let ch := hexChannels s
  ⟨(ch.1 : ℝ) / 255, (ch.2.1 : ℝ) / 255, (ch.2.2 : ℝ) / 255⟩

/-- One lowercase hex digit. -/
def toHexDigitChar (n : ℕ) : Char :=
  if n < 10 then Char.ofNat ('0'.toNat + n) else Char.ofNat ('a'.toNat + n - 10)

/-- `int.toString(16).padStart(2, '0')` for an integer in `[0, 255]`. -/
def byteToHex (n : ℤ) : String :=
  String.mk [toHexDigitChar (n.toNat / 16 % 16), toHexDigitChar (n.toNat % 16)]

/-- The rounded 8-bit integer for one sRGB channel (`srgbToHex`'s `toHex`). -/
def channelToInt (v : ℝ) : ℤ := jsRound (clamp01 v * 255)

def srgbToHex (c : Srgb) : String :=
  "#" ++ byteToHex (channelToInt c.r) ++ byteToHex (channelToInt c.g) ++ byteToHex (channelToInt c.b)

/-! ## sRGB ↔ linear RGB -/

def srgbToLinearChannel (v : ℝ) : ℝ :=
  if v ≤ 0.04045 then v / 12.92 else ((v + 0.055) / 1.055) ^ (2.4 : ℝ)

def linearToSrgbChannel (v : ℝ) : ℝ :=
  if v ≤ 0.0031308 then v * 12.92 else 1.055 * v ^ ((1 : ℝ) / 2.4) - 0.055

def srgbToLinearRgb (c : Srgb) : LinearRgb :=
  ⟨srgbToLinearChannel c.r, srgbToLinearChannel c.g, srgbToLinearChannel c.b⟩

def linearRgbToSrgb (c : LinearRgb) : Srgb :=
  ⟨linearToSrgbChannel c.r, linearToSrgbChannel c.g, linearToSrgbChannel c.b⟩

/-! ## Linear RGB ↔ OKLab -/

def linearRgbToOklab (c : LinearRgb) : Oklab :=
  let l := 0.4122214708 * c.r + 0.5363325363 * c.g + 0.0514459929 * c.b
  let m := 0.2119034982 * c.r + 0.6806995451 * c.g + 0.1073969566 * c.b
  let s := 0.0883024619 * c.r + 0.2817188376 * c.g + 0.6299787005 * c.b
  let l' := jsCbrt l
  let m' := jsCbrt m
  let s' := jsCbrt s
  ⟨0.2104542553 * l' + 0.7936177850 * m' - 0.0040720468 * s',
   1.9779984951 * l' - 2.4285922050 * m' + 0.4505937099 * s',
   0.0259040371 * l' + 0.7827717662 * m' - 0.8086757660 * s'⟩

def oklabToLinearRgb (c : Oklab) : LinearRgb :=
  let l' := c.L + 0.3963377774 * c.a + 0.2158037573 * c.b
  let m' := c.L - 0.1055613458 * c.a - 0.0638541728 * c.b
  let s' := c.L - 0.0894841775 * c.a - 1.2914855480 * c.b
  let l := l' * l' * l'
  let m := m' * m' * m'
  let s := s' * s' * s'
  ⟨4.0767416621 * l - 3.3077115913 * m + 0.2309699292 * s,
   -1.2684380046 * l + 2.6097574011 * m - 0.3413193965 * s,
   -0.0041960863 * l - 0.7034186147 * m + 1.7076147010 * s⟩

/-! ## OKLab ↔ OKLCH -/

def oklabToOklch (c : Oklab) : Oklch :=
  let C := Real.sqrt (c.a * c.a + c.b * c.b)
  let H := jsAtan2 c.b c.a * (180 / π)
  ⟨c.L, C, if H < 0 then H + 360 else H⟩

def oklchToOklab (c : Oklch) : Oklab :=
  let hRad := c.H * (π / 180)
  ⟨c.L, c.C * cos hRad, c.C * sin hRad⟩

/-! ## Hex ↔ OKLCH -/

def hexToOklch (s : String) : Oklch :=
  oklabToOklch (linearRgbToOklab (srgbToLinearRgb (hexToSrgb s)))

def oklchToHex (c : Oklch) : String :=
  srgbToHex (linearRgbToSrgb (oklabToLinearRgb (oklchToOklab c)))

/-! ## Gamut clamping (`clampToSrgbGamut`) -/

/-- The tolerant per-channel bounds used by `clampToSrgbGamut`. -/
def inGamutLin (lin : LinearRgb) : Prop :=
  -0.0001 ≤ lin.r ∧ lin.r ≤ 1.0001 ∧ -0.0001 ≤ lin.g ∧ lin.g ≤ 1.0001 ∧
    -0.0001 ≤ lin.b ∧ lin.b ≤ 1.0001

instance (lin : LinearRgb) : Decidable (inGamutLin lin) := by
  unfold inGamutLin; infer_instance

/-- The tolerant in-gamut test used by `clampToSrgbGamut`. -/
def inGamutTol (c : Oklch) : Prop := inGamutLin (oklabToLinearRgb (oklchToOklab c))

instance (c : Oklch) : Decidable (inGamutTol c) := by
  unfold inGamutTol; infer_instance

/-- The 20-iteration binary search over chroma, holding `L` and `H` fixed. -/
def clampSearch (L H : ℝ) : ℕ → ℝ → ℝ → ℝ
  | 0, low, _ => low
  | n + 1, low, high =>
    let mid := (low + high) / 2
    if inGamutTol ⟨L, mid, H⟩ then clampSearch L H n mid high
    else clampSearch L H n low mid

def clampToSrgbGamut (c : Oklch) : Oklch :=
  if inGamutTol c then c else ⟨c.L, clampSearch c.L c.H 20 0 c.C, c.H⟩

/-! ## Hue arithmetic (`normalizeHue`, `hueDifference`) -/

def normalizeHue (h : ℝ) : ℝ :=
  let m := jsMod h 360
  if m < 0 then m + 360 else m

def hueDifference (h1 h2 : ℝ) : ℝ :=
  let diff := normalizeHue (h2 - h1)
  if 180 < diff then diff - 360 else diff

/-! ## `hueShift.js` — tunable constants -/

structure ModeConfig where
  maxHueShift : ℝ
  chromaRetention : ℝ
  chromaCurveExponent : ℝ
  convergenceStrength : ℝ
  neutralTintStrength : ℝ
  neutralCurveExponent : ℝ
  neutralEndpointChromaFloor : ℝ

def conservativeConfig : ModeConfig :=
  ⟨18, 0.40, 1.0, 0.45, 0.35, 1.5, 0.008⟩

def painterlyConfig : ModeConfig :=
  ⟨38, 0.28, 0.8, 0.85, 0.65, 1.15, 0.012⟩

/-- `MODE_CONFIG[mode] || MODE_CONFIG.painterly`. -/
def modeConfig (mode : String) : ModeConfig :=
  if mode = "conservative" then conservativeConfig else painterlyConfig

def WARM_ANCHOR_H : ℝ := 65
def COOL_ANCHOR_H : ℝ := 205
def WARM_ANCHOR_A : ℝ := cos (WARM_ANCHOR_H * π / 180)
def WARM_ANCHOR_B : ℝ := sin (WARM_ANCHOR_H * π / 180)
def COOL_ANCHOR_A : ℝ := cos (COOL_ANCHOR_H * π / 180)
def COOL_ANCHOR_B : ℝ := sin (COOL_ANCHOR_H * π / 180)

def CONVERGENCE_CHROMA_MIN : ℝ := 0.01
def CONVERGENCE_CHROMA_REF : ℝ := 0.04
def NEUTRAL_BASE_C_MAX : ℝ := 0.03
def VISIBLE_TINT_C_MIN : ℝ := 0.01
def NEUTRAL_TINT_C_MAX : ℝ := 0.035
def HUE_STABILITY_CHROMA_FLOOR : ℝ := 0.012
def HUE_STABILITY_CHROMA_REF : ℝ := 0.045
def TEMP_RESPONSE_EXPONENT : ℝ := 1.6
def L_MIN : ℝ := 0.08
def L_MAX : ℝ := 0.98
def YELLOW_FAMILY_HUE_MIN : ℝ := 60
def YELLOW_FAMILY_HUE_MAX : ℝ := 110
def YELLOW_HIGHLIGHT_HUE_LIMIT_CONSERVATIVE : ℝ := 110
def YELLOW_HIGHLIGHT_HUE_LIMIT_PAINTERLY : ℝ := 115

/-! ## `hueShift.js` — helper functions -/

def getHueStabilityFactor (chroma : ℝ) : ℝ :=
  if chroma ≤ HUE_STABILITY_CHROMA_FLOOR then 0
  else if HUE_STABILITY_CHROMA_REF ≤ chroma then 1
  else
    let t := (chroma - HUE_STABILITY_CHROMA_FLOOR) /
      (HUE_STABILITY_CHROMA_REF - HUE_STABILITY_CHROMA_FLOOR)
    t * t

def mapTemperature (t : ℝ) : ℝ := jsSign t * |t| ^ TEMP_RESPONSE_EXPONENT

def smoothstep (edge0 edge1 x : ℝ) : ℝ :=
  let t := max 0 (min 1 ((x - edge0) / (edge1 - edge0)))
  t * t * (3 - 2 * t)

/-- `((h % 360) + 360) % 360` as used inside `blendHueDegrees`. -/
def wrap360 (h : ℝ) : ℝ := jsMod (jsMod h 360 + 360) 360

def blendHueDegrees (h1 h2 w : ℝ) : ℝ :=
  let h1' := wrap360 h1
  let h2' := wrap360 h2
  let delta0 := h2' - h1'
  let delta1 := if 180 < delta0 then delta0 - 360 else delta0
  let delta := if delta1 < -180 then delta1 + 360 else delta1
  wrap360 (h1' + delta * w)

def convergeInOklab (c : Oklch) (anchorA anchorB w : ℝ) : Oklch :=
  if w ≤ 0 ∨ c.C ≤ 0 then c
  else
    let ok := oklchToOklab c
    let targetA := anchorA * c.C
    let targetB := anchorB * c.C
    let newA := ok.a + (targetA - ok.a) * w
    let newB := ok.b + (targetB - ok.b) * w
    oklabToOklch ⟨ok.L, newA, newB⟩

def calculateBiasedHue (baseHue relativePosition temperature maxBlendWeight : ℝ) : ℝ :=
  if temperature = 0 ∨ relativePosition = 0 then normalizeHue baseHue
  else
    let isHighlight := 0 < relativePosition
    let isWarmLight := 0 < temperature
    let anchorHue :=
      if isWarmLight then (if isHighlight then WARM_ANCHOR_H else COOL_ANCHOR_H)
      else (if isHighlight then COOL_ANCHOR_H else WARM_ANCHOR_H)
    let positionWeight := |relativePosition| ^ (1.1 : ℝ)
    let tempStrength := |mapTemperature temperature|
    let blendWeight := positionWeight * tempStrength * maxBlendWeight
    blendHueDegrees baseHue anchorHue blendWeight

def calculateChroma (baseChroma relativePosition : ℝ) (config : ModeConfig) : ℝ :=
  let minRetention := config.chromaRetention
  let exponent := config.chromaCurveExponent
  let rawMultiplier := 0.5 + 0.5 * cos (relativePosition * π)
  let saturationMultiplier := rawMultiplier ^ exponent
  let effectiveMultiplier := minRetention + (1 - minRetention) * saturationMultiplier
  baseChroma * effectiveMultiplier

/-! ## `hueShift.js` — lightness profile -/

/-- Evenly spaced raw lightness: `L_MIN + (i/(steps-1))·(L_MAX - L_MIN)`. -/
def lightnessRaw (steps i : ℕ) : ℝ := L_MIN + ((i : ℝ) / ((steps : ℝ) - 1)) * (L_MAX - L_MIN)

/-- `Math.max(L_MIN, Math.min(L_MAX, baseOklch.L))`. -/
def baseLightnessOf (bL : ℝ) : ℝ := max L_MIN (min L_MAX bL)

/-- Offset toward the base lightness, with compression at the extremes and
the final clamp into `[L_MIN, L_MAX]`. -/
def lightnessAdjusted (bL : ℝ) (steps mid i : ℕ) : ℝ :=
  let base := baseLightnessOf bL
  let offset := base - lightnessRaw steps mid
  let adjusted := lightnessRaw steps i + offset
  let adjusted' :=
    if adjusted < L_MIN then
      L_MIN + (base - L_MIN) * (1 - ((mid : ℝ) - (i : ℝ)) / (mid : ℝ))
    else if L_MAX < adjusted then
      L_MAX - (L_MAX - base) * (1 - ((i : ℝ) - (mid : ℝ)) / ((steps : ℝ) - 1 - (mid : ℝ)))
    else adjusted
  max L_MIN (min L_MAX adjusted')

/-- The strict-monotonicity pass (`L_EPSILON = 0.002`), run left to right. -/
def lightnessFixed (bL : ℝ) (steps mid : ℕ) : ℕ → ℝ
  | 0 => lightnessAdjusted bL steps mid 0
  | i + 1 =>
    let prev := lightnessFixed bL steps mid i
    let cur := lightnessAdjusted bL steps mid (i + 1)
    if cur ≤ prev then min L_MAX (prev + 0.002) else cur

/-! ## `hueShift.js` — the ramp generator -/

/-- Near-neutral "temperature study" branch: hue comes straight from the
anchors, chroma is synthesised from scratch.  Returns `(H, C)`. -/
def neutralHC (config : ModeConfig) (t p : ℝ) : ℝ × ℝ :=
  let isHighlight := 0 < p
  let anchorA :=
    if 0 < t then (if isHighlight then WARM_ANCHOR_A else COOL_ANCHOR_A)
    else (if isHighlight then COOL_ANCHOR_A else WARM_ANCHOR_A)
  let anchorB :=
    if 0 < t then (if isHighlight then WARM_ANCHOR_B else COOL_ANCHOR_B)
    else (if isHighlight then COOL_ANCHOR_B else WARM_ANCHOR_B)
  let absPos := |p|
  let tempStrength := |t|
  let chromaWeight := absPos ^ config.neutralCurveExponent * tempStrength * config.neutralTintStrength
  let C := chromaWeight * NEUTRAL_TINT_C_MAX
  let H := normalizeHue (jsAtan2 anchorB anchorA * (180 / π))
  (H, C)

/-- Standard branch: damped anchor-biased hue, midtone-peaking chroma with
highlight falloff, OKLab highlight convergence, yellow-family guardrail.
Returns `(H, C)`; `top3` is `steps - 3 ≤ i`. -/
def standardHC (base : Oklch) (config : ModeConfig) (t : ℝ) (mode : String)
    (L p : ℝ) (top3 : Bool) : ℝ × ℝ :=
  let targetChroma := calculateChroma base.C p config
  let maxBlendWeight := config.maxHueShift / 90
  let rawBiasedHue := calculateBiasedHue base.H p t maxBlendWeight
  let stabilityFactor := getHueStabilityFactor targetChroma
  let H0 := blendHueDegrees base.H rawBiasedHue stabilityFactor
  let highlightFactor := max 0 p
  let highlightChromaFalloff := 1 - highlightFactor ^ (2.2 : ℝ)
  let C0 := targetChroma * highlightChromaFalloff
  let HC :=
    if 0 < p ∧ t ≠ 0 then
      let wPos := smoothstep 0.6 1.0 p
      let wTemp := |t| ^ (0.7 : ℝ)
      let w0 := wPos * wTemp * config.convergenceStrength
      let chromaFade := smoothstep CONVERGENCE_CHROMA_MIN CONVERGENCE_CHROMA_REF C0
      let w := w0 * chromaFade
      if 0.001 < w then
        let anchorA := if 0 < t then WARM_ANCHOR_A else COOL_ANCHOR_A
        let anchorB := if 0 < t then WARM_ANCHOR_B else COOL_ANCHOR_B
        let converged := convergeInOklab ⟨L, C0, H0⟩ anchorA anchorB w
        (converged.H, converged.C)
      else (H0, C0)
    else (H0, C0)
  let isYellowFamily := YELLOW_FAMILY_HUE_MIN ≤ base.H ∧ base.H ≤ YELLOW_FAMILY_HUE_MAX
  let H1 :=
    if isYellowFamily ∧ t < 0 ∧ top3 then
      let hueLimit :=
        if mode = "conservative" then YELLOW_HIGHLIGHT_HUE_LIMIT_CONSERVATIVE
        else YELLOW_HIGHLIGHT_HUE_LIMIT_PAINTERLY
      if hueLimit < HC.1 ∧ HC.1 < 180 then hueLimit else HC.1
    else HC.1
  (H1, HC.2)

/-- One loop iteration of `generateOklchRamp` (step `i`). -/
def rampStep (base : Oklch) (t : ℝ) (steps : ℕ) (mode : String) (i : ℕ) : Oklch :=
  let config := modeConfig mode
  let mid := steps / 2
  let L := lightnessFixed base.L steps mid i
  let p := ((i : ℝ) - (mid : ℝ)) / (mid : ℝ)
  let isNeutralBase := base.C ≤ NEUTRAL_BASE_C_MAX
  let HC :=
    if isNeutralBase ∧ t ≠ 0 then neutralHC config t p
    else standardHC base config t mode L p (decide (steps ≤ i + 3))
  let isEndpoint := i = 0 ∨ i = steps - 1
  let C :=
    if isEndpoint ∧ t ≠ 0 then
      let baseFloor := if isNeutralBase then config.neutralEndpointChromaFloor else 0.015
      max HC.2 (baseFloor * |t|)
    else HC.2
  clampToSrgbGamut ⟨L, C, HC.1⟩

def generateOklchRamp (base : Oklch) (t : ℝ) (steps : ℕ) (mode : String) : List Oklch :=
  (List.range steps).map (rampStep base t steps mode)

def rampToHex (ramp : List Oklch) : List String := ramp.map oklchToHex

/-! ## `index.js` — validation and the public entry point -/

inductive RampError
  | invalidColor
  | invalidTemperature
  | invalidSteps
  | invalidMode
  deriving DecidableEq

/-- JS number values as far as the validator can distinguish them: `NaN`,
the two infinities, and finite values (every IEEE double is rational). -/
inductive JSNum
  | nan
  | posInf
  | negInf
  | fin (q : ℚ)
  deriving DecidableEq

/-- IEEE `<` against a finite constant: false whenever `NaN` is involved. -/
def JSNum.ltQ : JSNum → ℚ → Bool
  | .nan, _ => false
  | .posInf, _ => false
  | .negInf, _ => true
  | .fin q, c => q < c

/-- IEEE `>` against a finite constant: false whenever `NaN` is involved. -/
def JSNum.gtQ : JSNum → ℚ → Bool
  | .nan, _ => false
  | .posInf, _ => true
  | .negInf, _ => false
  | .fin q, c => c < q

/-- The real value handed to the (exact-real) engine.  Non-finite inputs
would propagate `NaN` through the JS arithmetic; the embedding only tracks
success/failure for them, so their numeric payload is irrelevant. -/
def JSNum.toReal : JSNum → ℝ
  | .fin q => (q : ℝ)
  | _ => 0

def isHexBody (l : List Char) : Bool := l.length = 6 && l.all isHexDigitChar

/-- The regex `/^#[0-9A-Fa-f]{6}$/`. -/
def hexFormatOk (s : String) : Bool :=
  match s.data with
  | '#' :: rest => isHexBody rest
  | _ => false

def isJsWhitespace (c : Char) : Bool := c = ' ' ∨ c = '\t' ∨ c = '\n' ∨ c = '\r'

/-- `String.prototype.trim()` (restricted to the ASCII whitespace that can
occur in this code path). -/
def jsTrim (s : String) : String :=
  ⟨((s.data.dropWhile isJsWhitespace).reverse.dropWhile isJsWhitespace).reverse⟩

/-- `'#' + s` when the `#` is missing. -/
def withHash (s : String) : String :=
  match s.data with
  | '#' :: _ => s
  | _ => ⟨'#' :: s.data⟩

def charUpper (c : Char) : Char :=
  if 'a' ≤ c ∧ c ≤ 'z' then Char.ofNat (c.toNat - 32) else c

/-- `String.prototype.toUpperCase()` on ASCII. -/
def toUpperStr (s : String) : String := ⟨s.data.map charUpper⟩

/-- `normalizeHex` from `index.js`: trim, add `#`, validate, uppercase. -/
def normalizeHex (s : String) : Except RampError String :=
  let cleaned := withHash (jsTrim s)
  if hexFormatOk cleaned then .ok (toUpperStr cleaned) else .error .invalidColor

/-- `validateInputs` from `index.js`.  `typeof temperature !== 'number'`
cannot fire in this model since `JSNum` only contains numbers. -/
def validateInputs (temperature : JSNum) (steps : ℚ) (mode : String) : Option RampError :=
  if temperature.ltQ (-1) || temperature.gtQ 1 then some .invalidTemperature
  else if steps ≠ 9 ∧ steps ≠ 11 then some .invalidSteps
  else if mode ≠ "conservative" ∧ mode ≠ "painterly" then some .invalidMode
  else none

/-- The public `generateRamp` from `index.js`. -/
def generateRamp (baseHex : String) (temperature : JSNum) (steps : ℚ) (mode : String) :
    Except RampError (List String) :=
  match normalizeHex baseHex with
  | .error e => .error e
  | .ok normalized =>
    match validateInputs temperature steps mode with
    | some e => .error e
    | none =>
      let stepsN : ℕ := if steps = 9 then 9 else 11
      let baseOklch := hexToOklch normalized
      .ok (rampToHex (generateOklchRamp baseOklch temperature.toReal stepsN mode))

def DEFAULT_BASE_HEX : String := "#2F6FED"
def DEFAULT_TEMPERATURE : JSNum := .fin (6 / 10)
def DEFAULT_STEPS : ℚ := 9
def DEFAULT_MODE : String := "painterly"

/-- `generateRamp` with JS default-parameter semantics: an omitted (or
`undefined`) argument takes the default. -/
def generateRampOpt (baseHex : Option String) (temperature : Option JSNum)
    (steps : Option ℚ) (mode : Option String) : Except RampError (List String) :=
  generateRamp (baseHex.getD DEFAULT_BASE_HEX) (temperature.getD DEFAULT_TEMPERATURE)
    (steps.getD DEFAULT_STEPS) (mode.getD DEFAULT_MODE)

/-! ## Basic lemmas about the JS primitives -/

lemma jsTrunc_eq_floor {x : ℝ} (h : 0 ≤ x) : jsTrunc x = ⌊x⌋ := by
  simp [jsTrunc, h]

lemma jsMod_eq_self {h : ℝ} (h0 : 0 ≤ h) (h1 : h < 360) : jsMod h 360 = h := by
  have hx : 0 ≤ h / 360 := by positivity
  have : ⌊h / 360⌋ = 0 := by
    rw [Int.floor_eq_iff]
    constructor
    · simpa using hx
    · push_cast
      rw [div_lt_iff (by norm_num : (0:ℝ) < 360)]
      linarith
  simp [jsMod, jsTrunc_eq_floor hx, this]

lemma jsMod_add_360 {h : ℝ} (h0 : 0 ≤ h) (h1 : h < 360) : jsMod (h + 360) 360 = h := by
  have hx : 0 ≤ (h + 360) / 360 := by positivity
  have : ⌊(h + 360) / 360⌋ = 1 := by
    rw [Int.floor_eq_iff]
    constructor
    · push_cast
      rw [le_div_iff (by norm_num : (0:ℝ) < 360)]
      linarith
    · push_cast
      rw [div_lt_iff (by norm_num : (0:ℝ) < 360)]
      linarith
  rw [jsMod, jsTrunc_eq_floor hx, this]
  push_cast
  ring

lemma normalizeHue_eq_self {h : ℝ} (h0 : 0 ≤ h) (h1 : h < 360) : normalizeHue h = h := by
  rw [normalizeHue, jsMod_eq_self h0 h1]
  simp [not_lt.mpr h0]

lemma wrap360_eq_self {h : ℝ} (h0 : 0 ≤ h) (h1 : h < 360) : wrap360 h = h := by
  rw [wrap360, jsMod_eq_self h0 h1, jsMod_add_360 h0 h1]

lemma normalizeHue_zero : normalizeHue 0 = 0 :=
  normalizeHue_eq_self le_rfl (by norm_num)

/-- `blendHueDegrees` on in-range hues whose difference is already the
shortest arc, when the interpolant stays in `[0, 360)`. -/
lemma blendHueDegrees_eq {h1 h2 w : ℝ} (hh1 : 0 ≤ h1) (hh1' : h1 < 360)
    (hh2 : 0 ≤ h2) (hh2' : h2 < 360) (hd : h2 - h1 ≤ 180) (hd' : -180 ≤ h2 - h1)
    (hr : 0 ≤ h1 + (h2 - h1) * w) (hr' : h1 + (h2 - h1) * w < 360) :
    blendHueDegrees h1 h2 w = h1 + (h2 - h1) * w := by
  rw [blendHueDegrees, wrap360_eq_self hh1 hh1', wrap360_eq_self hh2 hh2']
  rw [if_neg (by linarith : ¬ (180:ℝ) < h2 - h1)]
  rw [if_neg (by linarith : ¬ h2 - h1 < (-180:ℝ)), wrap360_eq_self hr hr']

lemma blendHueDegrees_self {h w : ℝ} (h0 : 0 ≤ h) (h1 : h < 360) :
    blendHueDegrees h h w = h := by
  have key := blendHueDegrees_eq h0 h1 h0 h1 (by linarith) (by linarith)
    (show (0:ℝ) ≤ h + (h - h) * w by simpa using h0)
    (show h + (h - h) * w < 360 by simpa using h1)
  simpa using key

lemma blendHueDegrees_zero_weight {h1 h2 : ℝ} (h0 : 0 ≤ h1) (hl : h1 < 360) :
    blendHueDegrees h1 h2 0 = h1 := by
  rw [blendHueDegrees, wrap360_eq_self h0 hl]
  simp [wrap360_eq_self h0 hl]

/-! ## Lemmas about the gamut clamp -/

lemma clampToSrgbGamut_L (c : Oklch) : (clampToSrgbGamut c).L = c.L := by
  rw [clampToSrgbGamut]; split <;> rfl

lemma clampToSrgbGamut_H (c : Oklch) : (clampToSrgbGamut c).H = c.H := by
  rw [clampToSrgbGamut]; split <;> rfl

lemma clampSearch_le {L H : ℝ} :
    ∀ (n : ℕ) (low high : ℝ), low ≤ high →
      low ≤ clampSearch L H n low high ∧ clampSearch L H n low high ≤ high := by
  intro n
  induction n with
  | zero => intro low high h; exact ⟨le_rfl, h⟩
  | succ n ih =>
    intro low high h
    rw [clampSearch]
    split
    · have := ih ((low + high) / 2) high (by linarith)
      exact ⟨le_trans (by linarith) this.1, this.2⟩
    · have := ih low ((low + high) / 2) (by linarith)
      exact ⟨this.1, le_trans this.2 (by linarith)⟩

lemma clampToSrgbGamut_C_nonneg {c : Oklch} (h : 0 ≤ c.C) : 0 ≤ (clampToSrgbGamut c).C := by
  rw [clampToSrgbGamut]
  split
  · exact h
  · exact (clampSearch_le 20 0 c.C h).1

lemma clampToSrgbGamut_C_le {c : Oklch} (h : 0 ≤ c.C) : (clampToSrgbGamut c).C ≤ c.C := by
  rw [clampToSrgbGamut]
  split
  · exact le_rfl
  · exact (clampSearch_le 20 0 c.C h).2

lemma clampToSrgbGamut_of_inGamut {c : Oklch} (h : inGamutTol c) : clampToSrgbGamut c = c := by
  rw [clampToSrgbGamut, if_pos h]

/-! ## Claim theorems -/

/-- Claim C6: `clampToDisplayGamut` (`clampToSrgbGamut`) returns a color
with exactly the same lightness and hue, with chroma in `[0, input chroma]`,
and returns an in-gamut input unchanged. -/
theorem c6_clamp_contract (c : Oklch) (hC : 0 ≤ c.C) :
    (clampToSrgbGamut c).L = c.L ∧ (clampToSrgbGamut c).H = c.H ∧
      0 ≤ (clampToSrgbGamut c).C ∧ (clampToSrgbGamut c).C ≤ c.C ∧
      (inGamutTol c → clampToSrgbGamut c = c) :=
  ⟨clampToSrgbGamut_L c, clampToSrgbGamut_H c, clampToSrgbGamut_C_nonneg hC,
    clampToSrgbGamut_C_le hC, clampToSrgbGamut_of_inGamut⟩

theorem c6_clamp_contract_witness :
    (0 : ℝ) ≤ (Oklch.mk 0.5 0.1 30).C ∧
      ((clampToSrgbGamut (Oklch.mk 0.5 0.1 30)).L = (Oklch.mk 0.5 0.1 30).L ∧
        (clampToSrgbGamut (Oklch.mk 0.5 0.1 30)).H = (Oklch.mk 0.5 0.1 30).H ∧
        0 ≤ (clampToSrgbGamut (Oklch.mk 0.5 0.1 30)).C ∧
        (clampToSrgbGamut (Oklch.mk 0.5 0.1 30)).C ≤ (Oklch.mk 0.5 0.1 30).C ∧
        (inGamutTol (Oklch.mk 0.5 0.1 30) → clampToSrgbGamut (Oklch.mk 0.5 0.1 30) = Oklch.mk 0.5 0.1 30)) :=
  ⟨by norm_num, c6_clamp_contract (Oklch.mk 0.5 0.1 30) (by norm_num)⟩

/-! ## Range of `jsAtan2` and of hues produced by `hexToOklch` -/

lemma arctan_nonneg_of {x : ℝ} (h : 0 ≤ x) : 0 ≤ arctan x := by
  have := Real.arctan_strictMono.monotone h
  simpa [Real.arctan_zero] using this

lemma arctan_nonpos_of {x : ℝ} (h : x ≤ 0) : arctan x ≤ 0 := by
  have := Real.arctan_strictMono.monotone h
  simpa [Real.arctan_zero] using this

lemma arctan_pos_of {x : ℝ} (h : 0 < x) : 0 < arctan x := by
  have := Real.arctan_strictMono h
  simpa [Real.arctan_zero] using this

lemma jsAtan2_mem (y x : ℝ) : -π < jsAtan2 y x ∧ jsAtan2 y x ≤ π := by
  have hpi : 0 < π := Real.pi_pos
  have h2 : (0:ℝ) < π / 2 := by positivity
  rw [jsAtan2]
  rcases lt_trichotomy 0 x with hx | hx | hx
  · rw [if_pos hx]
    have h1 := Real.arctan_lt_pi_div_two (y / x)
    have h2' := Real.neg_pi_div_two_lt_arctan (y / x)
    constructor <;> linarith
  · rw [if_neg (by simp [hx]), if_neg (by simp [hx])]
    rcases lt_trichotomy 0 y with hy | hy | hy
    · rw [if_pos hy]
      constructor <;> linarith
    · rw [if_neg (by simp [hy.symm]), if_neg (by simp [hy.symm])]
      constructor <;> linarith
    · rw [if_neg (by linarith), if_pos hy]
      constructor <;> linarith
  · rw [if_neg (by linarith), if_pos hx]
    by_cases hy : 0 ≤ y
    · rw [if_pos hy]
      have ha : arctan (y / x) ≤ 0 := arctan_nonpos_of (div_nonpos_of_nonneg_of_nonpos hy hx.le)
      have hb := Real.neg_pi_div_two_lt_arctan (y / x)
      constructor <;> linarith
    · rw [if_neg hy]
      push_neg at hy
      have ha : 0 < arctan (y / x) := arctan_pos_of (div_pos_of_neg_of_neg hy hx)
      have hb := Real.arctan_lt_pi_div_two (y / x)
      constructor <;> linarith

/-- Any hue produced by `oklabToOklch` lies in `[0, 360)`. -/
lemma oklabToOklch_H_mem (c : Oklab) :
    0 ≤ (oklabToOklch c).H ∧ (oklabToOklch c).H < 360 := by
  have hpi : 0 < π := Real.pi_pos
  have h180 : (0:ℝ) < 180 / π := by positivity
  obtain ⟨hl, hr⟩ := jsAtan2_mem c.b c.a
  set t := jsAtan2 c.b c.a * (180 / π) with ht
  have htl : -180 < t := by
    have : (-π) * (180 / π) < t := by
      exact mul_lt_mul_of_pos_right hl h180
    have hcalc : (-π) * (180 / π) = -180 := by
      field_simp
      ring
    linarith [hcalc ▸ this]
  have htr : t ≤ 180 := by
    have : t ≤ π * (180 / π) := mul_le_mul_of_nonneg_right hr (le_of_lt h180)
    have hcalc : π * (180 / π) = 180 := by field_simp
    linarith [hcalc ▸ this]
  show 0 ≤ (if t < 0 then t + 360 else t) ∧ (if t < 0 then t + 360 else t) < 360
  by_cases h : t < 0
  · rw [if_pos h]
    constructor <;> linarith
  · rw [if_neg h]
    push_neg at h
    constructor <;> linarith

lemma hexToOklch_H_mem (s : String) :
    0 ≤ (hexToOklch s).H ∧ (hexToOklch s).H < 360 :=
  oklabToOklch_H_mem _

/-! ## The lightness profile is non-decreasing and stays in `[L_MIN, L_MAX]` -/

lemma lightnessAdjusted_mem (bL : ℝ) (steps mid i : ℕ) :
    L_MIN ≤ lightnessAdjusted bL steps mid i ∧ lightnessAdjusted bL steps mid i ≤ L_MAX := by
  rw [lightnessAdjusted]
  constructor
  · exact le_max_left _ _
  · have h1 : L_MIN ≤ L_MAX := by rw [L_MIN, L_MAX]; norm_num
    exact max_le h1 (min_le_left _ _)

lemma lightnessFixed_mem (bL : ℝ) (steps mid : ℕ) :
    ∀ i, L_MIN ≤ lightnessFixed bL steps mid i ∧ lightnessFixed bL steps mid i ≤ L_MAX := by
  intro i
  induction i with
  | zero => exact lightnessAdjusted_mem bL steps mid 0
  | succ n ih =>
    rw [lightnessFixed]
    split
    · constructor
      · refine le_min ?_ (by linarith [ih.1])
        rw [L_MIN, L_MAX]; norm_num
      · exact min_le_left _ _
    · exact lightnessAdjusted_mem bL steps mid (n + 1)

lemma lightnessFixed_mono (bL : ℝ) (steps mid i : ℕ) :
    lightnessFixed bL steps mid i ≤ lightnessFixed bL steps mid (i + 1) := by
  rw [lightnessFixed]
  obtain ⟨h1, h2⟩ := lightnessFixed_mem bL steps mid i
  split
  · exact le_min h2 (by linarith)
  · next h => linarith [not_le.mp h]

lemma rampStep_L (base : Oklch) (t : ℝ) (steps : ℕ) (mode : String) (i : ℕ) :
    (rampStep base t steps mode i).L = lightnessFixed base.L steps (steps / 2) i := by
  rw [rampStep]
  simp only
  rw [clampToSrgbGamut_L]

/-! ## Small-chroma colors in `[0.08, 0.98]` lightness are inside the sRGB gamut -/

set_option maxHeartbeats 1000000 in
lemma cube_dev {L x : ℝ} (hL0 : 0.08 ≤ L) (hL1 : L ≤ 0.98) (he : |x - L| ≤ 0.000014) :
    |x * x * x - L * L * L| ≤ 0.0000404 := by
  obtain ⟨he1, he2⟩ := abs_le.mp he
  have hLpos : (0 : ℝ) ≤ L := by linarith
  have hid : x * x * x - L * L * L =
      (x - L) * (3 * L * L + 3 * L * (x - L) + (x - L) * (x - L)) := by ring
  rw [hid, abs_mul]
  have hLL : L * L ≤ 0.9604 := by
    have := mul_le_mul hL1 hL1 hLpos (by norm_num : (0 : ℝ) ≤ 0.98)
    linarith
  have hLLpos : (0 : ℝ) ≤ L * L := mul_self_nonneg L
  have hee : (x - L) * (x - L) ≤ 0.000014 * 0.000014 := by
    have h := mul_le_mul he he (abs_nonneg _) (by norm_num : (0 : ℝ) ≤ 0.000014)
    calc (x - L) * (x - L) = |x - L| * |x - L| := (abs_mul_abs_self _).symm
      _ ≤ 0.000014 * 0.000014 := h
  have heepos : (0 : ℝ) ≤ (x - L) * (x - L) := mul_self_nonneg _
  have hLe1 : 3 * L * (x - L) ≤ 3 * L * 0.000014 :=
    mul_le_mul_of_nonneg_left he2 (by linarith)
  have hLe2 : 3 * L * (-0.000014) ≤ 3 * L * (x - L) :=
    mul_le_mul_of_nonneg_left he1 (by linarith)
  have hq : |3 * L * L + 3 * L * (x - L) + (x - L) * (x - L)| ≤ 2.8853 := by
    rw [abs_le]
    constructor
    · nlinarith
    · nlinarith
  calc |x - L| * |3 * L * L + 3 * L * (x - L) + (x - L) * (x - L)| ≤ 0.000014 * 2.8853 :=
        mul_le_mul he hq (abs_nonneg _) (by norm_num)
    _ ≤ 0.0000404 := by norm_num

/-- The in-gamut test passes whenever the tree cubed LMS-like coordinates
all lie close to a common value in the grey range (the inverse matrix rows
each sum exactly to 1). -/
lemma inGamutLin_of_close_cubes {LC X1 X2 X3 : ℝ}
    (h0 : 0.000512 ≤ LC) (h1 : LC ≤ 0.941192)
    (h2 : |X1 - LC| ≤ 0.0000404) (h3 : |X2 - LC| ≤ 0.0000404) (h4 : |X3 - LC| ≤ 0.0000404) :
    inGamutLin ⟨4.0767416621 * X1 - 3.3077115913 * X2 + 0.2309699292 * X3,
      -1.2684380046 * X1 + 2.6097574011 * X2 - 0.3413193965 * X3,
      -0.0041960863 * X1 - 0.7034186147 * X2 + 1.7076147010 * X3⟩ := by
  obtain ⟨d1l, d1r⟩ := abs_le.mp h2
  obtain ⟨d2l, d2r⟩ := abs_le.mp h3
  obtain ⟨d3l, d3r⟩ := abs_le.mp h4
  rw [inGamutLin]
  refine ⟨?_, ?_, ?_, ?_, ?_, ?_⟩ <;> (simp only; linarith)

lemma inGamutLin_of_small_ab {L ca cb : ℝ} (hL0 : 0.08 ≤ L) (hL1 : L ≤ 0.98)
    (ha : |ca| ≤ 0.00001) (hb : |cb| ≤ 0.00001) :
    inGamutLin (oklabToLinearRgb ⟨L, ca, cb⟩) := by
  obtain ⟨ha1, ha2⟩ := abs_le.mp ha
  obtain ⟨hb1, hb2⟩ := abs_le.mp hb
  have hc1 : |(L + 0.3963377774 * ca + 0.2158037573 * cb) - L| ≤ 0.000014 := by
    rw [abs_le]; constructor <;> linarith
  have hc2 : |(L - 0.1055613458 * ca - 0.0638541728 * cb) - L| ≤ 0.000014 := by
    rw [abs_le]; constructor <;> linarith
  have hc3 : |(L - 0.0894841775 * ca - 1.2914855480 * cb) - L| ≤ 0.000014 := by
    rw [abs_le]; constructor <;> linarith
  have d1 := cube_dev hL0 hL1 hc1
  have d2 := cube_dev hL0 hL1 hc2
  have d3 := cube_dev hL0 hL1 hc3
  have hLpos : (0:ℝ) ≤ L := by linarith
  have hsq : 0.08 * 0.08 ≤ L * L := mul_le_mul hL0 hL0 (by norm_num) hLpos
  have hsq' : L * L ≤ 0.98 * 0.98 := mul_le_mul hL1 hL1 hLpos (by norm_num)
  have hcube0 : 0.000512 ≤ L * L * L := by nlinarith
  have hcube1 : L * L * L ≤ 0.941192 := by nlinarith
  exact inGamutLin_of_close_cubes hcube0 hcube1 d1 d2 d3

lemma inGamut_of_small_chroma {L C H : ℝ} (hL0 : 0.08 ≤ L) (hL1 : L ≤ 0.98)
    (hC0 : 0 ≤ C) (hC1 : C ≤ 0.00001) : inGamutTol ⟨L, C, H⟩ := by
  rw [inGamutTol, oklchToOklab]
  apply inGamutLin_of_small_ab hL0 hL1
  · rw [abs_mul, abs_of_nonneg hC0]
    calc C * |cos (H * (π / 180))| ≤ 0.00001 * 1 :=
          mul_le_mul hC1 (Real.abs_cos_le_one _) (abs_nonneg _) (by norm_num)
      _ = 0.00001 := by norm_num
  · rw [abs_mul, abs_of_nonneg hC0]
    calc C * |sin (H * (π / 180))| ≤ 0.00001 * 1 :=
          mul_le_mul hC1 (Real.abs_sin_le_one _) (abs_nonneg _) (by norm_num)
      _ = 0.00001 := by norm_num

/-! ### Claim C4 — zero temperature gives a purely tonal ladder -/

lemma calculateBiasedHue_temp_zero (baseHue p mbw : ℝ) :
    calculateBiasedHue baseHue p 0 mbw = normalizeHue baseHue := by
  rw [calculateBiasedHue, if_pos (Or.inl rfl)]

lemma standardHC_H_temp_zero (base : Oklch) (config : ModeConfig) (mode : String)
    (L p : ℝ) (top3 : Bool) (h0 : 0 ≤ base.H) (h1 : base.H < 360) :
    (standardHC base config 0 mode L p top3).1 = base.H := by
  rw [standardHC]
  simp only [calculateBiasedHue_temp_zero, normalizeHue_eq_self h0 h1,
    blendHueDegrees_self h0 h1]
  have hc : ¬ (0 < p ∧ (0:ℝ) ≠ 0) := by simp
  rw [if_neg hc]
  have hg : ¬ ((YELLOW_FAMILY_HUE_MIN ≤ base.H ∧ base.H ≤ YELLOW_FAMILY_HUE_MAX) ∧
      (0:ℝ) < 0 ∧ top3 = true) := by
    rintro ⟨-, h, -⟩
    exact lt_irrefl _ h
  rw [if_neg hg]

lemma rampStep_H_temp_zero (base : Oklch) (steps : ℕ) (mode : String) (i : ℕ)
    (h0 : 0 ≤ base.H) (h1 : base.H < 360) :
    (rampStep base 0 steps mode i).H = base.H := by
  rw [rampStep]
  simp only
  rw [clampToSrgbGamut_H]
  have hn : ¬ (base.C ≤ NEUTRAL_BASE_C_MAX ∧ (0:ℝ) ≠ 0) := by simp
  rw [if_neg hn]
  exact standardHC_H_temp_zero base (modeConfig mode) mode _ _ _ h0 h1

/-- Claim C4: at `temperature = 0` every step of the perceptual ramp
produced by `generateRamp`'s pipeline has exactly the base color's hue —
a purely tonal ladder with no hue shift at any index. -/
theorem c4_temp_zero_pure_tonal (s : String) (steps : ℕ) (mode : String) :
    (generateOklchRamp (hexToOklch s) 0 steps mode).map Oklch.H =
      List.replicate steps (hexToOklch s).H := by
  obtain ⟨h0, h1⟩ := hexToOklch_H_mem s
  rw [List.eq_replicate]
  constructor
  · simp [generateOklchRamp]
  · intro b hb
    rw [generateOklchRamp] at hb
    simp only [List.map_map, List.mem_map, List.mem_range, Function.comp] at hb
    obtain ⟨i, -, hi⟩ := hb
    rw [← hi, rampStep_H_temp_zero _ _ _ _ h0 h1]

lemma generateRamp_ok_shape {s : String} {t : JSNum} {steps : ℚ} {mode : String}
    (hhex : hexFormatOk (withHash (jsTrim s)) = true)
    (ht1 : t.ltQ (-1) = false) (ht2 : t.gtQ 1 = false)
    (hsteps : steps = 9 ∨ steps = 11) (hmode : mode = "conservative" ∨ mode = "painterly") :
    generateRamp s t steps mode =
      .ok (rampToHex (generateOklchRamp (hexToOklch (toUpperStr (withHash (jsTrim s))))
        t.toReal (if steps = 9 then 9 else 11) mode)) := by
  rw [generateRamp, normalizeHex]
  simp only [hhex, if_true]
  have hv : validateInputs t steps mode = none := by
    rw [validateInputs, ht1, ht2]
    simp only [Bool.or_self, Bool.false_eq_true, if_false]
    rw [if_neg, if_neg]
    · rintro ⟨h1, h2⟩
      rcases hmode with h | h <;> simp_all
    · rintro ⟨h1, h2⟩
      rcases hsteps with h | h <;> simp_all
  rw [hv]

/-! ### Claim C1 — ramp lightness ordering -/

/-- Claim C1 (amended): the lightness of the perceptual ramp built by
`generateOklchRamp` (which the gamut clamp preserves exactly) is
non-decreasing by index, for every base color, temperature, step count and
mode.  Strict increase fails where consecutive lightness values saturate
at the upper bound 0.98, and again after 8-bit hex quantization. -/
theorem c1_lightness_nondecreasing (base : Oklch) (t : ℝ) (steps : ℕ) (mode : String) :
    List.Chain' (· ≤ ·) ((generateOklchRamp base t steps mode).map Oklch.L) := by
  rw [generateOklchRamp, List.map_map]
  cases steps with
  | zero => simp
  | succ n =>
    rw [List.chain'_map, List.chain'_range_succ]
    intro m hm
    rw [Function.comp, Function.comp, rampStep_L, rampStep_L]
    exact lightnessFixed_mono base.L (n + 1) ((n + 1) / 2) m

/-- The property claimed by C1 for one call: every pair of output hexes,
read back through `hexToOklch`, has strictly increasing lightness. -/
def RecoveredLightnessStrictMono (r : Except RampError (List String)) : Prop :=
  ∀ (i j : ℕ) (si sj : String), i < j →
    (r.toOption.bind fun l => l[i]?) = some si →
    (r.toOption.bind fun l => l[j]?) = some sj →
    (hexToOklch si).L < (hexToOklch sj).L

/-! ## Rational certificates for real powers -/

lemma rpow_ratio_pow {x : ℝ} (hx : 0 ≤ x) (n d : ℕ) (hd : (d : ℝ) ≠ 0) :
    (x ^ ((n : ℝ) / (d : ℝ))) ^ d = x ^ n := by
  rw [← Real.rpow_natCast (x ^ ((n : ℝ) / (d : ℝ))) d, ← Real.rpow_mul hx,
    div_mul_cancel₀ _ hd, Real.rpow_natCast]

lemma rpow_ratio_le {x q : ℝ} (hx : 0 ≤ x) (_hq : 0 ≤ q) {n d : ℕ} (hd : d ≠ 0)
    (h : q ^ d ≤ x ^ n) : q ≤ x ^ ((n : ℝ) / (d : ℝ)) := by
  apply le_of_pow_le_pow_left hd (Real.rpow_nonneg hx _)
  rwa [rpow_ratio_pow hx n d (by exact_mod_cast hd)]

lemma rpow_ratio_ge {x q : ℝ} (hx : 0 ≤ x) (hq : 0 ≤ q) {n d : ℕ} (hd : d ≠ 0)
    (h : x ^ n ≤ q ^ d) : x ^ ((n : ℝ) / (d : ℝ)) ≤ q := by
  apply le_of_pow_le_pow_left hd hq
  rwa [rpow_ratio_pow hx n d (by exact_mod_cast hd)]

/-! ## 8-bit rounding of near-white channels -/

/-- For any linear channel value in a window around `0.98³`, the sRGB
transfer function followed by 8-bit rounding yields exactly 248. -/
lemma channel248 {x : ℝ} (h1 : 0.94088 ≤ x) (h2 : x ≤ 0.94151) :
    channelToInt (linearToSrgbChannel x) = 248 := by
  have hx0 : (0 : ℝ) ≤ x := by linarith
  rw [linearToSrgbChannel, if_neg (by linarith : ¬ x ≤ 0.0031308)]
  have hconv : ((1 : ℝ) / 2.4) = ((5 : ℕ) : ℝ) / ((12 : ℕ) : ℝ) := by norm_num
  rw [hconv]
  have hylo : (0.974928 : ℝ) ≤ x ^ (((5 : ℕ) : ℝ) / ((12 : ℕ) : ℝ)) := by
    apply rpow_ratio_le hx0 (by norm_num) (by norm_num)
    calc (0.974928 : ℝ) ^ 12 ≤ 0.94088 ^ 5 := by norm_num
      _ ≤ x ^ 5 := pow_le_pow_left (by norm_num) h1 5
  have hyhi : x ^ (((5 : ℕ) : ℝ) / ((12 : ℕ) : ℝ)) ≤ (0.975201 : ℝ) := by
    apply rpow_ratio_ge hx0 (by norm_num) (by norm_num)
    calc x ^ 5 ≤ (0.94151 : ℝ) ^ 5 := pow_le_pow_left hx0 h2 5
      _ ≤ 0.975201 ^ 12 := by norm_num
  rw [channelToInt, clamp01]
  rw [min_eq_right (by linarith : 1.055 * x ^ (((5 : ℕ) : ℝ) / ((12 : ℕ) : ℝ)) - 0.055 ≤ 1)]
  rw [max_eq_right (by linarith : (0:ℝ) ≤ 1.055 * x ^ (((5 : ℕ) : ℝ) / ((12 : ℕ) : ℝ)) - 0.055)]
  rw [jsRound, Int.floor_eq_iff]
  push_cast
  constructor <;> nlinarith

/-- Rendering a linear RGB triple whose channels all sit in the 248-window
gives the hex string `#f8f8f8`. -/
lemma srgbToHex_near_white {lin : LinearRgb}
    (hr1 : 0.94088 ≤ lin.r) (hr2 : lin.r ≤ 0.94151)
    (hg1 : 0.94088 ≤ lin.g) (hg2 : lin.g ≤ 0.94151)
    (hb1 : 0.94088 ≤ lin.b) (hb2 : lin.b ≤ 0.94151) :
    srgbToHex (linearRgbToSrgb lin) = "#f8f8f8" := by
  rw [linearRgbToSrgb, srgbToHex]
  simp only
  rw [channel248 hr1 hr2, channel248 hg1 hg2, channel248 hb1 hb2]
  decide

set_option maxHeartbeats 2000000 in
/-- Channel deviation bound: if the three cubed LMS-like values are within
`0.0000404` of `0.98³ = 0.941192`, all three linear channels land in the
`channel248` window. -/
lemma oklab_channels_near_white {ca cb : ℝ} (ha : |ca| ≤ 0.00001) (hb : |cb| ≤ 0.00001) :
    0.94088 ≤ (oklabToLinearRgb ⟨0.98, ca, cb⟩).r ∧ (oklabToLinearRgb ⟨0.98, ca, cb⟩).r ≤ 0.94151 ∧
    0.94088 ≤ (oklabToLinearRgb ⟨0.98, ca, cb⟩).g ∧ (oklabToLinearRgb ⟨0.98, ca, cb⟩).g ≤ 0.94151 ∧
    0.94088 ≤ (oklabToLinearRgb ⟨0.98, ca, cb⟩).b ∧ (oklabToLinearRgb ⟨0.98, ca, cb⟩).b ≤ 0.94151 := by
  obtain ⟨ha1, ha2⟩ := abs_le.mp ha
  obtain ⟨hb1, hb2⟩ := abs_le.mp hb
  have hL0 : (0.08 : ℝ) ≤ 0.98 := by norm_num
  have hL1 : (0.98 : ℝ) ≤ 0.98 := le_rfl
  have hc1 : |(0.98 + 0.3963377774 * ca + 0.2158037573 * cb) - 0.98| ≤ 0.000014 := by
    rw [abs_le]; constructor <;> linarith
  have hc2 : |(0.98 - 0.1055613458 * ca - 0.0638541728 * cb) - 0.98| ≤ 0.000014 := by
    rw [abs_le]; constructor <;> linarith
  have hc3 : |(0.98 - 0.0894841775 * ca - 1.2914855480 * cb) - 0.98| ≤ 0.000014 := by
    rw [abs_le]; constructor <;> linarith
  have d1 := abs_le.mp (cube_dev hL0 hL1 hc1)
  have d2 := abs_le.mp (cube_dev hL0 hL1 hc2)
  have d3 := abs_le.mp (cube_dev hL0 hL1 hc3)
  have hcube : (0.98 : ℝ) * 0.98 * 0.98 = 0.941192 := by norm_num
  rw [hcube] at d1 d2 d3
  have hrfl : oklabToLinearRgb ⟨(0.98 : ℝ), ca, cb⟩ =
      ⟨4.0767416621 * ((0.98 + 0.3963377774 * ca + 0.2158037573 * cb) *
          (0.98 + 0.3963377774 * ca + 0.2158037573 * cb) *
          (0.98 + 0.3963377774 * ca + 0.2158037573 * cb)) -
        3.3077115913 * ((0.98 - 0.1055613458 * ca - 0.0638541728 * cb) *
          (0.98 - 0.1055613458 * ca - 0.0638541728 * cb) *
          (0.98 - 0.1055613458 * ca - 0.0638541728 * cb)) +
        0.2309699292 * ((0.98 - 0.0894841775 * ca - 1.2914855480 * cb) *
          (0.98 - 0.0894841775 * ca - 1.2914855480 * cb) *
          (0.98 - 0.0894841775 * ca - 1.2914855480 * cb)),
        -1.2684380046 * ((0.98 + 0.3963377774 * ca + 0.2158037573 * cb) *
          (0.98 + 0.3963377774 * ca + 0.2158037573 * cb) *
          (0.98 + 0.3963377774 * ca + 0.2158037573 * cb)) +
        2.6097574011 * ((0.98 - 0.1055613458 * ca - 0.0638541728 * cb) *
          (0.98 - 0.1055613458 * ca - 0.0638541728 * cb) *
          (0.98 - 0.1055613458 * ca - 0.0638541728 * cb)) -
        0.3413193965 * ((0.98 - 0.0894841775 * ca - 1.2914855480 * cb) *
          (0.98 - 0.0894841775 * ca - 1.2914855480 * cb) *
          (0.98 - 0.0894841775 * ca - 1.2914855480 * cb)),
        -0.0041960863 * ((0.98 + 0.3963377774 * ca + 0.2158037573 * cb) *
          (0.98 + 0.3963377774 * ca + 0.2158037573 * cb) *
          (0.98 + 0.3963377774 * ca + 0.2158037573 * cb)) -
        0.7034186147 * ((0.98 - 0.1055613458 * ca - 0.0638541728 * cb) *
          (0.98 - 0.1055613458 * ca - 0.0638541728 * cb) *
          (0.98 - 0.1055613458 * ca - 0.0638541728 * cb)) +
        1.7076147010 * ((0.98 - 0.0894841775 * ca - 1.2914855480 * cb) *
          (0.98 - 0.0894841775 * ca - 1.2914855480 * cb) *
          (0.98 - 0.0894841775 * ca - 1.2914855480 * cb))⟩ := rfl
  rw [hrfl]
  obtain ⟨e1l, e1r⟩ := d1
  obtain ⟨e2l, e2r⟩ := d2
  obtain ⟨e3l, e3r⟩ := d3
  refine ⟨?_, ?_, ?_, ?_, ?_, ?_⟩ <;> (simp only; linarith)

/-- Any OKLCH color at lightness `0.98` with chroma at most `1e-5` renders
to the hex string `#f8f8f8`, whatever its hue. -/
lemma oklchToHex_near_white {c H : ℝ} (h0 : 0 ≤ c) (h1 : c ≤ 0.00001) :
    oklchToHex ⟨0.98, c, H⟩ = "#f8f8f8" := by
  rw [oklchToHex, oklchToOklab]
  simp only
  have ha : |c * cos (H * (π / 180))| ≤ 0.00001 := by
    rw [abs_mul, abs_of_nonneg h0]
    calc c * |cos (H * (π / 180))| ≤ 0.00001 * 1 :=
          mul_le_mul h1 (Real.abs_cos_le_one _) (abs_nonneg _) (by norm_num)
      _ = 0.00001 := by norm_num
  have hb : |c * sin (H * (π / 180))| ≤ 0.00001 := by
    rw [abs_mul, abs_of_nonneg h0]
    calc c * |sin (H * (π / 180))| ≤ 0.00001 * 1 :=
          mul_le_mul h1 (Real.abs_sin_le_one _) (abs_nonneg _) (by norm_num)
      _ = 0.00001 := by norm_num
  obtain ⟨q1, q2, q3, q4, q5, q6⟩ := oklab_channels_near_white ha hb
  exact srgbToHex_near_white q1 q2 q3 q4 q5 q6

/-! ## Exact facts about the base color `#FFFFFF` -/

lemma jsCbrt_one : jsCbrt 1 = 1 := by
  rw [jsCbrt, if_neg (by norm_num), Real.one_rpow]

lemma srgbToLinearChannel_one : srgbToLinearChannel 1 = 1 := by
  rw [srgbToLinearChannel, if_neg (by norm_num)]
  rw [show ((1 : ℝ) + 0.055) / 1.055 = 1 by norm_num, Real.one_rpow]

lemma oklabToOklch_L (c : Oklab) : (oklabToOklch c).L = c.L := rfl

lemma oklabToOklch_C (c : Oklab) :
    (oklabToOklch c).C = Real.sqrt (c.a * c.a + c.b * c.b) := rfl

/-- `jsCbrt` of `0.9999999999` (the middle LMS row sum at white) is within
`[0.99999999996, 1]`. -/
lemma cbrt_white_m_bounds :
    0.99999999996 ≤ jsCbrt 0.9999999999 ∧ jsCbrt 0.9999999999 ≤ 1 := by
  rw [jsCbrt, if_neg (by norm_num)]
  rw [show (1 : ℝ) / 3 = ((1 : ℕ) : ℝ) / ((3 : ℕ) : ℝ) by norm_num]
  constructor
  · apply rpow_ratio_le (by norm_num) (by norm_num) (by norm_num)
    norm_num
  · apply rpow_ratio_ge (by norm_num) (by norm_num) (by norm_num)
    norm_num

lemma hexToOklch_white :
    hexToOklch "#FFFFFF" =
      oklabToOklch (linearRgbToOklab ⟨1, 1, 1⟩) := by
  have hch : hexChannels "#FFFFFF" = (255, 255, 255) := by decide
  have hsrgb : hexToSrgb "#FFFFFF" = ⟨1, 1, 1⟩ := by
    simp only [hexToSrgb, hch]
    norm_num
  have hlin : srgbToLinearRgb ⟨(1 : ℝ), 1, 1⟩ = ⟨1, 1, 1⟩ := by
    simp only [srgbToLinearRgb, srgbToLinearChannel_one]
  rw [hexToOklch, hsrgb, hlin]

lemma linearRgbToOklab_white :
    linearRgbToOklab ⟨1, 1, 1⟩ =
      ⟨0.2104542553 + 0.7936177850 * jsCbrt 0.9999999999 - 0.0040720468,
       1.9779984951 - 2.4285922050 * jsCbrt 0.9999999999 + 0.4505937099,
       0.0259040371 + 0.7827717662 * jsCbrt 0.9999999999 - 0.8086757660⟩ := by
  rw [linearRgbToOklab]
  simp only
  rw [show (0.4122214708 : ℝ) * 1 + 0.5363325363 * 1 + 0.0514459929 * 1 = 1 by norm_num]
  rw [show (0.2119034982 : ℝ) * 1 + 0.6806995451 * 1 + 0.1073969566 * 1 = 0.9999999999 by norm_num]
  rw [show (0.0883024619 : ℝ) * 1 + 0.2817188376 * 1 + 0.6299787005 * 1 = 1 by norm_num]
  rw [jsCbrt_one]
  norm_num

lemma white_base_props :
    0.98 ≤ (hexToOklch "#FFFFFF").L ∧ 0 ≤ (hexToOklch "#FFFFFF").C ∧
      (hexToOklch "#FFFFFF").C ≤ 0.00000004 := by
  obtain ⟨hm1, hm2⟩ := cbrt_white_m_bounds
  rw [hexToOklch_white, linearRgbToOklab_white]
  refine ⟨?_, ?_, ?_⟩
  · rw [oklabToOklch_L]
    simp only
    linarith
  · rw [oklabToOklch_C]
    exact Real.sqrt_nonneg _
  · rw [oklabToOklch_C]
    simp only
    have haB : |1.9779984951 - 2.4285922050 * jsCbrt 0.9999999999 + 0.4505937099| ≤ 0.0000000001 := by
      rw [abs_le]; constructor <;> linarith
    have hbB : |0.0259040371 + 0.7827717662 * jsCbrt 0.9999999999 - 0.8086757660| ≤ 0.0000000374 := by
      rw [abs_le]; constructor <;> linarith
    obtain ⟨ha1, ha2⟩ := abs_le.mp haB
    obtain ⟨hb1, hb2⟩ := abs_le.mp hbB
    have key : (1.9779984951 - 2.4285922050 * jsCbrt 0.9999999999 + 0.4505937099) *
          (1.9779984951 - 2.4285922050 * jsCbrt 0.9999999999 + 0.4505937099) +
        (0.0259040371 + 0.7827717662 * jsCbrt 0.9999999999 - 0.8086757660) *
          (0.0259040371 + 0.7827717662 * jsCbrt 0.9999999999 - 0.8086757660) ≤
        (0.00000004 : ℝ) ^ 2 := by nlinarith
    calc Real.sqrt _ ≤ Real.sqrt ((0.00000004 : ℝ) ^ 2) := Real.sqrt_le_sqrt key
      _ = 0.00000004 := Real.sqrt_sq (by norm_num)

/-! ## The lightness chain of the `#FFFFFF` ramp saturates at `0.98` -/

lemma baseLightnessOf_high {bL : ℝ} (h : 0.98 ≤ bL) : baseLightnessOf bL = 0.98 := by
  rw [baseLightnessOf, L_MIN, L_MAX, min_eq_left h]
  norm_num

lemma lightness_white_sat {bL : ℝ} (h : 0.98 ≤ bL) :
    lightnessFixed bL 9 4 7 = 0.98 ∧ lightnessFixed bL 9 4 8 = 0.98 := by
  have hbase := baseLightnessOf_high h
  have hadj : ∀ i : ℕ, i ≤ 3 →
      lightnessAdjusted bL 9 4 i = 0.53 + 0.1125 * (i : ℝ) := by
    intro i hi
    interval_cases i <;>
      (rw [lightnessAdjusted, hbase]
       norm_num [lightnessRaw, L_MIN, L_MAX, min_def, max_def])
  have hadj' : ∀ i : ℕ, 4 ≤ i → i ≤ 8 → lightnessAdjusted bL 9 4 i = 0.98 := by
    intro i h4 h8
    interval_cases i <;>
      (rw [lightnessAdjusted, hbase]
       norm_num [lightnessRaw, L_MIN, L_MAX, min_def, max_def])
  have f0 : lightnessFixed bL 9 4 0 = 0.53 := by
    rw [lightnessFixed, hadj 0 (by norm_num)]; norm_num
  have f1 : lightnessFixed bL 9 4 1 = 0.6425 := by
    rw [show (1 : ℕ) = 0 + 1 from rfl, lightnessFixed, f0, hadj 1 (by norm_num)]
    norm_num
  have f2 : lightnessFixed bL 9 4 2 = 0.755 := by
    rw [show (2 : ℕ) = 1 + 1 from rfl, lightnessFixed, f1, hadj 2 (by norm_num)]
    norm_num
  have f3 : lightnessFixed bL 9 4 3 = 0.8675 := by
    rw [show (3 : ℕ) = 2 + 1 from rfl, lightnessFixed, f2, hadj 3 (by norm_num)]
    norm_num
  have f4 : lightnessFixed bL 9 4 4 = 0.98 := by
    rw [show (4 : ℕ) = 3 + 1 from rfl, lightnessFixed, f3, hadj' 4 (by norm_num) (by norm_num)]
    norm_num
  have f5 : lightnessFixed bL 9 4 5 = 0.98 := by
    rw [show (5 : ℕ) = 4 + 1 from rfl, lightnessFixed, f4, hadj' 5 (by norm_num) (by norm_num)]
    norm_num [L_MAX]
  have f6 : lightnessFixed bL 9 4 6 = 0.98 := by
    rw [show (6 : ℕ) = 5 + 1 from rfl, lightnessFixed, f5, hadj' 6 (by norm_num) (by norm_num)]
    norm_num [L_MAX]
  have f7 : lightnessFixed bL 9 4 7 = 0.98 := by
    rw [show (7 : ℕ) = 6 + 1 from rfl, lightnessFixed, f6, hadj' 7 (by norm_num) (by norm_num)]
    norm_num [L_MAX]
  have f8 : lightnessFixed bL 9 4 8 = 0.98 := by
    rw [show (8 : ℕ) = 7 + 1 from rfl, lightnessFixed, f7, hadj' 8 (by norm_num) (by norm_num)]
    norm_num [L_MAX]
  exact ⟨f7, f8⟩

/-! ## Evaluating the white ramp at steps 7 and 8 -/

lemma calculateChroma_bounds_painterly {baseC p : ℝ} (h : 0 ≤ baseC) :
    0 ≤ calculateChroma baseC p painterlyConfig ∧
      calculateChroma baseC p painterlyConfig ≤ baseC := by
  rw [calculateChroma, painterlyConfig]
  simp only
  have hraw0 : (0 : ℝ) ≤ 0.5 + 0.5 * cos (p * π) := by
    have := Real.neg_one_le_cos (p * π)
    linarith
  have hraw1 : (0.5 : ℝ) + 0.5 * cos (p * π) ≤ 1 := by
    have := Real.cos_le_one (p * π)
    linarith
  have hs0 : (0 : ℝ) ≤ (0.5 + 0.5 * cos (p * π)) ^ (0.8 : ℝ) := Real.rpow_nonneg hraw0 _
  have hs1 : (0.5 + 0.5 * cos (p * π)) ^ (0.8 : ℝ) ≤ 1 :=
    Real.rpow_le_one hraw0 hraw1 (by norm_num)
  constructor
  · apply mul_nonneg h
    nlinarith
  · nlinarith

lemma rampStep_white_eval (base : Oklch) (i : ℕ) (hi : i ≤ 8)
    (hL : lightnessFixed base.L 9 (9 / 2) i = 0.98)
    (hC0 : 0 ≤ base.C) (hC1 : base.C ≤ 0.00000004)
    (hH0 : 0 ≤ base.H) (hH1 : base.H < 360) :
    ∃ c, rampStep base 0 9 "painterly" i = ⟨0.98, c, base.H⟩ ∧ 0 ≤ c ∧ c ≤ 0.00001 := by
  have hcfg : modeConfig "painterly" = painterlyConfig := by
    rw [modeConfig, if_neg (by decide)]
  obtain ⟨htc0, htc1⟩ :=
    calculateChroma_bounds_painterly (p := ((i : ℝ) - ((9 / 2 : ℕ) : ℝ)) / ((9 / 2 : ℕ) : ℝ)) hC0
  set p : ℝ := ((i : ℝ) - ((9 / 2 : ℕ) : ℝ)) / ((9 / 2 : ℕ) : ℝ) with hp
  have hp1 : p ≤ 1 := by
    rw [hp]
    have : ((9 / 2 : ℕ) : ℝ) = 4 := by norm_num
    rw [this, div_le_one (by norm_num)]
    have : (i : ℝ) ≤ 8 := by exact_mod_cast hi
    linarith
  set tc := calculateChroma base.C p painterlyConfig with htc
  have hstab : getHueStabilityFactor tc = 0 := by
    rw [getHueStabilityFactor, if_pos]
    rw [HUE_STABILITY_CHROMA_FLOOR]
    linarith
  have hfall0 : (0 : ℝ) ≤ 1 - (max 0 p) ^ (2.2 : ℝ) := by
    have h1 : (max 0 p) ^ (2.2 : ℝ) ≤ 1 :=
      Real.rpow_le_one (le_max_left _ _) (max_le (by norm_num) hp1) (by norm_num)
    linarith
  have hfall1 : 1 - (max 0 p) ^ (2.2 : ℝ) ≤ 1 := by
    have h1 : (0 : ℝ) ≤ (max 0 p) ^ (2.2 : ℝ) := Real.rpow_nonneg (le_max_left _ _) _
    linarith
  have hstd : standardHC base painterlyConfig 0 "painterly" 0.98 p (decide (9 ≤ i + 3)) =
      (base.H, tc * (1 - (max 0 p) ^ (2.2 : ℝ))) := by
    rw [standardHC]
    simp only [calculateBiasedHue_temp_zero, normalizeHue_eq_self hH0 hH1, ← htc, hstab,
      blendHueDegrees_zero_weight hH0 hH1]
    rw [if_neg (by simp), if_neg (by simp)]
  have hCb0 : 0 ≤ tc * (1 - (max 0 p) ^ (2.2 : ℝ)) := mul_nonneg htc0 hfall0
  have hCb1 : tc * (1 - (max 0 p) ^ (2.2 : ℝ)) ≤ 0.00001 := by
    calc tc * (1 - (max 0 p) ^ (2.2 : ℝ)) ≤ tc * 1 := by
          apply mul_le_mul_of_nonneg_left hfall1 htc0
      _ = tc := mul_one _
      _ ≤ base.C := htc1
      _ ≤ 0.00001 := by linarith
  refine ⟨tc * (1 - (max 0 p) ^ (2.2 : ℝ)), ?_, hCb0, hCb1⟩
  rw [rampStep]
  simp only [hcfg, ← hp, hL]
  rw [if_neg (by simp), hstd]
  rw [if_neg (by simp)]
  exact clampToSrgbGamut_of_inGamut
    (inGamut_of_small_chroma (by norm_num) (by norm_num) hCb0 hCb1)

/-- Claim C1 (counterexample): on `#FFFFFF`, temperature 0, 9 steps,
painterly, the lightness profile saturates at 0.98, steps 7 and 8 both
render to `#f8f8f8`, and the recovered lightness is therefore not strictly
increasing. -/
theorem c1_counterexample :
    ¬ RecoveredLightnessStrictMono (generateRamp "#FFFFFF" (JSNum.fin 0) 9 "painterly") := by
  intro hmono
  obtain ⟨hL98, hc0, hc1⟩ := white_base_props
  obtain ⟨hH0, hH1⟩ := hexToOklch_H_mem "#FFFFFF"
  have hsat := lightness_white_sat hL98
  have hshape := @generateRamp_ok_shape "#FFFFFF" (JSNum.fin 0) 9 "painterly"
    (by decide) (by decide) (by decide) (Or.inl rfl) (Or.inr rfl)
  rw [show toUpperStr (withHash (jsTrim "#FFFFFF")) = "#FFFFFF" by decide] at hshape
  rw [show (JSNum.fin 0).toReal = (0 : ℝ) by rw [JSNum.toReal]; norm_num] at hshape
  rw [show (if (9 : ℚ) = 9 then (9 : ℕ) else 11) = 9 from if_pos rfl] at hshape
  obtain ⟨c7, h7, h7a, h7b⟩ := rampStep_white_eval (hexToOklch "#FFFFFF") 7 (by norm_num)
    hsat.1 hc0 hc1 hH0 hH1
  obtain ⟨c8, h8, h8a, h8b⟩ := rampStep_white_eval (hexToOklch "#FFFFFF") 8 (by norm_num)
    hsat.2 hc0 hc1 hH0 hH1
  have hget : ∀ k : ℕ, k < 9 →
      ((generateRamp "#FFFFFF" (JSNum.fin 0) 9 "painterly").toOption.bind fun l => l[k]?) =
        some (oklchToHex (rampStep (hexToOklch "#FFFFFF") 0 9 "painterly" k)) := by
    intro k hk
    rw [hshape]
    simp only [Except.toOption, Option.bind]
    rw [rampToHex, generateOklchRamp, List.map_map, List.getElem?_map,
      List.getElem?_range hk]
    rfl
  have e7 := hget 7 (by norm_num)
  have e8 := hget 8 (by norm_num)
  rw [h7, oklchToHex_near_white h7a h7b] at e7
  rw [h8, oklchToHex_near_white h8a h8b] at e8
  exact lt_irrefl _ (hmono 7 8 "#f8f8f8" "#f8f8f8" (by norm_num) e7 e8)

/-! ## Bounds on parsed colors and on the chroma pipeline -/

lemma hexDigitVal_le (c : Char) : hexDigitVal c ≤ 15 := by
  rw [hexDigitVal]
  split
  · omega
  · split
    · omega
    · split <;> omega

lemma hexPairVal_le (c1 c2 : Char) : hexPairVal c1 c2 ≤ 255 := by
  have h1 := hexDigitVal_le c1
  have h2 := hexDigitVal_le c2
  rw [hexPairVal]
  omega

lemma hexToSrgb_mem (s : String) :
    (0 ≤ (hexToSrgb s).r ∧ (hexToSrgb s).r ≤ 1) ∧
    (0 ≤ (hexToSrgb s).g ∧ (hexToSrgb s).g ≤ 1) ∧
    (0 ≤ (hexToSrgb s).b ∧ (hexToSrgb s).b ≤ 1) := by
  rw [hexToSrgb]
  simp only
  have key : ∀ n : ℕ, n ≤ 255 → 0 ≤ (n : ℝ) / 255 ∧ (n : ℝ) / 255 ≤ 1 := by
    intro n hn
    constructor
    · positivity
    · rw [div_le_one (by norm_num)]
      exact_mod_cast hn
  rcases hch : hexChannels s with ⟨n1, n2, n3⟩
  have hb : n1 ≤ 255 ∧ n2 ≤ 255 ∧ n3 ≤ 255 := by
    rw [hexChannels] at hch
    split at hch
    · next c1 c2 c3 c4 c5 c6 _ =>
      simp only [Prod.mk.injEq] at hch
      exact ⟨hch.1 ▸ hexPairVal_le c1 c2, hch.2.1 ▸ hexPairVal_le c3 c4,
        hch.2.2 ▸ hexPairVal_le c5 c6⟩
    · simp only [Prod.mk.injEq] at hch
      omega
  exact ⟨key n1 hb.1, key n2 hb.2.1, key n3 hb.2.2⟩

lemma srgbToLinearChannel_mem {v : ℝ} (h0 : 0 ≤ v) (h1 : v ≤ 1) :
    0 ≤ srgbToLinearChannel v ∧ srgbToLinearChannel v ≤ 1 := by
  rw [srgbToLinearChannel]
  split
  · constructor
    · positivity
    · next h => rw [div_le_one (by norm_num)]; linarith
  · have ha : (0:ℝ) ≤ (v + 0.055) / 1.055 := by
      apply div_nonneg <;> linarith
    have hb : (v + 0.055) / 1.055 ≤ 1 := by
      rw [div_le_one (by norm_num)]; linarith
    exact ⟨Real.rpow_nonneg ha _, Real.rpow_le_one ha hb (by norm_num)⟩

lemma jsCbrt_mem {x : ℝ} (h0 : 0 ≤ x) (h1 : x ≤ 1) : 0 ≤ jsCbrt x ∧ jsCbrt x ≤ 1 := by
  rw [jsCbrt, if_neg (not_lt.mpr h0)]
  exact ⟨Real.rpow_nonneg h0 _, Real.rpow_le_one h0 h1 (by norm_num)⟩

/-- Any color parsed from a hex string has chroma in `[0, 3]`. -/
lemma hexToOklch_C_bounds (s : String) :
    0 ≤ (hexToOklch s).C ∧ (hexToOklch s).C ≤ 3 := by
  obtain ⟨⟨hr0, hr1⟩, ⟨hg0, hg1⟩, ⟨hb0, hb1⟩⟩ := hexToSrgb_mem s
  rw [hexToOklch]
  set srgb := hexToSrgb s
  obtain ⟨hlr0, hlr1⟩ := srgbToLinearChannel_mem hr0 hr1
  obtain ⟨hlg0, hlg1⟩ := srgbToLinearChannel_mem hg0 hg1
  obtain ⟨hlb0, hlb1⟩ := srgbToLinearChannel_mem hb0 hb1
  rw [srgbToLinearRgb, linearRgbToOklab]
  simp only
  obtain ⟨hc1a, hc1b⟩ := jsCbrt_mem
    (by positivity : (0:ℝ) ≤ 0.4122214708 * srgbToLinearChannel srgb.r +
      0.5363325363 * srgbToLinearChannel srgb.g + 0.0514459929 * srgbToLinearChannel srgb.b)
    (by nlinarith)
  obtain ⟨hc2a, hc2b⟩ := jsCbrt_mem
    (by positivity : (0:ℝ) ≤ 0.2119034982 * srgbToLinearChannel srgb.r +
      0.6806995451 * srgbToLinearChannel srgb.g + 0.1073969566 * srgbToLinearChannel srgb.b)
    (by nlinarith)
  obtain ⟨hc3a, hc3b⟩ := jsCbrt_mem
    (by positivity : (0:ℝ) ≤ 0.0883024619 * srgbToLinearChannel srgb.r +
      0.2817188376 * srgbToLinearChannel srgb.g + 0.6299787005 * srgbToLinearChannel srgb.b)
    (by nlinarith)
  rw [oklabToOklch_C]
  simp only
  constructor
  · exact Real.sqrt_nonneg _
  · rw [show (3:ℝ) = Real.sqrt 9 by
      rw [show (9:ℝ) = 3 ^ 2 by norm_num, Real.sqrt_sq (by norm_num)]]
    apply Real.sqrt_le_sqrt
    nlinarith

lemma smoothstep_mem (e0 e1 x : ℝ) : 0 ≤ smoothstep e0 e1 x ∧ smoothstep e0 e1 x ≤ 1 := by
  rw [smoothstep]
  set u := max 0 (min 1 ((x - e0) / (e1 - e0))) with hu
  have hu0 : 0 ≤ u := le_max_left _ _
  have hu1 : u ≤ 1 := by
    rw [hu]
    apply max_le (by norm_num)
    exact min_le_left _ _
  constructor
  · nlinarith
  · nlinarith [mul_nonneg (sq_nonneg (1 - u)) (by linarith : (0:ℝ) ≤ 1 + 2 * u)]

lemma calculateChroma_mem {baseC p : ℝ} (config : ModeConfig) (h : 0 ≤ baseC)
    (hr0 : 0 ≤ config.chromaRetention) (hr1 : config.chromaRetention ≤ 1)
    (he : 0 ≤ config.chromaCurveExponent) :
    0 ≤ calculateChroma baseC p config ∧ calculateChroma baseC p config ≤ baseC := by
  rw [calculateChroma]
  have hraw0 : (0 : ℝ) ≤ 0.5 + 0.5 * cos (p * π) := by
    have := Real.neg_one_le_cos (p * π); linarith
  have hraw1 : (0.5 : ℝ) + 0.5 * cos (p * π) ≤ 1 := by
    have := Real.cos_le_one (p * π); linarith
  have hs0 : (0 : ℝ) ≤ (0.5 + 0.5 * cos (p * π)) ^ config.chromaCurveExponent :=
    Real.rpow_nonneg hraw0 _
  have hs1 : (0.5 + 0.5 * cos (p * π)) ^ config.chromaCurveExponent ≤ 1 :=
    Real.rpow_le_one hraw0 hraw1 he
  constructor
  · apply mul_nonneg h
    nlinarith
  · nlinarith [mul_nonneg (mul_nonneg h
      (by linarith : (0:ℝ) ≤ 1 - config.chromaRetention))
      (by linarith : (0:ℝ) ≤ 1 - (0.5 + 0.5 * cos (p * π)) ^ config.chromaCurveExponent)]

lemma modeConfig_bounds (mode : String) :
    0 ≤ (modeConfig mode).chromaRetention ∧ (modeConfig mode).chromaRetention ≤ 1 ∧
    0 ≤ (modeConfig mode).chromaCurveExponent ∧
    0.008 ≤ (modeConfig mode).neutralEndpointChromaFloor ∧
    (modeConfig mode).neutralEndpointChromaFloor ≤ 0.015 ∧
    0 ≤ (modeConfig mode).neutralTintStrength ∧ (modeConfig mode).neutralTintStrength ≤ 1 ∧
    0 ≤ (modeConfig mode).neutralCurveExponent ∧
    0 ≤ (modeConfig mode).maxHueShift ∧ (modeConfig mode).maxHueShift ≤ 38 ∧
    0 ≤ (modeConfig mode).convergenceStrength ∧ (modeConfig mode).convergenceStrength ≤ 0.85 := by
  rw [modeConfig]
  split <;> norm_num [conservativeConfig, painterlyConfig]

/-- At a non-highlight position the standard branch's chroma is exactly the
midtone curve value. -/
lemma standardHC_C_of_nonpos (base : Oklch) (config : ModeConfig) (t : ℝ) (mode : String)
    (L p : ℝ) (top3 : Bool) (hp : p ≤ 0) :
    (standardHC base config t mode L p top3).2 = calculateChroma base.C p config := by
  rw [standardHC]
  simp only
  rw [if_neg (by rintro ⟨h, -⟩; exact absurd h (not_lt.mpr hp))]
  simp only
  rw [max_eq_left hp, Real.zero_rpow (by norm_num)]
  ring

/-- At the very top step (`p = 1`) the highlight falloff collapses the
standard branch's chroma to zero. -/
lemma standardHC_C_of_one (base : Oklch) (config : ModeConfig) (t : ℝ) (mode : String)
    (L : ℝ) (top3 : Bool) :
    (standardHC base config t mode L 1 top3).2 = 0 := by
  rw [standardHC]
  simp only
  rw [max_eq_right (by norm_num : (0:ℝ) ≤ 1), Real.one_rpow]
  rw [show calculateChroma base.C 1 config * (1 - 1) = 0 by ring]
  have hfade : smoothstep CONVERGENCE_CHROMA_MIN CONVERGENCE_CHROMA_REF 0 = 0 := by
    rw [smoothstep, CONVERGENCE_CHROMA_MIN, CONVERGENCE_CHROMA_REF]
    norm_num [min_def, max_def]
  split
  · rw [hfade]
    rw [if_neg (by norm_num)]
  · rfl

lemma neutralHC_C_mem (config : ModeConfig) (t p : ℝ) (ht : |t| ≤ 1) (hp : |p| ≤ 1)
    (hts0 : 0 ≤ config.neutralTintStrength) (hts1 : config.neutralTintStrength ≤ 1)
    (hexp : 0 ≤ config.neutralCurveExponent) :
    0 ≤ (neutralHC config t p).2 ∧ (neutralHC config t p).2 ≤ 0.035 := by
  rw [neutralHC]
  simp only
  have hpw0 : (0:ℝ) ≤ |p| ^ config.neutralCurveExponent := Real.rpow_nonneg (abs_nonneg _) _
  have hpw1 : |p| ^ config.neutralCurveExponent ≤ 1 :=
    Real.rpow_le_one (abs_nonneg _) hp hexp
  have ht0 : (0:ℝ) ≤ |t| := abs_nonneg _
  rw [NEUTRAL_TINT_C_MAX]
  have hA0 : 0 ≤ |p| ^ config.neutralCurveExponent * |t| := mul_nonneg hpw0 ht0
  have hA : |p| ^ config.neutralCurveExponent * |t| ≤ 1 := by nlinarith
  have hB : |p| ^ config.neutralCurveExponent * |t| * config.neutralTintStrength ≤ 1 := by
    nlinarith
  constructor
  · positivity
  · nlinarith

/-- The 20-iteration chroma search returns a strictly positive value
whenever lightness is in `[0.08, 0.98]` and the initial chroma is positive
and at most `2ⁿ · 10⁻⁵`. -/
lemma clampSearch_pos {L H : ℝ} (hL0 : 0.08 ≤ L) (hL1 : L ≤ 0.98) :
    ∀ n : ℕ, ∀ high : ℝ, 0 < high → high ≤ 2 ^ n * 0.00001 → 1 ≤ n →
      0 < clampSearch L H n 0 high := by
  intro n
  induction n with
  | zero => intro high _ _ h1; omega
  | succ n ih =>
    intro high hpos hbound _
    rw [clampSearch]
    by_cases hg : inGamutTol ⟨L, (0 + high) / 2, H⟩
    · rw [if_pos hg]
      have := (@clampSearch_le L H n ((0 + high) / 2) high (by linarith)).1
      linarith
    · rw [if_neg hg]
      have hbig : 0.00001 < (0 + high) / 2 := by
        by_contra hle
        push_neg at hle
        exact hg (inGamut_of_small_chroma hL0 hL1 (by linarith) hle)
      rcases Nat.eq_zero_or_pos n with hn | hn
      · subst hn
        exfalso
        have : (2:ℝ) ^ 1 * 0.00001 = 0.00002 := by norm_num
        rw [this] at hbound
        linarith
      · have h2 : (2:ℝ) ^ (n + 1) = 2 * 2 ^ n := by ring
        apply ih ((0 + high) / 2) (by linarith)
        · rw [h2] at hbound
          linarith
        · exact hn

/-- The gamut clamp keeps chroma strictly positive for colors in the
engine's lightness range with positive chroma at most 10. -/
lemma clamp_C_pos {c : Oklch} (hL0 : 0.08 ≤ c.L) (hL1 : c.L ≤ 0.98)
    (h0 : 0 < c.C) (h10 : c.C ≤ 10) : 0 < (clampToSrgbGamut c).C := by
  rw [clampToSrgbGamut]
  split
  · exact h0
  · show 0 < clampSearch c.L c.H 20 0 c.C
    apply clampSearch_pos hL0 hL1 20 c.C h0 _ (by norm_num)
    calc c.C ≤ 10 := h10
      _ ≤ 2 ^ 20 * 0.00001 := by norm_num

/-- Both endpoint steps get strictly positive chroma whenever the
temperature is non-zero. -/
lemma rampStep_C_pos_endpoint (base : Oklch) (t : ℝ) (steps : ℕ) (mode : String) (i : ℕ)
    (ht : t ≠ 0) (ht1 : |t| ≤ 1) (hC0 : 0 ≤ base.C) (hC3 : base.C ≤ 3)
    (hi : i = 0 ∨ i = steps - 1) (hsteps : steps = 9 ∨ steps = 11) :
    0 < (rampStep base t steps mode i).C := by
  obtain ⟨b1, b2, b3, b4, b5, b6, b7, b8, -⟩ := modeConfig_bounds mode
  have hp : ((i : ℝ) - ((steps / 2 : ℕ) : ℝ)) / ((steps / 2 : ℕ) : ℝ) = -1 ∨
      ((i : ℝ) - ((steps / 2 : ℕ) : ℝ)) / ((steps / 2 : ℕ) : ℝ) = 1 := by
    rcases hsteps with h | h <;> rcases hi with h2 | h2 <;> subst h <;> subst h2 <;>
      norm_num
  have hupper : ∀ p : ℝ, p = -1 ∨ p = 1 →
      (if base.C ≤ NEUTRAL_BASE_C_MAX ∧ t ≠ 0 then neutralHC (modeConfig mode) t p
        else standardHC base (modeConfig mode) t mode
          (lightnessFixed base.L steps (steps / 2) i) p (decide (steps ≤ i + 3))).2 ≤ 3 := by
    intro p hpv
    split
    · have := neutralHC_C_mem (modeConfig mode) t p ht1
        (by rcases hpv with h | h <;> subst h <;> norm_num) b6 b7 b8
      linarith [this.2]
    · rcases hpv with h | h <;> subst h
      · rw [standardHC_C_of_nonpos _ _ _ _ _ _ _ (by norm_num)]
        have := @calculateChroma_mem base.C (-1) (modeConfig mode) hC0 b1 b2 b3
        linarith [this.2]
      · rw [standardHC_C_of_one]
        norm_num
  have hfloor : 0.008 * |t| ≤ (if base.C ≤ NEUTRAL_BASE_C_MAX then
      (modeConfig mode).neutralEndpointChromaFloor else (0.015 : ℝ)) * |t| := by
    apply mul_le_mul_of_nonneg_right _ (abs_nonneg t)
    split
    · exact b4
    · norm_num
  have htpos : 0 < |t| := abs_pos.mpr ht
  rw [rampStep]
  simp only
  apply clamp_C_pos
  · show (0.08 : ℝ) ≤ lightnessFixed base.L steps (steps / 2) i
    have := (lightnessFixed_mem base.L steps (steps / 2) i).1
    rw [L_MIN] at this
    exact this
  · show lightnessFixed base.L steps (steps / 2) i ≤ (0.98 : ℝ)
    have := (lightnessFixed_mem base.L steps (steps / 2) i).2
    rw [L_MAX] at this
    exact this
  · show (0 : ℝ) < _
    rw [if_pos ⟨hi, ht⟩]
    calc (0:ℝ) < 0.008 * |t| := by positivity
      _ ≤ _ * |t| := hfloor
      _ ≤ max _ _ := le_max_right _ _
  · show _ ≤ (10 : ℝ)
    rw [if_pos ⟨hi, ht⟩]
    apply max_le
    · have := hupper _ hp
      linarith [hupper _ hp]
    · have h1 : (if base.C ≤ NEUTRAL_BASE_C_MAX then
          (modeConfig mode).neutralEndpointChromaFloor else (0.015:ℝ)) ≤ 0.015 := by
        split
        · exact b5
        · norm_num
      nlinarith [abs_nonneg t]

/-- Claim C2: with non-zero temperature both endpoint steps of the
perceptual ramp produced by `generateRamp`'s pipeline keep strictly
positive chroma (the endpoint floor survives gamut clamping), so the
endpoints are tinted, never neutral grey. -/
theorem c2_endpoints_tinted (s : String) (t : ℝ) (steps : ℕ) (mode : String)
    (ht : t ≠ 0) (ht1 : |t| ≤ 1) (hsteps : steps = 9 ∨ steps = 11) :
    ∀ c1 c2 : Oklch,
      (generateOklchRamp (hexToOklch s) t steps mode)[0]? = some c1 →
      (generateOklchRamp (hexToOklch s) t steps mode)[steps - 1]? = some c2 →
      0 < c1.C ∧ 0 < c2.C := by
  intro c1 c2 h1 h2
  obtain ⟨hb0, hb3⟩ := hexToOklch_C_bounds s
  have hs0 : 0 < steps := by rcases hsteps with h | h <;> omega
  have hkey : ∀ k : ℕ, k < steps → ∀ c : Oklch,
      (generateOklchRamp (hexToOklch s) t steps mode)[k]? = some c →
      c = rampStep (hexToOklch s) t steps mode k := by
    intro k hk c hc
    rw [generateOklchRamp, List.getElem?_map, List.getElem?_range hk] at hc
    simp only [Option.map_some'] at hc
    exact (Option.some_inj.mp hc).symm
  have e1 := hkey 0 hs0 c1 h1
  have e2 := hkey (steps - 1) (by omega) c2 h2
  subst e1
  subst e2
  exact ⟨rampStep_C_pos_endpoint _ t steps mode 0 ht ht1 hb0 hb3 (Or.inl rfl) hsteps,
    rampStep_C_pos_endpoint _ t steps mode (steps - 1) ht ht1 hb0 hb3 (Or.inr rfl) hsteps⟩

/-- Instantiation of the endpoint-tint theorem at the default inputs. -/
theorem c2_endpoints_tinted_witness :
    (0.6 : ℝ) ≠ 0 ∧ |(0.6 : ℝ)| ≤ 1 ∧ ((9 : ℕ) = 9 ∨ (9 : ℕ) = 11) ∧
    (0 < (rampStep (hexToOklch "#2F6FED") 0.6 9 "painterly" 0).C ∧
      0 < (rampStep (hexToOklch "#2F6FED") 0.6 9 "painterly" 8).C) :=
  ⟨by norm_num, by rw [abs_le]; norm_num, Or.inl rfl,
    c2_endpoints_tinted "#2F6FED" 0.6 9 "painterly" (by norm_num)
      (by rw [abs_le]; norm_num) (Or.inl rfl)
      (rampStep (hexToOklch "#2F6FED") 0.6 9 "painterly" 0)
      (rampStep (hexToOklch "#2F6FED") 0.6 9 "painterly" 8)
      (by rw [generateOklchRamp]; rfl)
      (by rw [generateOklchRamp]; rfl)⟩

/-! ## Evaluation on the pure-black base -/

lemma jsCbrt_zero : jsCbrt 0 = 0 := by
  rw [jsCbrt, if_neg (by norm_num)]
  exact Real.zero_rpow (by norm_num)

lemma srgbToLinearChannel_zero : srgbToLinearChannel 0 = 0 := by
  rw [srgbToLinearChannel, if_pos (by norm_num)]
  norm_num

lemma jsAtan2_zero_zero : jsAtan2 0 0 = 0 := by
  rw [jsAtan2]
  norm_num

lemma hexToOklch_black : hexToOklch "#000000" = ⟨0, 0, 0⟩ := by
  have h1 : hexToSrgb "#000000" = ⟨0, 0, 0⟩ := by
    rw [hexToSrgb, show hexChannels "#000000" = (0, 0, 0) from rfl]
    simp only [Srgb.mk.injEq]
    norm_num
  have h2 : srgbToLinearRgb (Srgb.mk 0 0 0) = ⟨0, 0, 0⟩ := by
    rw [srgbToLinearRgb]
    simp only [LinearRgb.mk.injEq]
    exact ⟨srgbToLinearChannel_zero, srgbToLinearChannel_zero, srgbToLinearChannel_zero⟩
  have h3 : linearRgbToOklab (LinearRgb.mk 0 0 0) = ⟨0, 0, 0⟩ := by
    rw [linearRgbToOklab]
    simp only [Oklab.mk.injEq]
    norm_num [jsCbrt_zero]
  have h4 : oklabToOklch (Oklab.mk 0 0 0) = ⟨0, 0, 0⟩ := by
    rw [oklabToOklch]
    simp only [Oklch.mk.injEq]
    rw [jsAtan2_zero_zero]
    norm_num
  rw [hexToOklch, h1, h2, h3, h4]

/-- With a neutral base and non-zero temperature, a ramp step's hue is the
neutral branch's anchor hue (which ignores the mode configuration). -/
lemma rampStep_H_of_neutral (base : Oklch) (t : ℝ) (steps : ℕ) (mode : String) (i : ℕ)
    (h : base.C ≤ NEUTRAL_BASE_C_MAX) (ht : t ≠ 0) :
    (rampStep base t steps mode i).H =
      (neutralHC (modeConfig mode) t
        (((i : ℝ) - ((steps / 2 : ℕ) : ℝ)) / ((steps / 2 : ℕ) : ℝ))).1 := by
  rw [rampStep]
  simp only
  rw [clampToSrgbGamut_H]
  rw [if_pos (And.intro h ht)]

/-- The neutral branch's hue target does not depend on the mode
configuration. -/
lemma neutralHC_H_config (c1 c2 : ModeConfig) (t p : ℝ) :
    (neutralHC c1 t p).1 = (neutralHC c2 t p).1 := rfl

/-! ## Hue arithmetic: displacement through `blendHueDegrees` -/

lemma jsTrunc_eq_zero {x : ℝ} (h0 : -1 < x) (h1 : x < 1) : jsTrunc x = 0 := by
  rw [jsTrunc]
  split
  · next h => rw [Int.floor_eq_zero_iff]; exact Set.mem_Ico.mpr ⟨h, h1⟩
  · next h =>
    push_neg at h
    rw [neg_eq_zero, Int.floor_eq_zero_iff]
    exact Set.mem_Ico.mpr ⟨by linarith, by linarith⟩

lemma jsMod360_self {x : ℝ} (h0 : -360 < x) (h1 : x < 360) : jsMod x 360 = x := by
  rw [jsMod, jsTrunc_eq_zero]
  · push_cast; ring
  · rw [show (-1 : ℝ) = -360 / 360 by norm_num]
    exact div_lt_div_of_pos_right h0 (by norm_num)
  · rw [div_lt_one (by norm_num)]; exact h1

lemma jsMod360_nonneg {a : ℝ} (ha : 0 ≤ a) : 0 ≤ jsMod a 360 ∧ jsMod a 360 < 360 := by
  rw [jsMod, jsTrunc, if_pos (div_nonneg ha (by norm_num))]
  have h1 := Int.floor_le (a / 360)
  have h2 := Int.lt_floor_add_one (a / 360)
  have h1' : (⌊a / 360⌋ : ℝ) * 360 ≤ a := by
    have := mul_le_mul_of_nonneg_right h1 (by norm_num : (0:ℝ) ≤ 360)
    rwa [div_mul_cancel₀ a (by norm_num : (360:ℝ) ≠ 0)] at this
  have h2' : a < ((⌊a / 360⌋ : ℝ) + 1) * 360 := by
    have := mul_lt_mul_of_pos_right h2 (by norm_num : (0:ℝ) < 360)
    rwa [div_mul_cancel₀ a (by norm_num : (360:ℝ) ≠ 0)] at this
  constructor <;> nlinarith

lemma jsMod360_neg_eq {x : ℝ} (hx : x < 0) : jsMod x 360 = -(jsMod (-x) 360) := by
  rw [jsMod, jsMod, jsTrunc, jsTrunc,
    if_neg (not_le.mpr (div_neg_of_neg_of_pos hx (by norm_num))),
    if_pos (div_nonneg (by linarith) (by norm_num)), neg_div]
  push_cast
  ring

lemma jsMod360_bounds (x : ℝ) : -360 < jsMod x 360 ∧ jsMod x 360 < 360 := by
  rcases le_or_lt 0 x with h | h
  · obtain ⟨h1, h2⟩ := jsMod360_nonneg h
    exact ⟨by linarith, h2⟩
  · rw [jsMod360_neg_eq h]
    obtain ⟨h1, h2⟩ := jsMod360_nonneg (by linarith : (0:ℝ) ≤ -x)
    constructor <;> linarith

lemma normalizeHue_mem (h : ℝ) : 0 ≤ normalizeHue h ∧ normalizeHue h < 360 := by
  rw [normalizeHue]
  obtain ⟨hl, hr⟩ := jsMod360_bounds h
  split
  · next hneg => constructor <;> linarith
  · next hpos => push_neg at hpos; exact ⟨hpos, hr⟩

lemma normalizeHue_of_neg {x : ℝ} (h0 : -360 < x) (h1 : x < 0) : normalizeHue x = x + 360 := by
  rw [normalizeHue, jsMod360_self h0 (by linarith), if_pos h1]

lemma hueDifference_mem (h1 h2 : ℝ) :
    -180 < hueDifference h1 h2 ∧ hueDifference h1 h2 ≤ 180 := by
  rw [hueDifference]
  obtain ⟨hl, hr⟩ := normalizeHue_mem (h2 - h1)
  split
  · next h => constructor <;> linarith
  · next h => push_neg at h; exact ⟨by linarith, h⟩

lemma hueDifference_abs_le (h1 h2 : ℝ) : |hueDifference h1 h2| ≤ 180 := by
  obtain ⟨hl, hr⟩ := hueDifference_mem h1 h2
  rw [abs_le]
  constructor <;> linarith

lemma wrap360_of_neg {x : ℝ} (h0 : -360 < x) (h1 : x < 0) : wrap360 x = x + 360 := by
  rw [wrap360, jsMod360_self h0 (by linarith), jsMod_eq_self (by linarith) (by linarith)]

lemma wrap360_of_ge {x : ℝ} (h0 : 360 ≤ x) (h1 : x < 720) : wrap360 x = x - 360 := by
  have hin : jsMod x 360 = x - 360 := by
    rw [jsMod, jsTrunc, if_pos (div_nonneg (by linarith) (by norm_num))]
    have hfl : ⌊x / 360⌋ = 1 := by
      rw [Int.floor_eq_iff]
      constructor
      · push_cast
        rw [le_div_iff (by norm_num : (0:ℝ) < 360)]
        linarith
      · push_cast
        rw [div_lt_iff (by norm_num : (0:ℝ) < 360)]
        linarith
    rw [hfl]
    push_cast
    ring
  rw [wrap360, hin, jsMod_add_360 (by linarith) (by linarith)]

lemma wrap360_mem (x : ℝ) : 0 ≤ wrap360 x ∧ wrap360 x < 360 := by
  rw [wrap360]
  obtain ⟨hl, hr⟩ := jsMod360_bounds x
  exact jsMod360_nonneg (by linarith)

lemma blendHueDegrees_mem (h1 h2 w : ℝ) :
    0 ≤ blendHueDegrees h1 h2 w ∧ blendHueDegrees h1 h2 w < 360 := by
  rw [blendHueDegrees]
  exact wrap360_mem _

/-- Displacement produced by wrapping `h1 + e` when `|e| < 180`: the
shortest-arc difference back to `h1` is exactly `e`. -/
lemma hueDisp_wrap {h1 e : ℝ} (hh1 : 0 ≤ h1) (hh1' : h1 < 360) (he : |e| < 180) :
    hueDifference h1 (wrap360 (h1 + e)) = e := by
  rw [abs_lt] at he
  obtain ⟨he1, he2⟩ := he
  rcases lt_or_le (h1 + e) 0 with hc | hc
  · rw [wrap360_of_neg (by linarith) hc, hueDifference,
      show h1 + e + 360 - h1 = e + 360 by ring,
      normalizeHue_eq_self (by linarith) (by linarith), if_pos (by linarith)]
    ring
  · rcases lt_or_le (h1 + e) 360 with hd | hd
    · rw [wrap360_eq_self hc hd, hueDifference, show h1 + e - h1 = e by ring]
      rcases lt_or_le e 0 with he' | he'
      · rw [normalizeHue_of_neg (by linarith) he', if_pos (by linarith)]
        ring
      · rw [normalizeHue_eq_self he' (by linarith), if_neg (by linarith)]
    · rw [wrap360_of_ge hd (by linarith), hueDifference,
        show h1 + e - 360 - h1 = e - 360 by ring,
        normalizeHue_of_neg (by linarith) (by linarith), if_neg (by linarith)]
      ring

/-- The magnitude of the displacement produced by `blendHueDegrees` is the
magnitude of the shortest-arc difference scaled by the weight. -/
lemma hueDisp_blend {h1 h2 w : ℝ} (hh1 : 0 ≤ h1) (hh1' : h1 < 360)
    (hh2 : 0 ≤ h2) (hh2' : h2 < 360) (hw0 : 0 ≤ w)
    (hsmall : |hueDifference h1 h2| * w < 180) :
    |hueDifference h1 (blendHueDegrees h1 h2 w)| = |hueDifference h1 h2| * w := by
  have hδ : ∃ δ : ℝ, blendHueDegrees h1 h2 w = wrap360 (h1 + δ * w) ∧
      |δ| = |hueDifference h1 h2| := by
    rw [blendHueDegrees]
    rw [wrap360_eq_self hh1 hh1', wrap360_eq_self hh2 hh2']
    have hx0 : -360 < h2 - h1 := by linarith
    have hx1 : h2 - h1 < 360 := by linarith
    rcases lt_or_le 180 (h2 - h1) with hA | hA
    · rw [if_pos hA, if_neg (by linarith : ¬ h2 - h1 - 360 < -180)]
      refine ⟨h2 - h1 - 360, rfl, ?_⟩
      rw [hueDifference, normalizeHue_eq_self (by linarith) hx1, if_pos hA]
    · rw [if_neg (not_lt.mpr hA)]
      rcases lt_or_le (h2 - h1) (-180) with hB | hB
      · rw [if_pos hB]
        refine ⟨h2 - h1 + 360, rfl, ?_⟩
        rw [hueDifference, normalizeHue_of_neg hx0 (by linarith), if_neg (by linarith)]
      · rw [if_neg (not_lt.mpr hB)]
        refine ⟨h2 - h1, rfl, ?_⟩
        rcases lt_or_le (h2 - h1) 0 with hC | hC
        · rcases eq_or_lt_of_le hB with hE | hE
          · rw [hueDifference, ← hE, normalizeHue_of_neg (by norm_num) (by norm_num)]
            norm_num
          · rw [hueDifference, normalizeHue_of_neg hx0 hC, if_pos (by linarith)]
            congr 1
            ring
        · rw [hueDifference, normalizeHue_eq_self hC (by linarith),
            if_neg (by linarith)]
  obtain ⟨δ, hblend, habs⟩ := hδ
  have hbound : |δ * w| < 180 := by
    rw [abs_mul, habs, abs_of_nonneg hw0]
    exact hsmall
  rw [hblend, hueDisp_wrap hh1 hh1' hbound, abs_mul, habs, abs_of_nonneg hw0]

/-! ## Evaluating the shadow-extreme hue of a ramp step -/

lemma calculateChroma_neg_one {C : ℝ} (config : ModeConfig)
    (he : 0 < config.chromaCurveExponent) :
    calculateChroma C (-1) config = C * config.chromaRetention := by
  rw [calculateChroma]
  rw [show (-1 : ℝ) * π = -π by ring, Real.cos_neg, Real.cos_pi,
    show (0.5 : ℝ) + 0.5 * (-1) = 0 by norm_num, Real.zero_rpow he.ne']
  ring

lemma getHueStabilityFactor_sat {c : ℝ} (h : 0.045 ≤ c) : getHueStabilityFactor c = 1 := by
  rw [getHueStabilityFactor, if_neg (by rw [HUE_STABILITY_CHROMA_FLOOR]; linarith),
    if_pos (by rw [HUE_STABILITY_CHROMA_REF]; exact h)]

lemma mapTemperature_abs {t : ℝ} (ht : t ≠ 0) :
    |mapTemperature t| = |t| ^ (1.6 : ℝ) := by
  rw [mapTemperature, TEMP_RESPONSE_EXPONENT, abs_mul]
  have hs : |jsSign t| = 1 := by
    rw [jsSign]
    rcases lt_trichotomy t 0 with h | h | h
    · rw [if_neg (by linarith), if_pos h]; norm_num
    · exact absurd h ht
    · rw [if_pos h]; norm_num
  rw [hs, one_mul, abs_of_nonneg (Real.rpow_nonneg (abs_nonneg t) _)]

lemma calculateBiasedHue_shadow {h t mw : ℝ} (ht : t ≠ 0) :
    calculateBiasedHue h (-1) t mw =
      blendHueDegrees h (if 0 < t then COOL_ANCHOR_H else WARM_ANCHOR_H)
        (|t| ^ (1.6 : ℝ) * mw) := by
  rw [calculateBiasedHue, if_neg (by push_neg; exact ⟨ht, by norm_num⟩)]
  simp only
  rw [show |(-1 : ℝ)| ^ (1.1 : ℝ) = 1 by rw [abs_neg, abs_one, Real.one_rpow]]
  rw [mapTemperature_abs ht]
  have hanchor : (if 0 < t then (if 0 < (-1:ℝ) then WARM_ANCHOR_H else COOL_ANCHOR_H)
      else (if 0 < (-1:ℝ) then COOL_ANCHOR_H else WARM_ANCHOR_H)) =
      (if 0 < t then COOL_ANCHOR_H else WARM_ANCHOR_H) := by
    norm_num
  rw [hanchor, one_mul]

lemma modeConfig_exp_pos (mode : String) : 0 < (modeConfig mode).chromaCurveExponent := by
  rw [modeConfig]
  split <;> norm_num [conservativeConfig, painterlyConfig]

lemma modeConfig_retention_ge (mode : String) : 0.28 ≤ (modeConfig mode).chromaRetention := by
  rw [modeConfig]
  split <;> norm_num [conservativeConfig, painterlyConfig]

/-- At the shadow extreme (index 0), for a base chromatic enough to
saturate the hue-stability damping in both modes, the magnitude of the hue
displacement equals the shortest-arc distance to the mode's shadow anchor
scaled by `|t|^1.6 · maxHueShift / 90`. -/
lemma rampStep_H_shadow (base : Oklch) (t : ℝ) (steps : ℕ) (mode : String)
    (hH0 : 0 ≤ base.H) (hH1 : base.H < 360) (hC : 0.161 ≤ base.C)
    (ht : t ≠ 0) (ht1 : |t| ≤ 1) (hsteps : steps = 9 ∨ steps = 11) :
    |hueDifference base.H (rampStep base t steps mode 0).H| =
      |hueDifference base.H (if 0 < t then COOL_ANCHOR_H else WARM_ANCHOR_H)| *
        (|t| ^ (1.6 : ℝ) * ((modeConfig mode).maxHueShift / 90)) := by
  have hpv : (((0:ℕ) : ℝ) - ((steps / 2 : ℕ) : ℝ)) / ((steps / 2 : ℕ) : ℝ) = -1 := by
    rcases hsteps with h | h <;> subst h <;> norm_num
  have htop : decide (steps ≤ 0 + 3) = false := by
    rcases hsteps with h | h <;> subst h <;> rfl
  rw [rampStep]
  simp only
  rw [clampToSrgbGamut_H]
  have hnb : ¬ (base.C ≤ NEUTRAL_BASE_C_MAX ∧ t ≠ 0) := by
    rintro ⟨h, -⟩
    rw [NEUTRAL_BASE_C_MAX] at h
    linarith
  rw [if_neg hnb, hpv, htop, standardHC]
  simp only
  have htc : calculateChroma base.C (-1) (modeConfig mode) =
      base.C * (modeConfig mode).chromaRetention :=
    calculateChroma_neg_one _ (modeConfig_exp_pos mode)
  have hsat : 0.045 ≤ calculateChroma base.C (-1) (modeConfig mode) := by
    rw [htc]
    have hr := modeConfig_retention_ge mode
    nlinarith
  rw [getHueStabilityFactor_sat hsat]
  rw [if_neg (by rintro ⟨-, -, hfb⟩; simp at hfb)]
  rw [if_neg (by rintro ⟨hneg, -⟩; norm_num at hneg)]
  rw [calculateBiasedHue_shadow ht]
  set A := (if 0 < t then COOL_ANCHOR_H else WARM_ANCHOR_H) with hA
  have hA0 : 0 ≤ A ∧ A < 360 := by
    rw [hA]
    split <;> norm_num [COOL_ANCHOR_H, WARM_ANCHOR_H]
  have hms0 : 0 ≤ (modeConfig mode).maxHueShift := (modeConfig_bounds mode).2.2.2.2.2.2.2.2.1
  have hms1 : (modeConfig mode).maxHueShift ≤ 38 := (modeConfig_bounds mode).2.2.2.2.2.2.2.2.2.1
  have htw0 : (0:ℝ) ≤ |t| ^ (1.6 : ℝ) := Real.rpow_nonneg (abs_nonneg t) _
  have htw1 : |t| ^ (1.6 : ℝ) ≤ 1 := Real.rpow_le_one (abs_nonneg t) ht1 (by norm_num)
  have hw0 : 0 ≤ |t| ^ (1.6 : ℝ) * ((modeConfig mode).maxHueShift / 90) := by positivity
  have hw1 : |t| ^ (1.6 : ℝ) * ((modeConfig mode).maxHueShift / 90) ≤ 38 / 90 := by
    nlinarith
  have hdle := hueDifference_abs_le base.H A
  have hinner : |hueDifference base.H
      (blendHueDegrees base.H A (|t| ^ (1.6 : ℝ) * ((modeConfig mode).maxHueShift / 90)))| =
      |hueDifference base.H A| * (|t| ^ (1.6 : ℝ) * ((modeConfig mode).maxHueShift / 90)) := by
    apply hueDisp_blend hH0 hH1 hA0.1 hA0.2 hw0
    nlinarith
  have hraw := blendHueDegrees_mem base.H A (|t| ^ (1.6 : ℝ) * ((modeConfig mode).maxHueShift / 90))
  have houter := hueDisp_blend hH0 hH1 hraw.1 hraw.2 (by norm_num : (0:ℝ) ≤ 1)
    (by rw [hinner]; nlinarith)
  rw [houter, hinner, mul_one]

/-- Claim C9 (counterexample): for the pure-black base the engine takes the
neutral-base branch, whose hue target is mode-independent; painterly and
conservative produce exactly the same hue at both extreme steps, so the
painterly hue displacement is not strictly larger. -/
theorem c9_counterexample :
    (1/2 : ℝ) ≠ 0 ∧
    (rampStep (hexToOklch "#000000") (1/2) 9 "painterly" 0).H =
      (rampStep (hexToOklch "#000000") (1/2) 9 "conservative" 0).H ∧
    (rampStep (hexToOklch "#000000") (1/2) 9 "painterly" 8).H =
      (rampStep (hexToOklch "#000000") (1/2) 9 "conservative" 8).H := by
  have hkey : ∀ i : ℕ,
      (rampStep (hexToOklch "#000000") (1/2) 9 "painterly" i).H =
      (rampStep (hexToOklch "#000000") (1/2) 9 "conservative" i).H := by
    intro i
    have hC : (hexToOklch "#000000").C ≤ NEUTRAL_BASE_C_MAX := by
      rw [hexToOklch_black, NEUTRAL_BASE_C_MAX]
      norm_num
    rw [rampStep_H_of_neutral _ _ _ _ _ hC (by norm_num),
      rampStep_H_of_neutral _ _ _ _ _ hC (by norm_num)]
    exact neutralHC_H_config _ _ _ _
  exact ⟨by norm_num, hkey 0, hkey 8⟩

/-- Claim C9 (amended): at the shadow extreme (index 0), for bases
chromatic enough to saturate the hue-stability damping in both modes
(`C ≥ 0.161`) and whose hue is not exactly at a temperature anchor,
painterly mode produces a strictly larger hue displacement than
conservative mode for the same non-zero temperature and step count. -/
theorem c9_amended (base : Oklch) (t : ℝ) (steps : ℕ)
    (hH0 : 0 ≤ base.H) (hH1 : base.H < 360) (hCs : 0.161 ≤ base.C)
    (ht : t ≠ 0) (ht1 : |t| ≤ 1) (hsteps : steps = 9 ∨ steps = 11)
    (hdW : hueDifference base.H WARM_ANCHOR_H ≠ 0)
    (hdC : hueDifference base.H COOL_ANCHOR_H ≠ 0) :
    ∀ cc cp : Oklch,
      (generateOklchRamp base t steps "conservative")[0]? = some cc →
      (generateOklchRamp base t steps "painterly")[0]? = some cp →
      |hueDifference base.H cc.H| < |hueDifference base.H cp.H| := by
  intro cc cp hc hp
  have hs0 : 0 < steps := by rcases hsteps with h | h <;> omega
  have hgc : cc = rampStep base t steps "conservative" 0 := by
    rw [generateOklchRamp, List.getElem?_map, List.getElem?_range hs0] at hc
    simp only [Option.map_some'] at hc
    exact (Option.some_inj.mp hc).symm
  have hgp : cp = rampStep base t steps "painterly" 0 := by
    rw [generateOklchRamp, List.getElem?_map, List.getElem?_range hs0] at hp
    simp only [Option.map_some'] at hp
    exact (Option.some_inj.mp hp).symm
  subst hgc
  subst hgp
  rw [rampStep_H_shadow base t steps "conservative" hH0 hH1 hCs ht ht1 hsteps,
    rampStep_H_shadow base t steps "painterly" hH0 hH1 hCs ht ht1 hsteps]
  have hcc : (modeConfig "conservative").maxHueShift = 18 := by
    rw [modeConfig, if_pos rfl, conservativeConfig]
  have hcp : (modeConfig "painterly").maxHueShift = 38 := by
    rw [modeConfig, if_neg (by decide), painterlyConfig]
  rw [hcc, hcp]
  have hdpos : 0 < |hueDifference base.H (if 0 < t then COOL_ANCHOR_H else WARM_ANCHOR_H)| := by
    rw [abs_pos]
    split
    · exact hdC
    · exact hdW
  have htpos : (0:ℝ) < |t| ^ (1.6 : ℝ) := Real.rpow_pos_of_pos (abs_pos.mpr ht) _
  have hfac : |t| ^ (1.6 : ℝ) * (18 / 90) < |t| ^ (1.6 : ℝ) * (38 / 90) := by
    nlinarith
  exact mul_lt_mul_of_pos_left hfac hdpos

/-- Instantiation of the amended mode-comparison theorem at a concrete
chromatic base. -/
theorem c9_amended_witness :
    (1/2 : ℝ) ≠ 0 ∧ (0.161 : ℝ) ≤ (Oklch.mk 0.5 0.2 45).C ∧
    hueDifference (Oklch.mk 0.5 0.2 45).H WARM_ANCHOR_H ≠ 0 ∧
    hueDifference (Oklch.mk 0.5 0.2 45).H COOL_ANCHOR_H ≠ 0 ∧
    |hueDifference (Oklch.mk 0.5 0.2 45).H
        (rampStep (Oklch.mk 0.5 0.2 45) (1/2) 9 "conservative" 0).H| <
      |hueDifference (Oklch.mk 0.5 0.2 45).H
        (rampStep (Oklch.mk 0.5 0.2 45) (1/2) 9 "painterly" 0).H| := by
  have hW : hueDifference (Oklch.mk 0.5 0.2 45).H WARM_ANCHOR_H ≠ 0 := by
    show hueDifference 45 WARM_ANCHOR_H ≠ 0
    rw [hueDifference, WARM_ANCHOR_H, show (65:ℝ) - 45 = 20 by norm_num,
      normalizeHue_eq_self (by norm_num) (by norm_num)]
    norm_num
  have hC : hueDifference (Oklch.mk 0.5 0.2 45).H COOL_ANCHOR_H ≠ 0 := by
    show hueDifference 45 COOL_ANCHOR_H ≠ 0
    rw [hueDifference, COOL_ANCHOR_H, show (205:ℝ) - 45 = 160 by norm_num,
      normalizeHue_eq_self (by norm_num) (by norm_num)]
    norm_num
  refine ⟨by norm_num, by show (0.161:ℝ) ≤ 0.2; norm_num, hW, hC, ?_⟩
  exact c9_amended (Oklch.mk 0.5 0.2 45) (1/2) 9
    (by show (0:ℝ) ≤ 45; norm_num) (by show (45:ℝ) < 360; norm_num)
    (by show (0.161:ℝ) ≤ 0.2; norm_num) (by norm_num)
    (by rw [abs_le]; constructor <;> norm_num) (Or.inl rfl) hW hC
    (rampStep (Oklch.mk 0.5 0.2 45) (1/2) 9 "conservative" 0)
    (rampStep (Oklch.mk 0.5 0.2 45) (1/2) 9 "painterly" 0)
    (by rw [generateOklchRamp]; rfl) (by rw [generateOklchRamp]; rfl)

/-! ## The near-neutral yellow-ish base `#0A0907` -/

/-- Rational cube-root certificates for `jsCbrt`. -/
lemma jsCbrt_certs {x q1 q2 : ℝ} (hx : 0 ≤ x) (hq1 : 0 ≤ q1) (hq2 : 0 ≤ q2)
    (hlo : q1 ^ 3 ≤ x) (hhi : x ≤ q2 ^ 3) : q1 ≤ jsCbrt x ∧ jsCbrt x ≤ q2 := by
  rw [jsCbrt, if_neg (not_lt.mpr hx)]
  rw [show (1 : ℝ) / 3 = ((1 : ℕ) : ℝ) / ((3 : ℕ) : ℝ) by norm_num]
  constructor
  · apply rpow_ratio_le hx hq1 (by norm_num)
    rwa [pow_one]
  · apply rpow_ratio_ge hx hq2 (by norm_num)
    rwa [pow_one]

/-- Degree bounds for `atan2` of a strongly vertical first-quadrant
vector: the hue lies in the yellow family range. -/
lemma atan2_deg_bounds (av bv : ℝ) (ha0 : 0.0003 ≤ av) (ha1 : av ≤ 0.00031)
    (hb0 : 0.00516 ≤ bv) (hb1 : bv ≤ 0.00517) :
    60 ≤ jsAtan2 bv av * (180 / π) ∧ jsAtan2 bv av * (180 / π) ≤ 110 := by
  have hapos : (0:ℝ) < av := by linarith
  have harc3 : Real.arctan (Real.sqrt 3) = π / 3 := by
    have htan : Real.tan (π / 3) = Real.sqrt 3 := by
      rw [Real.tan_eq_sin_div_cos, Real.sin_pi_div_three, Real.cos_pi_div_three]
      ring
    rw [← htan, Real.arctan_tan (by linarith [Real.pi_pos]) (by linarith [Real.pi_pos])]
  have hHrad : π / 3 ≤ jsAtan2 bv av ∧ jsAtan2 bv av < π / 2 := by
    rw [jsAtan2, if_pos hapos]
    constructor
    · rw [← harc3]
      apply Real.arctan_strictMono.monotone
      have h2 : Real.sqrt 3 ≤ 2 := by
        rw [show (2:ℝ) = Real.sqrt 4 by
          rw [show (4:ℝ) = 2 ^ 2 by norm_num, Real.sqrt_sq (by norm_num)]]
        exact Real.sqrt_le_sqrt (by norm_num)
      have hdiv : (2:ℝ) ≤ bv / av := by
        rw [le_div_iff hapos]
        nlinarith
      linarith
    · exact Real.arctan_lt_pi_div_two _
  have hfac : (0:ℝ) ≤ 180 / π := le_of_lt (div_pos (by norm_num) Real.pi_pos)
  constructor
  · have h60 : π / 3 * (180 / π) = 60 := by
      field_simp
      ring
    have := mul_le_mul_of_nonneg_right hHrad.1 hfac
    linarith
  · have h90 : π / 2 * (180 / π) = 90 := by
      field_simp
      ring
    have := mul_le_mul_of_nonneg_right (le_of_lt hHrad.2) hfac
    linarith

lemma hexToOklch_0A0907_eq :
    hexToOklch "#0A0907" =
      oklabToOklch (linearRgbToOklab ⟨50/16473, 15/5491, 35/16473⟩) := by
  have hch : hexChannels "#0A0907" = (10, 9, 7) := by decide
  have hsrgb : hexToSrgb "#0A0907" = ⟨10/255, 9/255, 7/255⟩ := by
    simp only [hexToSrgb, hch]
    norm_num
  have hlin : srgbToLinearRgb (Srgb.mk (10/255) (9/255) (7/255)) =
      ⟨50/16473, 15/5491, 35/16473⟩ := by
    rw [srgbToLinearRgb]
    simp only [LinearRgb.mk.injEq]
    refine ⟨?_, ?_, ?_⟩ <;> (rw [srgbToLinearChannel, if_pos (by norm_num)]; norm_num)
  rw [hexToOklch, hsrgb, hlin]

set_option maxHeartbeats 1000000 in
lemma oklch_0A0907_bounds :
    0.13 ≤ (hexToOklch "#0A0907").L ∧ (hexToOklch "#0A0907").L ≤ 0.15 ∧
    0 ≤ (hexToOklch "#0A0907").C ∧ (hexToOklch "#0A0907").C ≤ 0.03 ∧
    60 ≤ (hexToOklch "#0A0907").H ∧ (hexToOklch "#0A0907").H ≤ 110 := by
  rw [hexToOklch_0A0907_eq, linearRgbToOklab]
  simp only
  rw [show (0.4122214708:ℝ) * (50/16473) + 0.5363325363 * (15/5491) +
      0.0514459929 * (35/16473) = 1861865897/658920000000 by norm_num]
  rw [show (0.2119034982:ℝ) * (50/16473) + 0.6806995451 * (15/5491) +
      0.1073969566 * (35/16473) = 89971095841/32946000000000 by norm_num]
  rw [show (0.0883024619:ℝ) * (50/16473) + 0.2817188376 * (15/5491) +
      0.6299787005 * (35/16473) = 4120181611/1734000000000 by norm_num]
  obtain ⟨hc1l, hc1r⟩ := jsCbrt_certs
    (show (0:ℝ) ≤ 1861865897/658920000000 by norm_num)
    (show (0:ℝ) ≤ 0.14137476 by norm_num)
    (show (0:ℝ) ≤ 0.14137478 by norm_num)
    (show ((0.14137476:ℝ)) ^ 3 ≤ 1861865897/658920000000 by norm_num)
    (show (1861865897/658920000000:ℝ) ≤ 0.14137478 ^ 3 by norm_num)
  obtain ⟨hc2l, hc2r⟩ := jsCbrt_certs
    (show (0:ℝ) ≤ 89971095841/32946000000000 by norm_num)
    (show (0:ℝ) ≤ 0.13977626 by norm_num)
    (show (0:ℝ) ≤ 0.13977628 by norm_num)
    (show ((0.13977626:ℝ)) ^ 3 ≤ 89971095841/32946000000000 by norm_num)
    (show (89971095841/32946000000000:ℝ) ≤ 0.13977628 ^ 3 by norm_num)
  obtain ⟨hc3l, hc3r⟩ := jsCbrt_certs
    (show (0:ℝ) ≤ 4120181611/1734000000000 by norm_num)
    (show (0:ℝ) ≤ 0.13344093 by norm_num)
    (show (0:ℝ) ≤ 0.13344095 by norm_num)
    (show ((0.13344093:ℝ)) ^ 3 ≤ 4120181611/1734000000000 by norm_num)
    (show (4120181611/1734000000000:ℝ) ≤ 0.13344095 ^ 3 by norm_num)
  have haB : 0.0003 ≤ 1.9779984951 * jsCbrt (1861865897/658920000000 : ℝ) -
        2.4285922050 * jsCbrt (89971095841/32946000000000 : ℝ) +
        0.4505937099 * jsCbrt (4120181611/1734000000000 : ℝ) ∧
      1.9779984951 * jsCbrt (1861865897/658920000000 : ℝ) -
        2.4285922050 * jsCbrt (89971095841/32946000000000 : ℝ) +
        0.4505937099 * jsCbrt (4120181611/1734000000000 : ℝ) ≤ 0.00031 := by
    constructor <;> linarith
  have hbB : 0.00516 ≤ 0.0259040371 * jsCbrt (1861865897/658920000000 : ℝ) +
        0.7827717662 * jsCbrt (89971095841/32946000000000 : ℝ) -
        0.8086757660 * jsCbrt (4120181611/1734000000000 : ℝ) ∧
      0.0259040371 * jsCbrt (1861865897/658920000000 : ℝ) +
        0.7827717662 * jsCbrt (89971095841/32946000000000 : ℝ) -
        0.8086757660 * jsCbrt (4120181611/1734000000000 : ℝ) ≤ 0.00517 := by
    constructor <;> linarith
  obtain ⟨hdeg0, hdeg1⟩ := atan2_deg_bounds _ _ haB.1 haB.2 hbB.1 hbB.2
  rw [oklabToOklch]
  simp only
  refine ⟨by linarith, by linarith, Real.sqrt_nonneg _, ?_, ?_, ?_⟩
  · rw [show (0.03:ℝ) = Real.sqrt 0.0009 by
      rw [show (0.0009:ℝ) = 0.03 ^ 2 by norm_num, Real.sqrt_sq (by norm_num)]]
    apply Real.sqrt_le_sqrt
    nlinarith [haB.1, haB.2, hbB.1, hbB.2]
  · rw [if_neg (not_lt.mpr (by linarith))]
    linarith
  · rw [if_neg (not_lt.mpr (by linarith))]
    linarith

/-! ## The lightness ladder for a dark base (`steps = 11`) -/

set_option maxHeartbeats 1600000 in
lemma lightnessFixed_low {bL : ℝ} (h0 : 0.13 ≤ bL) (h1 : bL ≤ 0.15) :
    lightnessFixed bL 11 5 9 = bL + 0.36 := by
  have hbase : baseLightnessOf bL = bL := by
    rw [baseLightnessOf, L_MIN, L_MAX, min_eq_right (by linarith),
      max_eq_right (by linarith)]
  have hraw : ∀ i : ℕ, lightnessRaw 11 i = 0.08 + 0.09 * (i : ℝ) := by
    intro i
    rw [lightnessRaw, L_MIN, L_MAX]
    push_cast
    ring
  have ha0 : lightnessAdjusted bL 11 5 0 = 0.08 := by
    rw [lightnessAdjusted, hbase]
    simp only [hraw, L_MIN, L_MAX]
    push_cast
    rw [if_pos (by linarith)]
    rw [min_eq_right (by linarith), max_eq_right (by linarith)]
    ring
  have ha1 : lightnessAdjusted bL 11 5 1 = 0.08 + (bL - 0.08) * 0.2 := by
    rw [lightnessAdjusted, hbase]
    simp only [hraw, L_MIN, L_MAX]
    push_cast
    rw [if_pos (by linarith)]
    rw [min_eq_right (by linarith), max_eq_right (by linarith)]
    ring
  have ha2 : lightnessAdjusted bL 11 5 2 = 0.08 + (bL - 0.08) * 0.4 := by
    rw [lightnessAdjusted, hbase]
    simp only [hraw, L_MIN, L_MAX]
    push_cast
    rw [if_pos (by linarith)]
    rw [min_eq_right (by linarith), max_eq_right (by linarith)]
    ring
  have ha3 : lightnessAdjusted bL 11 5 3 = 0.08 + (bL - 0.08) * 0.6 := by
    rw [lightnessAdjusted, hbase]
    simp only [hraw, L_MIN, L_MAX]
    push_cast
    rw [if_pos (by linarith)]
    rw [min_eq_right (by linarith), max_eq_right (by linarith)]
    ring
  have ha4 : lightnessAdjusted bL 11 5 4 = 0.08 + (bL - 0.08) * 0.8 := by
    rw [lightnessAdjusted, hbase]
    simp only [hraw, L_MIN, L_MAX]
    push_cast
    rw [if_pos (by linarith)]
    rw [min_eq_right (by linarith), max_eq_right (by linarith)]
    ring
  have ha5 : lightnessAdjusted bL 11 5 5 = bL := by
    rw [lightnessAdjusted, hbase]
    simp only [hraw, L_MIN, L_MAX]
    push_cast
    rw [if_neg (not_lt.mpr (by linarith)), if_neg (not_lt.mpr (by linarith))]
    rw [min_eq_right (by linarith), max_eq_right (by linarith)]
    ring
  have ha6 : lightnessAdjusted bL 11 5 6 = bL + 0.09 := by
    rw [lightnessAdjusted, hbase]
    simp only [hraw, L_MIN, L_MAX]
    push_cast
    rw [if_neg (not_lt.mpr (by linarith)), if_neg (not_lt.mpr (by linarith))]
    rw [min_eq_right (by linarith), max_eq_right (by linarith)]
    ring
  have ha7 : lightnessAdjusted bL 11 5 7 = bL + 0.18 := by
    rw [lightnessAdjusted, hbase]
    simp only [hraw, L_MIN, L_MAX]
    push_cast
    rw [if_neg (not_lt.mpr (by linarith)), if_neg (not_lt.mpr (by linarith))]
    rw [min_eq_right (by linarith), max_eq_right (by linarith)]
    ring
  have ha8 : lightnessAdjusted bL 11 5 8 = bL + 0.27 := by
    rw [lightnessAdjusted, hbase]
    simp only [hraw, L_MIN, L_MAX]
    push_cast
    rw [if_neg (not_lt.mpr (by linarith)), if_neg (not_lt.mpr (by linarith))]
    rw [min_eq_right (by linarith), max_eq_right (by linarith)]
    ring
  have ha9 : lightnessAdjusted bL 11 5 9 = bL + 0.36 := by
    rw [lightnessAdjusted, hbase]
    simp only [hraw, L_MIN, L_MAX]
    push_cast
    rw [if_neg (not_lt.mpr (by linarith)), if_neg (not_lt.mpr (by linarith))]
    rw [min_eq_right (by linarith), max_eq_right (by linarith)]
    ring
  have f0 : lightnessFixed bL 11 5 0 = 0.08 := by
    rw [lightnessFixed, ha0]
  have f1 : lightnessFixed bL 11 5 1 = 0.08 + (bL - 0.08) * 0.2 := by
    rw [show (1:ℕ) = 0 + 1 from rfl, lightnessFixed, f0, ha1,
      if_neg (not_le.mpr (by linarith))]
  have f2 : lightnessFixed bL 11 5 2 = 0.08 + (bL - 0.08) * 0.4 := by
    rw [show (2:ℕ) = 1 + 1 from rfl, lightnessFixed, f1, ha2,
      if_neg (not_le.mpr (by linarith))]
  have f3 : lightnessFixed bL 11 5 3 = 0.08 + (bL - 0.08) * 0.6 := by
    rw [show (3:ℕ) = 2 + 1 from rfl, lightnessFixed, f2, ha3,
      if_neg (not_le.mpr (by linarith))]
  have f4 : lightnessFixed bL 11 5 4 = 0.08 + (bL - 0.08) * 0.8 := by
    rw [show (4:ℕ) = 3 + 1 from rfl, lightnessFixed, f3, ha4,
      if_neg (not_le.mpr (by linarith))]
  have f5 : lightnessFixed bL 11 5 5 = bL := by
    rw [show (5:ℕ) = 4 + 1 from rfl, lightnessFixed, f4, ha5,
      if_neg (not_le.mpr (by linarith))]
  have f6 : lightnessFixed bL 11 5 6 = bL + 0.09 := by
    rw [show (6:ℕ) = 5 + 1 from rfl, lightnessFixed, f5, ha6,
      if_neg (not_le.mpr (by linarith))]
  have f7 : lightnessFixed bL 11 5 7 = bL + 0.18 := by
    rw [show (7:ℕ) = 6 + 1 from rfl, lightnessFixed, f6, ha7,
      if_neg (not_le.mpr (by linarith))]
  have f8 : lightnessFixed bL 11 5 8 = bL + 0.27 := by
    rw [show (8:ℕ) = 7 + 1 from rfl, lightnessFixed, f7, ha8,
      if_neg (not_le.mpr (by linarith))]
  rw [show (9:ℕ) = 8 + 1 from rfl, lightnessFixed, f8, ha9,
    if_neg (not_le.mpr (by linarith))]

/-! ## Mid-range lightness with moderate chroma is inside the sRGB gamut -/

set_option maxHeartbeats 1000000 in
lemma cube_dev_mid {L x e : ℝ} (hL0 : 0.45 ≤ L) (hL1 : L ≤ 0.55)
    (he0 : 0 ≤ e) (hee : e ≤ 0.0277) (h : |x - L| ≤ e) :
    |x * x * x - L * L * L| ≤ 0.96 * e := by
  obtain ⟨h1, h2⟩ := abs_le.mp h
  have hx0 : 0.42 ≤ x := by linarith
  have hx1 : x ≤ 0.578 := by linarith
  have hid : x * x * x - L * L * L = (x - L) * (x * x + x * L + L * L) := by ring
  rw [hid, abs_mul]
  have hq : |x * x + x * L + L * L| ≤ 0.96 := by
    rw [abs_le]
    constructor <;> nlinarith
  calc |x - L| * |x * x + x * L + L * L| ≤ e * 0.96 :=
        mul_le_mul h hq (abs_nonneg _) he0
    _ = 0.96 * e := by ring

lemma inGamutLin_of_mid_cubes {LC X1 X2 X3 : ℝ}
    (h0 : 0.091125 ≤ LC) (h1 : LC ≤ 0.166375)
    (h2 : |X1 - LC| ≤ 0.0119) (h3 : |X2 - LC| ≤ 0.0033) (h4 : |X3 - LC| ≤ 0.0266) :
    inGamutLin ⟨4.0767416621 * X1 - 3.3077115913 * X2 + 0.2309699292 * X3,
      -1.2684380046 * X1 + 2.6097574011 * X2 - 0.3413193965 * X3,
      -0.0041960863 * X1 - 0.7034186147 * X2 + 1.7076147010 * X3⟩ := by
  obtain ⟨d1l, d1r⟩ := abs_le.mp h2
  obtain ⟨d2l, d2r⟩ := abs_le.mp h3
  obtain ⟨d3l, d3r⟩ := abs_le.mp h4
  rw [inGamutLin]
  refine ⟨?_, ?_, ?_, ?_, ?_, ?_⟩ <;> (simp only; linarith)

lemma inGamutLin_of_mid_ab {L ca cb : ℝ} (hL0 : 0.45 ≤ L) (hL1 : L ≤ 0.55)
    (ha : |ca| ≤ 0.02) (hb : |cb| ≤ 0.02) : inGamutLin (oklabToLinearRgb ⟨L, ca, cb⟩) := by
  obtain ⟨ha1, ha2⟩ := abs_le.mp ha
  obtain ⟨hb1, hb2⟩ := abs_le.mp hb
  have hc1 : |(L + 0.3963377774 * ca + 0.2158037573 * cb) - L| ≤ 0.0123 := by
    rw [abs_le]; constructor <;> linarith
  have hc2 : |(L - 0.1055613458 * ca - 0.0638541728 * cb) - L| ≤ 0.0034 := by
    rw [abs_le]; constructor <;> linarith
  have hc3 : |(L - 0.0894841775 * ca - 1.2914855480 * cb) - L| ≤ 0.0277 := by
    rw [abs_le]; constructor <;> linarith
  have d1 := cube_dev_mid hL0 hL1 (by norm_num) (by norm_num) hc1
  have d2 := cube_dev_mid hL0 hL1 (by norm_num) (by norm_num) hc2
  have d3 := cube_dev_mid hL0 hL1 (by norm_num) (by norm_num) hc3
  have d1' := le_trans d1 (by norm_num : (0.96:ℝ) * 0.0123 ≤ 0.0119)
  have d2' := le_trans d2 (by norm_num : (0.96:ℝ) * 0.0034 ≤ 0.0033)
  have d3' := le_trans d3 (by norm_num : (0.96:ℝ) * 0.0277 ≤ 0.0266)
  have hcube0 : 0.091125 ≤ L * L * L := by nlinarith
  have hcube1 : L * L * L ≤ 0.166375 := by nlinarith
  exact inGamutLin_of_mid_cubes hcube0 hcube1 d1' d2' d3'

lemma inGamut_of_mid {L C H : ℝ} (hL0 : 0.45 ≤ L) (hL1 : L ≤ 0.55)
    (hC0 : 0 ≤ C) (hC1 : C ≤ 0.02) : inGamutTol ⟨L, C, H⟩ := by
  rw [inGamutTol, oklchToOklab]
  apply inGamutLin_of_mid_ab hL0 hL1
  · rw [abs_mul, abs_of_nonneg hC0]
    calc C * |cos (H * (π / 180))| ≤ 0.02 * 1 :=
          mul_le_mul hC1 (Real.abs_cos_le_one _) (abs_nonneg _) (by norm_num)
      _ = 0.02 := by norm_num
  · rw [abs_mul, abs_of_nonneg hC0]
    calc C * |sin (H * (π / 180))| ≤ 0.02 * 1 :=
          mul_le_mul hC1 (Real.abs_sin_le_one _) (abs_nonneg _) (by norm_num)
      _ = 0.02 := by norm_num

/-! ## The neutral branch's cool anchor hue is exactly 205° -/

lemma cool_anchor_atan2 :
    normalizeHue (jsAtan2 COOL_ANCHOR_B COOL_ANCHOR_A * (180 / π)) = 205 := by
  have hx : (0:ℝ) < 25 * π / 180 := by positivity
  have hx2 : 25 * π / 180 < π / 2 := by linarith [Real.pi_pos]
  have hcosp : 0 < Real.cos (25 * π / 180) :=
    Real.cos_pos_of_mem_Ioo (Set.mem_Ioo.mpr ⟨by linarith [Real.pi_pos], hx2⟩)
  have hsinp : 0 < Real.sin (25 * π / 180) :=
    Real.sin_pos_of_pos_of_lt_pi hx (by linarith [Real.pi_pos])
  have hA : COOL_ANCHOR_A = -Real.cos (25 * π / 180) := by
    rw [COOL_ANCHOR_A, COOL_ANCHOR_H,
      show (205:ℝ) * π / 180 = π + 25 * π / 180 by ring,
      Real.cos_add, Real.cos_pi, Real.sin_pi]
    ring
  have hB : COOL_ANCHOR_B = -Real.sin (25 * π / 180) := by
    rw [COOL_ANCHOR_B, COOL_ANCHOR_H,
      show (205:ℝ) * π / 180 = π + 25 * π / 180 by ring,
      Real.sin_add, Real.cos_pi, Real.sin_pi]
    ring
  rw [hA, hB, jsAtan2]
  rw [if_neg (not_lt.mpr (by linarith)), if_pos (by linarith),
    if_neg (not_le.mpr (by linarith))]
  rw [show -Real.sin (25 * π / 180) / -Real.cos (25 * π / 180) =
      Real.sin (25 * π / 180) / Real.cos (25 * π / 180) from neg_div_neg_eq _ _]
  rw [← Real.tan_eq_sin_div_cos, Real.arctan_tan (by linarith [Real.pi_pos]) hx2]
  have hval : (25 * π / 180 - π) * (180 / π) = -155 := by
    field_simp
    ring
  rw [hval, normalizeHue_of_neg (by norm_num) (by norm_num)]
  norm_num

lemma pow08_bounds : (0.7736:ℝ) ≤ (0.8:ℝ) ^ (1.15:ℝ) ∧ (0.8:ℝ) ^ (1.15:ℝ) ≤ 0.7737 := by
  rw [show (1.15:ℝ) = ((23:ℕ):ℝ) / ((20:ℕ):ℝ) by norm_num]
  constructor
  · apply rpow_ratio_le (by norm_num) (by norm_num) (by norm_num)
    norm_num
  · apply rpow_ratio_ge (by norm_num) (by norm_num) (by norm_num)
    norm_num

lemma neutralHC_painterly_eval :
    neutralHC (modeConfig "painterly") (-1) 0.8 =
      (205, (0.8:ℝ) ^ (1.15:ℝ) * 0.02275) := by
  rw [modeConfig, if_neg (by decide), neutralHC]
  rw [if_neg (by norm_num : ¬ (0:ℝ) < -1), if_neg (by norm_num : ¬ (0:ℝ) < -1)]
  rw [if_pos (by norm_num : (0:ℝ) < 0.8), if_pos (by norm_num : (0:ℝ) < 0.8)]
  rw [Prod.mk.injEq]
  constructor
  · exact cool_anchor_atan2
  · rw [painterlyConfig, NEUTRAL_TINT_C_MAX]
    simp only
    rw [show |(0.8:ℝ)| = 0.8 by rw [abs_of_pos]; norm_num,
      show |(-1:ℝ)| = 1 by rw [abs_neg, abs_one]]
    ring

set_option maxHeartbeats 1000000 in
lemma rampStep_0A0907 :
    rampStep (hexToOklch "#0A0907") (-1) 11 "painterly" 9 =
      ⟨(hexToOklch "#0A0907").L + 0.36, (0.8:ℝ) ^ (1.15:ℝ) * 0.02275, 205⟩ := by
  obtain ⟨hL0, hL1, hC0, hC1, hH0, hH1⟩ := oklch_0A0907_bounds
  obtain ⟨hp1, hp2⟩ := pow08_bounds
  have hpv : (((9:ℕ):ℝ) - ((11 / 2 : ℕ):ℝ)) / ((11 / 2 : ℕ):ℝ) = 0.8 := by norm_num
  have hLfix : lightnessFixed (hexToOklch "#0A0907").L 11 (11 / 2) 9 =
      (hexToOklch "#0A0907").L + 0.36 := lightnessFixed_low hL0 hL1
  rw [rampStep]
  simp only
  rw [hpv, hLfix]
  have hcond1 : (hexToOklch "#0A0907").C ≤ NEUTRAL_BASE_C_MAX ∧ (-1:ℝ) ≠ 0 :=
    ⟨by rw [NEUTRAL_BASE_C_MAX]; exact hC1, by norm_num⟩
  rw [if_pos hcond1, neutralHC_painterly_eval]
  have hcond2 : ¬ (((9:ℕ) = 0 ∨ (9:ℕ) = 11 - 1) ∧ (-1:ℝ) ≠ 0) := by
    rintro ⟨h, -⟩
    rcases h with h | h <;> omega
  rw [if_neg hcond2]
  apply clampToSrgbGamut_of_inGamut
  apply inGamut_of_mid
  · show (0.45:ℝ) ≤ (hexToOklch "#0A0907").L + 0.36
    linarith
  · show (hexToOklch "#0A0907").L + 0.36 ≤ (0.55:ℝ)
    linarith
  · show (0:ℝ) ≤ (0.8:ℝ) ^ (1.15:ℝ) * 0.02275
    positivity
  · show (0.8:ℝ) ^ (1.15:ℝ) * 0.02275 ≤ 0.02
    nlinarith

/-- Claim C5 (counterexample): `#0A0907` parses to a yellow-family base hue
in `[60, 110]` with near-neutral chroma, so with `temperature = -1`,
11 steps, painterly mode the engine takes the neutral branch; its top-3
highlight step 9 gets the cool anchor hue 205° — far beyond the yellow
ceiling of 115° — with chroma above 0.015, and the yellow guardrail never
runs. -/
theorem c5_counterexample :
    (60 ≤ (hexToOklch "#0A0907").H ∧ (hexToOklch "#0A0907").H ≤ 110) ∧
    (-1 : ℝ) < 0 ∧ (11:ℕ) ≤ 9 + 3 ∧
    (generateOklchRamp (hexToOklch "#0A0907") (-1) 11 "painterly")[9]? =
      some (rampStep (hexToOklch "#0A0907") (-1) 11 "painterly" 9) ∧
    YELLOW_HIGHLIGHT_HUE_LIMIT_PAINTERLY <
      (rampStep (hexToOklch "#0A0907") (-1) 11 "painterly" 9).H ∧
    0.015 < (rampStep (hexToOklch "#0A0907") (-1) 11 "painterly" 9).C := by
  obtain ⟨hL0, hL1, hC0, hC1, hH0, hH1⟩ := oklch_0A0907_bounds
  obtain ⟨hp1, hp2⟩ := pow08_bounds
  refine ⟨⟨hH0, hH1⟩, by norm_num, by norm_num,
    by rw [generateOklchRamp]; rfl, ?_, ?_⟩
  · rw [rampStep_0A0907]
    show YELLOW_HIGHLIGHT_HUE_LIMIT_PAINTERLY < (205:ℝ)
    rw [YELLOW_HIGHLIGHT_HUE_LIMIT_PAINTERLY]
    norm_num
  · rw [rampStep_0A0907]
    show (0.015:ℝ) < (0.8:ℝ) ^ (1.15:ℝ) * 0.02275
    nlinarith

/-- The hue clamp `if lim < Y ∧ Y < 180 then lim else Y` never produces a
value strictly inside the band `(lim, 180)`. -/
lemma clamp_band_exclusion (lim Y : ℝ) :
    ¬ (lim < (if lim < Y ∧ Y < 180 then lim else Y) ∧
        (if lim < Y ∧ Y < 180 then lim else Y) < 180) := by
  split
  · rintro ⟨hh, -⟩
    exact lt_irrefl _ hh
  · next h => exact h

/-- Claim C5 (amended): what the code actually guarantees is a band
exclusion for the standard (chromatic-base) branch: for a yellow-family
base with `C > 0.03`, negative temperature and a top-3 step, the step's
hue never lies strictly between the mode's yellow ceiling and 180°. -/
theorem c5_amended (base : Oklch) (t : ℝ) (steps : ℕ) (mode : String) (i : ℕ)
    (hC : ¬ base.C ≤ NEUTRAL_BASE_C_MAX)
    (hyell : YELLOW_FAMILY_HUE_MIN ≤ base.H ∧ base.H ≤ YELLOW_FAMILY_HUE_MAX)
    (ht : t < 0) (htop : steps ≤ i + 3) :
    ¬ ((if mode = "conservative" then YELLOW_HIGHLIGHT_HUE_LIMIT_CONSERVATIVE
        else YELLOW_HIGHLIGHT_HUE_LIMIT_PAINTERLY) <
          (rampStep base t steps mode i).H ∧
        (rampStep base t steps mode i).H < 180) := by
  rw [rampStep]
  simp only
  rw [clampToSrgbGamut_H]
  have hnb : ¬ (base.C ≤ NEUTRAL_BASE_C_MAX ∧ t ≠ 0) := by
    rintro ⟨h, -⟩
    exact hC h
  rw [if_neg hnb, standardHC]
  simp only
  have hcondG : (YELLOW_FAMILY_HUE_MIN ≤ base.H ∧ base.H ≤ YELLOW_FAMILY_HUE_MAX) ∧
      t < 0 ∧ decide (steps ≤ i + 3) = true := ⟨hyell, ht, by simpa using htop⟩
  rw [if_pos hcondG]
  exact clamp_band_exclusion _ _

/-- Instantiation of the band-exclusion theorem at a concrete chromatic
yellow base. -/
theorem c5_amended_witness :
    ¬ ((Oklch.mk 0.5 0.1 80).C ≤ NEUTRAL_BASE_C_MAX) ∧
    (YELLOW_FAMILY_HUE_MIN ≤ (Oklch.mk 0.5 0.1 80).H ∧
      (Oklch.mk 0.5 0.1 80).H ≤ YELLOW_FAMILY_HUE_MAX) ∧
    (-1/2 : ℝ) < 0 ∧ (9:ℕ) ≤ 8 + 3 ∧
    ¬ ((if "painterly" = "conservative" then YELLOW_HIGHLIGHT_HUE_LIMIT_CONSERVATIVE
        else YELLOW_HIGHLIGHT_HUE_LIMIT_PAINTERLY) <
          (rampStep (Oklch.mk 0.5 0.1 80) (-1/2) 9 "painterly" 8).H ∧
        (rampStep (Oklch.mk 0.5 0.1 80) (-1/2) 9 "painterly" 8).H < 180) := by
  have h1 : ¬ ((Oklch.mk 0.5 0.1 80).C ≤ NEUTRAL_BASE_C_MAX) := by
    show ¬ ((0.1:ℝ) ≤ NEUTRAL_BASE_C_MAX)
    rw [NEUTRAL_BASE_C_MAX]
    norm_num
  have h2 : YELLOW_FAMILY_HUE_MIN ≤ (Oklch.mk 0.5 0.1 80).H ∧
      (Oklch.mk 0.5 0.1 80).H ≤ YELLOW_FAMILY_HUE_MAX := by
    constructor
    · show YELLOW_FAMILY_HUE_MIN ≤ (80:ℝ)
      rw [YELLOW_FAMILY_HUE_MIN]; norm_num
    · show (80:ℝ) ≤ YELLOW_FAMILY_HUE_MAX
      rw [YELLOW_FAMILY_HUE_MAX]; norm_num
  exact ⟨h1, h2, by norm_num, by norm_num,
    c5_amended (Oklch.mk 0.5 0.1 80) (-1/2) 9 "painterly" 8 h1 h2
      (by norm_num) (by norm_num)⟩

/-! ## A red-range base whose highlight hue drifts into the green band -/

lemma sqrt5_bounds : 2.23606797 ≤ Real.sqrt 5 ∧ Real.sqrt 5 ≤ 2.23606798 := by
  constructor
  · rw [show (2.23606797:ℝ) = Real.sqrt (2.23606797 ^ 2) by
      rw [Real.sqrt_sq (by norm_num)]]
    exact Real.sqrt_le_sqrt (by norm_num)
  · rw [show (2.23606798:ℝ) = Real.sqrt (2.23606798 ^ 2) by
      rw [Real.sqrt_sq (by norm_num)]]
    exact Real.sqrt_le_sqrt (by norm_num)

lemma cos_c3 : Real.cos (0.6 * π) = -((Real.sqrt 5 - 1) / 4) := by
  rw [show (0.6:ℝ) * π = π - 2 * (π / 5) by ring, Real.cos_pi_sub, Real.cos_two_mul,
    Real.cos_pi_div_five]
  have h5 : Real.sqrt 5 ^ 2 = 5 := Real.sq_sqrt (by norm_num)
  ring_nf
  nlinarith [h5]

lemma raw_c3_bounds : 0.34549150 ≤ 0.5 + 0.5 * Real.cos (0.6 * π) ∧
    0.5 + 0.5 * Real.cos (0.6 * π) ≤ 0.34549151 := by
  obtain ⟨h1, h2⟩ := sqrt5_bounds
  rw [cos_c3]
  constructor <;> linarith

lemma pow06_11 : 0.57012 ≤ (0.6:ℝ) ^ (1.1:ℝ) ∧ (0.6:ℝ) ^ (1.1:ℝ) ≤ 0.570121 := by
  rw [show (1.1:ℝ) = ((11:ℕ):ℝ) / ((10:ℕ):ℝ) by norm_num]
  constructor
  · apply rpow_ratio_le (by norm_num) (by norm_num) (by norm_num)
    norm_num
  · apply rpow_ratio_ge (by norm_num) (by norm_num) (by norm_num)
    norm_num

lemma pow06_22 : 0.325036 ≤ (0.6:ℝ) ^ (2.2:ℝ) ∧ (0.6:ℝ) ^ (2.2:ℝ) ≤ 0.325037 := by
  rw [show (2.2:ℝ) = ((11:ℕ):ℝ) / ((5:ℕ):ℝ) by norm_num]
  constructor
  · apply rpow_ratio_le (by norm_num) (by norm_num) (by norm_num)
    norm_num
  · apply rpow_ratio_ge (by norm_num) (by norm_num) (by norm_num)
    norm_num

lemma sat_c3_bounds : 0.427316 ≤ (0.5 + 0.5 * Real.cos (0.6 * π)) ^ (0.8:ℝ) ∧
    (0.5 + 0.5 * Real.cos (0.6 * π)) ^ (0.8:ℝ) ≤ 0.427317 := by
  obtain ⟨hr1, hr2⟩ := raw_c3_bounds
  rw [show (0.8:ℝ) = ((4:ℕ):ℝ) / ((5:ℕ):ℝ) by norm_num]
  constructor
  · apply rpow_ratio_le (by linarith) (by norm_num) (by norm_num)
    calc (0.427316:ℝ) ^ 5 ≤ 0.34549150 ^ 4 := by norm_num
      _ ≤ (0.5 + 0.5 * Real.cos (0.6 * π)) ^ 4 := pow_le_pow_left (by norm_num) hr1 4
  · apply rpow_ratio_ge (by linarith) (by norm_num) (by norm_num)
    calc (0.5 + 0.5 * Real.cos (0.6 * π)) ^ 4 ≤ 0.34549151 ^ 4 :=
          pow_le_pow_left (by linarith) hr2 4
      _ ≤ (0.427317:ℝ) ^ 5 := by norm_num

lemma tc_c3_bounds : 0.045838 ≤ calculateChroma 0.078 0.6 (modeConfig "painterly") ∧
    calculateChroma 0.078 0.6 (modeConfig "painterly") ≤ 0.0458382 := by
  obtain ⟨hs1, hs2⟩ := sat_c3_bounds
  rw [calculateChroma, modeConfig, if_neg (by decide), painterlyConfig]
  simp only
  constructor <;> nlinarith

lemma lightnessFixed_quarter : lightnessFixed 0.25 11 5 8 = 0.52 := by
  have hbase : baseLightnessOf 0.25 = 0.25 := by
    rw [baseLightnessOf, L_MIN, L_MAX]
    norm_num [min_def, max_def]
  have ha0 : lightnessAdjusted 0.25 11 5 0 = 0.08 := by
    rw [lightnessAdjusted, hbase]
    norm_num [lightnessRaw, L_MIN, L_MAX, min_def, max_def]
  have ha1 : lightnessAdjusted 0.25 11 5 1 = 0.114 := by
    rw [lightnessAdjusted, hbase]
    norm_num [lightnessRaw, L_MIN, L_MAX, min_def, max_def]
  have ha2 : lightnessAdjusted 0.25 11 5 2 = 0.148 := by
    rw [lightnessAdjusted, hbase]
    norm_num [lightnessRaw, L_MIN, L_MAX, min_def, max_def]
  have ha3 : lightnessAdjusted 0.25 11 5 3 = 0.182 := by
    rw [lightnessAdjusted, hbase]
    norm_num [lightnessRaw, L_MIN, L_MAX, min_def, max_def]
  have ha4 : lightnessAdjusted 0.25 11 5 4 = 0.16 := by
    rw [lightnessAdjusted, hbase]
    norm_num [lightnessRaw, L_MIN, L_MAX, min_def, max_def]
  have ha5 : lightnessAdjusted 0.25 11 5 5 = 0.25 := by
    rw [lightnessAdjusted, hbase]
    norm_num [lightnessRaw, L_MIN, L_MAX, min_def, max_def]
  have ha6 : lightnessAdjusted 0.25 11 5 6 = 0.34 := by
    rw [lightnessAdjusted, hbase]
    norm_num [lightnessRaw, L_MIN, L_MAX, min_def, max_def]
  have ha7 : lightnessAdjusted 0.25 11 5 7 = 0.43 := by
    rw [lightnessAdjusted, hbase]
    norm_num [lightnessRaw, L_MIN, L_MAX, min_def, max_def]
  have ha8 : lightnessAdjusted 0.25 11 5 8 = 0.52 := by
    rw [lightnessAdjusted, hbase]
    norm_num [lightnessRaw, L_MIN, L_MAX, min_def, max_def]
  have f0 : lightnessFixed 0.25 11 5 0 = 0.08 := by
    rw [lightnessFixed, ha0]
  have f1 : lightnessFixed 0.25 11 5 1 = 0.114 := by
    rw [show (1:ℕ) = 0 + 1 from rfl, lightnessFixed, f0, ha1,
      if_neg (not_le.mpr (by norm_num))]
  have f2 : lightnessFixed 0.25 11 5 2 = 0.148 := by
    rw [show (2:ℕ) = 1 + 1 from rfl, lightnessFixed, f1, ha2,
      if_neg (not_le.mpr (by norm_num))]
  have f3 : lightnessFixed 0.25 11 5 3 = 0.182 := by
    rw [show (3:ℕ) = 2 + 1 from rfl, lightnessFixed, f2, ha3,
      if_neg (not_le.mpr (by norm_num))]
  have f4 : lightnessFixed 0.25 11 5 4 = 0.184 := by
    rw [show (4:ℕ) = 3 + 1 from rfl, lightnessFixed, f3, ha4,
      if_pos (by norm_num), L_MAX]
    norm_num [min_def]
  have f5 : lightnessFixed 0.25 11 5 5 = 0.25 := by
    rw [show (5:ℕ) = 4 + 1 from rfl, lightnessFixed, f4, ha5,
      if_neg (not_le.mpr (by norm_num))]
  have f6 : lightnessFixed 0.25 11 5 6 = 0.34 := by
    rw [show (6:ℕ) = 5 + 1 from rfl, lightnessFixed, f5, ha6,
      if_neg (not_le.mpr (by norm_num))]
  have f7 : lightnessFixed 0.25 11 5 7 = 0.43 := by
    rw [show (7:ℕ) = 6 + 1 from rfl, lightnessFixed, f6, ha7,
      if_neg (not_le.mpr (by norm_num))]
  rw [show (8:ℕ) = 7 + 1 from rfl, lightnessFixed, f7, ha8,
    if_neg (not_le.mpr (by norm_num))]

set_option maxHeartbeats 1000000 in
lemma cube_dev_mid2 {L x e : ℝ} (hL0 : 0.5 ≤ L) (hL1 : L ≤ 0.55)
    (he0 : 0 ≤ e) (hee : e ≤ 0.0442) (h : |x - L| ≤ e) :
    |x * x * x - L * L * L| ≤ 0.99 * e := by
  obtain ⟨h1, h2⟩ := abs_le.mp h
  have hx0 : 0.45 ≤ x := by linarith
  have hx1 : x ≤ 0.5942 := by linarith
  have hid : x * x * x - L * L * L = (x - L) * (x * x + x * L + L * L) := by ring
  rw [hid, abs_mul]
  have hq : |x * x + x * L + L * L| ≤ 0.99 := by
    rw [abs_le]
    constructor <;> nlinarith
  calc |x - L| * |x * x + x * L + L * L| ≤ e * 0.99 :=
        mul_le_mul h hq (abs_nonneg _) he0
    _ = 0.99 * e := by ring

lemma inGamutLin_of_mid2_cubes {LC X1 X2 X3 : ℝ}
    (h0 : 0.125 ≤ LC) (h1 : LC ≤ 0.166375)
    (h2 : |X1 - LC| ≤ 0.0195) (h3 : |X2 - LC| ≤ 0.0054) (h4 : |X3 - LC| ≤ 0.0438) :
    inGamutLin ⟨4.0767416621 * X1 - 3.3077115913 * X2 + 0.2309699292 * X3,
      -1.2684380046 * X1 + 2.6097574011 * X2 - 0.3413193965 * X3,
      -0.0041960863 * X1 - 0.7034186147 * X2 + 1.7076147010 * X3⟩ := by
  obtain ⟨d1l, d1r⟩ := abs_le.mp h2
  obtain ⟨d2l, d2r⟩ := abs_le.mp h3
  obtain ⟨d3l, d3r⟩ := abs_le.mp h4
  rw [inGamutLin]
  refine ⟨?_, ?_, ?_, ?_, ?_, ?_⟩ <;> (simp only; linarith)

lemma inGamutLin_of_mid2_ab {L ca cb : ℝ} (hL0 : 0.5 ≤ L) (hL1 : L ≤ 0.55)
    (ha : |ca| ≤ 0.032) (hb : |cb| ≤ 0.032) : inGamutLin (oklabToLinearRgb ⟨L, ca, cb⟩) := by
  obtain ⟨ha1, ha2⟩ := abs_le.mp ha
  obtain ⟨hb1, hb2⟩ := abs_le.mp hb
  have hc1 : |(L + 0.3963377774 * ca + 0.2158037573 * cb) - L| ≤ 0.0196 := by
    rw [abs_le]; constructor <;> linarith
  have hc2 : |(L - 0.1055613458 * ca - 0.0638541728 * cb) - L| ≤ 0.00543 := by
    rw [abs_le]; constructor <;> linarith
  have hc3 : |(L - 0.0894841775 * ca - 1.2914855480 * cb) - L| ≤ 0.0442 := by
    rw [abs_le]; constructor <;> linarith
  have d1 := cube_dev_mid2 hL0 hL1 (by norm_num) (by norm_num) hc1
  have d2 := cube_dev_mid2 hL0 hL1 (by norm_num) (by norm_num) hc2
  have d3 := cube_dev_mid2 hL0 hL1 (by norm_num) (by norm_num) hc3
  have d1' := le_trans d1 (by norm_num : (0.99:ℝ) * 0.0196 ≤ 0.0195)
  have d2' := le_trans d2 (by norm_num : (0.99:ℝ) * 0.00543 ≤ 0.0054)
  have d3' := le_trans d3 (by norm_num : (0.99:ℝ) * 0.0442 ≤ 0.0438)
  have hsq : 0.5 * 0.5 ≤ L * L := mul_le_mul hL0 hL0 (by norm_num) (by linarith)
  have hsq' : L * L ≤ 0.55 * 0.55 := mul_le_mul hL1 hL1 (by linarith) (by norm_num)
  have hcube0 : 0.125 ≤ L * L * L := by nlinarith
  have hcube1 : L * L * L ≤ 0.166375 := by nlinarith
  exact inGamutLin_of_mid2_cubes hcube0 hcube1 d1' d2' d3'

lemma inGamut_of_mid2 {L C H : ℝ} (hL0 : 0.5 ≤ L) (hL1 : L ≤ 0.55)
    (hC0 : 0 ≤ C) (hC1 : C ≤ 0.032) : inGamutTol ⟨L, C, H⟩ := by
  rw [inGamutTol, oklchToOklab]
  apply inGamutLin_of_mid2_ab hL0 hL1
  · rw [abs_mul, abs_of_nonneg hC0]
    calc C * |cos (H * (π / 180))| ≤ 0.032 * 1 :=
          mul_le_mul hC1 (Real.abs_cos_le_one _) (abs_nonneg _) (by norm_num)
      _ = 0.032 := by norm_num
  · rw [abs_mul, abs_of_nonneg hC0]
    calc C * |sin (H * (π / 180))| ≤ 0.032 * 1 :=
          mul_le_mul hC1 (Real.abs_sin_le_one _) (abs_nonneg _) (by norm_num)
      _ = 0.032 := by norm_num

lemma calculateBiasedHue_c3 :
    calculateBiasedHue 45 0.6 (-1) ((modeConfig "painterly").maxHueShift / 90) =
      45 + 160 * ((0.6:ℝ) ^ (1.1:ℝ) * ((modeConfig "painterly").maxHueShift / 90)) := by
  obtain ⟨hp1, hp2⟩ := pow06_11
  have hmhs : (modeConfig "painterly").maxHueShift = 38 := by
    rw [modeConfig, if_neg (by decide), painterlyConfig]
  rw [calculateBiasedHue,
    if_neg (by push_neg; constructor <;> norm_num)]
  simp only
  rw [if_neg (by norm_num : ¬ (0:ℝ) < -1), if_pos (by norm_num : (0:ℝ) < 0.6)]
  rw [show |(0.6:ℝ)| = 0.6 from abs_of_pos (by norm_num)]
  rw [mapTemperature_abs (by norm_num : (-1:ℝ) ≠ 0)]
  rw [show |(-1:ℝ)| = 1 from by rw [abs_neg, abs_one], Real.one_rpow, mul_one]
  rw [COOL_ANCHOR_H, hmhs]
  rw [blendHueDegrees_eq (by norm_num) (by norm_num) (by norm_num) (by norm_num)
    (by norm_num) (by norm_num) (by nlinarith) (by nlinarith)]
  ring

set_option maxHeartbeats 1000000 in
lemma rampStep_c3_eval :
    rampStep (Oklch.mk 0.25 0.078 45) (-1) 11 "painterly" 8 =
      ⟨0.52,
       calculateChroma 0.078 0.6 (modeConfig "painterly") * (1 - (0.6:ℝ) ^ (2.2:ℝ)),
       45 + 160 * ((0.6:ℝ) ^ (1.1:ℝ) * ((modeConfig "painterly").maxHueShift / 90))⟩ := by
  obtain ⟨htc1, htc2⟩ := tc_c3_bounds
  obtain ⟨hp1, hp2⟩ := pow06_11
  obtain ⟨he1, he2⟩ := pow06_22
  have hmhs : (modeConfig "painterly").maxHueShift = 38 := by
    rw [modeConfig, if_neg (by decide), painterlyConfig]
  have hpv : (((8:ℕ):ℝ) - ((11 / 2 : ℕ):ℝ)) / ((11 / 2 : ℕ):ℝ) = 0.6 := by norm_num
  have hnb : ¬ ((0.078:ℝ) ≤ NEUTRAL_BASE_C_MAX ∧ (-1:ℝ) ≠ 0) := by
    rintro ⟨h, -⟩
    rw [NEUTRAL_BASE_C_MAX] at h
    linarith
  rw [rampStep]
  simp only
  rw [hpv, lightnessFixed_quarter, if_neg hnb, standardHC]
  simp only
  rw [getHueStabilityFactor_sat (by linarith : (0.045:ℝ) ≤
    calculateChroma 0.078 0.6 (modeConfig "painterly"))]
  rw [calculateBiasedHue_c3, hmhs]
  rw [blendHueDegrees_eq (by norm_num) (by norm_num) (by nlinarith) (by nlinarith)
    (by nlinarith) (by nlinarith) (by nlinarith) (by nlinarith)]
  have hss : smoothstep 0.6 1.0 0.6 = 0 := by
    rw [smoothstep]
    norm_num
  have hguard : ¬ ((YELLOW_FAMILY_HUE_MIN ≤ (45:ℝ) ∧ (45:ℝ) ≤ YELLOW_FAMILY_HUE_MAX) ∧
      (-1:ℝ) < 0 ∧ decide ((11:ℕ) ≤ 8 + 3) = true) := by
    rintro ⟨⟨hy, -⟩, -⟩
    rw [YELLOW_FAMILY_HUE_MIN] at hy
    linarith
  have hconv : (0:ℝ) < 0.6 ∧ (-1:ℝ) ≠ 0 := ⟨by norm_num, by norm_num⟩
  have hendp : ¬ (((8:ℕ) = 0 ∨ (8:ℕ) = 11 - 1) ∧ (-1:ℝ) ≠ 0) := by
    rintro ⟨h, -⟩
    rcases h with h | h <;> omega
  have hw : ¬ ((0.001:ℝ) < 0 * |(-1:ℝ)| ^ (0.7:ℝ) *
      (modeConfig "painterly").convergenceStrength *
      smoothstep CONVERGENCE_CHROMA_MIN CONVERGENCE_CHROMA_REF
        (calculateChroma 0.078 0.6 (modeConfig "painterly") *
          (1 - (max 0 (0.6:ℝ)) ^ (2.2:ℝ)))) := by
    intro hlt
    norm_num at hlt
  rw [if_neg hguard, if_pos hconv, hss, if_neg hw, if_neg hendp]
  rw [show max (0:ℝ) 0.6 = 0.6 from max_eq_right (by norm_num)]
  rw [show (45:ℝ) + (45 + 160 * ((0.6:ℝ) ^ (1.1:ℝ) * ((38:ℝ) / 90)) - 45) * 1 =
      45 + 160 * ((0.6:ℝ) ^ (1.1:ℝ) * ((38:ℝ) / 90)) by ring]
  apply clampToSrgbGamut_of_inGamut
  apply inGamut_of_mid2
  · norm_num
  · norm_num
  · show (0:ℝ) ≤ calculateChroma 0.078 0.6 (modeConfig "painterly") * (1 - (0.6:ℝ) ^ (2.2:ℝ))
    nlinarith
  · show calculateChroma 0.078 0.6 (modeConfig "painterly") * (1 - (0.6:ℝ) ^ (2.2:ℝ)) ≤ 0.032
    nlinarith

/-- Claim C3: the specified red-family guardrail does not exist in the
code.  For the red-range base hue 45° with temperature −1 (painterly,
11 steps), the top-3 highlight step 8 lands at a hue of ≈83.5° — inside
the forbidden band `[80°, 200°]` — with chroma ≈0.031, far above the
visibility threshold, and is not clamped back to ≤75°. -/
theorem c3_red_guardrail_missing :
    (0 ≤ (Oklch.mk 0.25 0.078 45).H ∧ (Oklch.mk 0.25 0.078 45).H ≤ 50) ∧
    (-1 : ℝ) < 0 ∧ (11:ℕ) ≤ 8 + 3 ∧
    (generateOklchRamp (Oklch.mk 0.25 0.078 45) (-1) 11 "painterly")[8]? =
      some (rampStep (Oklch.mk 0.25 0.078 45) (-1) 11 "painterly" 8) ∧
    (80 < (rampStep (Oklch.mk 0.25 0.078 45) (-1) 11 "painterly" 8).H ∧
      (rampStep (Oklch.mk 0.25 0.078 45) (-1) 11 "painterly" 8).H < 200) ∧
    0.015 < (rampStep (Oklch.mk 0.25 0.078 45) (-1) 11 "painterly" 8).C := by
  obtain ⟨htc1, htc2⟩ := tc_c3_bounds
  obtain ⟨hp1, hp2⟩ := pow06_11
  obtain ⟨he1, he2⟩ := pow06_22
  have hmhs : (modeConfig "painterly").maxHueShift = 38 := by
    rw [modeConfig, if_neg (by decide), painterlyConfig]
  refine ⟨⟨by norm_num, by norm_num⟩, by norm_num, by norm_num,
    by rw [generateOklchRamp]; rfl, ⟨?_, ?_⟩, ?_⟩
  · rw [rampStep_c3_eval]
    show (80:ℝ) < 45 + 160 * ((0.6:ℝ) ^ (1.1:ℝ) * ((modeConfig "painterly").maxHueShift / 90))
    rw [hmhs]
    nlinarith
  · rw [rampStep_c3_eval]
    show (45:ℝ) + 160 * ((0.6:ℝ) ^ (1.1:ℝ) * ((modeConfig "painterly").maxHueShift / 90)) < 200
    rw [hmhs]
    nlinarith
  · rw [rampStep_c3_eval]
    show (0.015:ℝ) <
      calculateChroma 0.078 0.6 (modeConfig "painterly") * (1 - (0.6:ℝ) ^ (2.2:ℝ))
    nlinarith

/-! ## Round-trip building blocks: exact polar recovery -/

lemma sqrt_one_add_div_sq (b : ℝ) {a : ℝ} (ha : a ≠ 0) :
    Real.sqrt (1 + (b / a) ^ 2) = Real.sqrt (a * a + b * b) / |a| := by
  rw [eq_div_iff (abs_ne_zero.mpr ha)]
  have h1 : (1 + (b / a) ^ 2) * (|a| * |a|) = a * a + b * b := by
    rw [abs_mul_abs_self]
    field_simp
    ring
  calc Real.sqrt (1 + (b / a) ^ 2) * |a|
      = Real.sqrt (1 + (b / a) ^ 2) * Real.sqrt (|a| * |a|) := by
        rw [Real.sqrt_mul_self (abs_nonneg a)]
    _ = Real.sqrt ((1 + (b / a) ^ 2) * (|a| * |a|)) :=
        (Real.sqrt_mul (by positivity) _).symm
    _ = Real.sqrt (a * a + b * b) := by rw [h1]

/-- `atan2` followed by cosine and sine recovers the Cartesian coordinates
exactly, after scaling by the radius. -/
lemma atan2_cos_sin (a b : ℝ) :
    Real.sqrt (a * a + b * b) * cos (jsAtan2 b a) = a ∧
    Real.sqrt (a * a + b * b) * sin (jsAtan2 b a) = b := by
  rcases lt_trichotomy 0 a with ha | ha | ha
  · have hS : (0:ℝ) < a * a + b * b := by nlinarith
    have hSr : (0:ℝ) < Real.sqrt (a * a + b * b) := Real.sqrt_pos.mpr hS
    have hne : Real.sqrt (a * a + b * b) ≠ 0 := ne_of_gt hSr
    have hs := sqrt_one_add_div_sq b (ne_of_gt ha)
    rw [abs_of_pos ha] at hs
    rw [jsAtan2, if_pos ha, Real.cos_arctan, Real.sin_arctan, hs]
    constructor
    · rw [one_div_div, mul_comm, div_mul_cancel₀ _ hne]
    · have key : b / a / (Real.sqrt (a * a + b * b) / a) =
          b / Real.sqrt (a * a + b * b) := by
        rw [div_div_div_comm, div_self (ne_of_gt ha), div_one]
      rw [key, mul_comm, div_mul_cancel₀ _ hne]
  · rw [jsAtan2, if_neg (by rw [← ha]; exact lt_irrefl 0),
      if_neg (by rw [← ha]; exact lt_irrefl 0)]
    rcases lt_trichotomy 0 b with hb | hb | hb
    · rw [if_pos hb, Real.cos_pi_div_two, Real.sin_pi_div_two, ← ha]
      constructor
      · ring
      · rw [show (0:ℝ) * 0 + b * b = b * b by ring, Real.sqrt_mul_self hb.le]
        ring
    · rw [if_neg (by rw [← hb]; exact lt_irrefl 0)]
      rw [if_neg (by rw [← hb]; exact lt_irrefl 0)]
      rw [Real.cos_zero, Real.sin_zero, ← ha, ← hb]
      norm_num
    · rw [if_neg (by push_neg; linarith), if_pos hb]
      rw [Real.cos_neg, Real.sin_neg, Real.cos_pi_div_two, Real.sin_pi_div_two, ← ha]
      constructor
      · ring
      · rw [show (0:ℝ) * 0 + b * b = -b * -b by ring, Real.sqrt_mul_self (by linarith)]
        ring
  · have hS : (0:ℝ) < a * a + b * b := by nlinarith
    have hSr : (0:ℝ) < Real.sqrt (a * a + b * b) := Real.sqrt_pos.mpr hS
    have hne : Real.sqrt (a * a + b * b) ≠ 0 := ne_of_gt hSr
    have hs := sqrt_one_add_div_sq b (ne_of_lt ha)
    rw [abs_of_neg ha] at hs
    have hcos' : Real.sqrt (a * a + b * b) *
        -(1 / (Real.sqrt (a * a + b * b) / -a)) = a := by
      rw [one_div_div, mul_neg, mul_comm, div_mul_cancel₀ _ hne, neg_neg]
    have hsin' : Real.sqrt (a * a + b * b) *
        -(b / a / (Real.sqrt (a * a + b * b) / -a)) = b := by
      have key : b / a / (Real.sqrt (a * a + b * b) / -a) =
          -(b / Real.sqrt (a * a + b * b)) := by
        rw [div_div_div_comm, div_neg, div_self (ne_of_lt ha), div_neg, div_one]
      rw [key, neg_neg, mul_comm, div_mul_cancel₀ _ hne]
    rw [jsAtan2, if_neg (by linarith), if_pos ha]
    rcases le_or_lt 0 b with hb | hb
    · rw [if_pos hb, Real.cos_add_pi, Real.sin_add_pi, Real.cos_arctan,
        Real.sin_arctan, hs]
      exact ⟨hcos', hsin'⟩
    · rw [if_neg (not_le.mpr hb), Real.cos_sub_pi, Real.sin_sub_pi, Real.cos_arctan,
        Real.sin_arctan, hs]
      exact ⟨hcos', hsin'⟩

/-- Converting OKLab to OKLCH and back is exact. -/
lemma oklch_ab_roundtrip (ok : Oklab) : oklchToOklab (oklabToOklch ok) = ok := by
  obtain ⟨L, a, b⟩ := ok
  obtain ⟨hc, hsn⟩ := atan2_cos_sin a b
  rw [oklabToOklch, oklchToOklab]
  simp only [Oklab.mk.injEq]
  have hid : jsAtan2 b a * (180 / π) * (π / 180) = jsAtan2 b a := by
    field_simp
  have hcos : cos ((if jsAtan2 b a * (180 / π) < 0 then jsAtan2 b a * (180 / π) + 360
      else jsAtan2 b a * (180 / π)) * (π / 180)) = cos (jsAtan2 b a) := by
    split
    · rw [show (jsAtan2 b a * (180 / π) + 360) * (π / 180) =
        jsAtan2 b a * (180 / π) * (π / 180) + 2 * π by field_simp; ring]
      rw [hid, Real.cos_add_two_pi]
    · rw [hid]
  have hsin : sin ((if jsAtan2 b a * (180 / π) < 0 then jsAtan2 b a * (180 / π) + 360
      else jsAtan2 b a * (180 / π)) * (π / 180)) = sin (jsAtan2 b a) := by
    split
    · rw [show (jsAtan2 b a * (180 / π) + 360) * (π / 180) =
        jsAtan2 b a * (180 / π) * (π / 180) + 2 * π by field_simp; ring]
      rw [hid, Real.sin_add_two_pi]
    · rw [hid]
  refine ⟨trivial, by rw [hcos]; exact hc, by rw [hsin]; exact hsn⟩

lemma jsCbrt_cube {x : ℝ} (hx : 0 ≤ x) : jsCbrt x * jsCbrt x * jsCbrt x = x := by
  rw [jsCbrt, if_neg (not_lt.mpr hx)]
  rw [show x ^ ((1:ℝ)/3) * x ^ ((1:ℝ)/3) * x ^ ((1:ℝ)/3) =
    (x ^ ((1:ℝ)/3)) ^ (3:ℕ) by ring]
  rw [← Real.rpow_natCast (x ^ ((1:ℝ)/3)) 3, ← Real.rpow_mul hx]
  norm_num

/-! ## Round-trip building blocks: the transfer function -/

/-- The sRGB transfer pair is exactly inverse on 8-bit channel values. -/
lemma g_f_exact {n : ℕ} (hn : n ≤ 255) :
    linearToSrgbChannel (srgbToLinearChannel ((n:ℝ) / 255)) = (n:ℝ) / 255 := by
  rcases le_or_lt n 10 with h10 | h10
  · have hn10 : (n:ℝ) ≤ 10 := by exact_mod_cast h10
    have hv : ((n:ℝ) / 255) ≤ 0.04045 := by
      rw [div_le_iff (by norm_num : (0:ℝ) < 255)]
      linarith
    have hv0 : (0:ℝ) ≤ (n:ℝ) / 255 := by positivity
    rw [srgbToLinearChannel, if_pos hv, linearToSrgbChannel,
      if_pos (by
        rw [div_le_iff (by norm_num : (0:ℝ) < 12.92),
          div_le_iff (by norm_num : (0:ℝ) < 255)]
        linarith)]
    field_simp
    ring
  · have hv : ¬ ((n:ℝ) / 255) ≤ 0.04045 := by
      have : (11:ℝ) ≤ (n:ℝ) := by exact_mod_cast h10
      rw [not_le, lt_div_iff (by norm_num : (0:ℝ) < 255)]
      linarith
    have hbase0 : (0:ℝ) ≤ ((n:ℝ) / 255 + 0.055) / 1.055 := by positivity
    have hbase11 : (0.0930210946:ℝ) ≤ ((n:ℝ) / 255 + 0.055) / 1.055 := by
      have : (11:ℝ) ≤ (n:ℝ) := by exact_mod_cast h10
      rw [le_div_iff (by norm_num : (0:ℝ) < 1.055), div_add' _ _ _
        (by norm_num : (255:ℝ) ≠ 0), le_div_iff (by norm_num : (0:ℝ) < 255)]
      linarith
    have hxbig : (0.0031309:ℝ) ≤ (((n:ℝ) / 255 + 0.055) / 1.055) ^ (2.4:ℝ) := by
      rw [show (2.4:ℝ) = ((12:ℕ):ℝ) / ((5:ℕ):ℝ) by norm_num]
      apply rpow_ratio_le hbase0 (by norm_num) (by norm_num)
      calc (0.0031309:ℝ) ^ 5 ≤ 0.0930210946 ^ 12 := by norm_num
        _ ≤ (((n:ℝ) / 255 + 0.055) / 1.055) ^ 12 := pow_le_pow_left (by norm_num) hbase11 12
    rw [srgbToLinearChannel, if_neg hv, linearToSrgbChannel, if_neg (by linarith)]
    have hcomp : ((((n:ℝ)/255 + 0.055)/1.055) ^ (2.4:ℝ)) ^ ((1:ℝ)/2.4) =
        (((n:ℝ)/255 + 0.055)/1.055) := by
      rw [← Real.rpow_mul hbase0, show (2.4:ℝ) * ((1:ℝ)/2.4) = 1 by norm_num,
        Real.rpow_one]
    rw [hcomp]
    field_simp
    ring

/-- Hölder-type subadditivity of the `1/2.4` power on nonnegative reals. -/
lemma rpow_sub_le {u v : ℝ} (hu : 0 ≤ u) (huv : u ≤ v) :
    v ^ ((1:ℝ)/2.4) - u ^ ((1:ℝ)/2.4) ≤ (v - u) ^ ((1:ℝ)/2.4) := by
  have hvu : (0:ℝ) ≤ v - u := by linarith
  have h := @NNReal.rpow_add_le_add_rpow ((1:ℝ)/2.4) ⟨u, hu⟩ ⟨v - u, hvu⟩
    (by norm_num) (by norm_num)
  have hco := NNReal.coe_le_coe.mpr h
  push_cast at hco
  have hv : u + (v - u) = v := by ring
  rw [hv] at hco
  linarith

lemma rpow_sub_abs_le {u v : ℝ} (hu : 0 ≤ u) (hv : 0 ≤ v) (h : |v - u| ≤ 0.000002) :
    |v ^ ((1:ℝ)/2.4) - u ^ ((1:ℝ)/2.4)| ≤ 0.004222 := by
  have hbound : ((0.000002:ℝ)) ^ ((1:ℝ)/2.4) ≤ 0.004222 := by
    rw [show ((1:ℝ)/2.4) = ((5:ℕ):ℝ) / ((12:ℕ):ℝ) by norm_num]
    apply rpow_ratio_ge (by norm_num) (by norm_num) (by norm_num)
    norm_num
  obtain ⟨h1, h2⟩ := abs_le.mp h
  rcases le_total u v with huv | huv
  · have := rpow_sub_le hu huv
    have hmono : (v - u) ^ ((1:ℝ)/2.4) ≤ ((0.000002:ℝ)) ^ ((1:ℝ)/2.4) :=
      Real.rpow_le_rpow (by linarith) (by linarith) (by norm_num)
    have hmn : u ^ ((1:ℝ)/2.4) ≤ v ^ ((1:ℝ)/2.4) :=
      Real.rpow_le_rpow hu huv (by norm_num)
    rw [abs_of_nonneg (by linarith)]
    linarith
  · have := rpow_sub_le hv huv
    have hmono : (u - v) ^ ((1:ℝ)/2.4) ≤ ((0.000002:ℝ)) ^ ((1:ℝ)/2.4) :=
      Real.rpow_le_rpow (by linarith) (by linarith [abs_le.mp (abs_sub_comm v u ▸ h)])
        (by norm_num)
    have hmn : v ^ ((1:ℝ)/2.4) ≤ u ^ ((1:ℝ)/2.4) :=
      Real.rpow_le_rpow hv huv (by norm_num)
    rw [abs_of_nonpos (by linarith)]
    linarith

/-- The boundary jump of the piecewise transfer function is below `10⁻⁷`. -/
lemma transfer_jump_small :
    |1.055 * (0.0031308:ℝ) ^ ((1:ℝ)/2.4) - 0.055 - 12.92 * 0.0031308| ≤ 0.0000001 := by
  have hlo : (0.090473845:ℝ) ≤ (0.0031308:ℝ) ^ ((1:ℝ)/2.4) := by
    rw [show ((1:ℝ)/2.4) = ((5:ℕ):ℝ) / ((12:ℕ):ℝ) by norm_num]
    apply rpow_ratio_le (by norm_num) (by norm_num) (by norm_num)
    norm_num
  have hhi : (0.0031308:ℝ) ^ ((1:ℝ)/2.4) ≤ 0.090473846 := by
    rw [show ((1:ℝ)/2.4) = ((5:ℕ):ℝ) / ((12:ℕ):ℝ) by norm_num]
    apply rpow_ratio_ge (by norm_num) (by norm_num) (by norm_num)
    norm_num
  rw [abs_le]
  constructor <;> nlinarith

set_option maxHeartbeats 1000000 in
/-- Uniform modulus of the inverse transfer function under perturbations of
at most `2·10⁻⁶`. -/
lemma g_modulus {x y : ℝ} (hx0 : 0 ≤ x) (hxy : |y - x| ≤ 0.000002) :
    |linearToSrgbChannel y - linearToSrgbChannel x| ≤ 0.0045 := by
  obtain ⟨hd1, hd2⟩ := abs_le.mp hxy
  have hjump := transfer_jump_small
  rcases le_or_lt y 0.0031308 with hy | hy <;> rcases le_or_lt x 0.0031308 with hx | hx
  · rw [linearToSrgbChannel, linearToSrgbChannel, if_pos hy, if_pos hx]
    rw [show y * 12.92 - x * 12.92 = 12.92 * (y - x) by ring, abs_mul]
    calc |(12.92:ℝ)| * |y - x| ≤ 12.92 * 0.000002 := by
          rw [show |(12.92:ℝ)| = 12.92 from abs_of_pos (by norm_num)]
          exact mul_le_mul_of_nonneg_left hxy (by norm_num)
      _ ≤ 0.0045 := by norm_num
  · -- y in the linear branch, x in the power branch
    have hxc : |x - 0.0031308| ≤ 0.000002 := by
      rw [abs_le]; constructor <;> linarith
    have hsub := rpow_sub_abs_le (by norm_num : (0:ℝ) ≤ 0.0031308) hx0 hxc
    rw [linearToSrgbChannel, linearToSrgbChannel, if_pos hy, if_neg (not_le.mpr hx)]
    have hyb : |y - 0.0031308| ≤ 0.000002 := by
      rw [abs_le]; constructor <;> linarith
    obtain ⟨hs1, hs2⟩ := abs_le.mp hsub
    obtain ⟨hj1, hj2⟩ := abs_le.mp hjump
    obtain ⟨hy1, hy2⟩ := abs_le.mp hyb
    rw [abs_le]
    constructor <;> nlinarith
  · -- x in the linear branch, y in the power branch
    have hy0 : (0:ℝ) ≤ y := by linarith
    have hyc : |y - 0.0031308| ≤ 0.000002 := by
      rw [abs_le]; constructor <;> linarith
    have hsub := rpow_sub_abs_le (by norm_num : (0:ℝ) ≤ 0.0031308) hy0 hyc
    rw [linearToSrgbChannel, linearToSrgbChannel, if_neg (not_le.mpr hy), if_pos hx]
    have hxb : |x - 0.0031308| ≤ 0.000002 := by
      rw [abs_le]; constructor <;> linarith
    obtain ⟨hs1, hs2⟩ := abs_le.mp hsub
    obtain ⟨hj1, hj2⟩ := abs_le.mp hjump
    obtain ⟨hx1, hx2⟩ := abs_le.mp hxb
    rw [abs_le]
    constructor <;> nlinarith
  · have hy0 : (0:ℝ) ≤ y := by linarith
    have hsub := rpow_sub_abs_le hx0 hy0 hxy
    rw [linearToSrgbChannel, linearToSrgbChannel, if_neg (not_le.mpr hy),
      if_neg (not_le.mpr hx)]
    obtain ⟨hs1, hs2⟩ := abs_le.mp hsub
    rw [abs_le]
    constructor <;> nlinarith

lemma clamp01_dist {t v : ℝ} (hv0 : 0 ≤ v) (hv1 : v ≤ 1) :
    |clamp01 t - v| ≤ |t - v| := by
  rcases le_total t 0 with h1 | h1
  · rw [clamp01, min_eq_right (le_trans h1 zero_le_one), max_eq_left h1]
    have h2 : v - t ≤ |t - v| := by
      rw [abs_sub_comm]
      exact le_abs_self _
    rw [zero_sub, abs_neg, abs_of_nonneg hv0]
    linarith
  · rcases le_total 1 t with h2 | h2
    · rw [clamp01, min_eq_left h2]
      rw [max_eq_right zero_le_one]
      have h3 : t - v ≤ |t - v| := le_abs_self _
      rw [abs_of_nonneg (by linarith)]
      linarith
    · rw [clamp01, min_eq_right h2, max_eq_right h1]

/-- One 8-bit channel: a linear value within `2·10⁻⁶` of the exact linear
channel renders back to within ±1 of the original byte. -/
lemma channel_roundtrip {n : ℕ} (hn : n ≤ 255) {y : ℝ}
    (hy : |y - srgbToLinearChannel ((n:ℝ) / 255)| ≤ 0.000002) :
    (n:ℤ) - 1 ≤ channelToInt (linearToSrgbChannel y) ∧
      channelToInt (linearToSrgbChannel y) ≤ (n:ℤ) + 1 := by
  have hv0 : (0:ℝ) ≤ (n:ℝ) / 255 := by positivity
  have hv1 : (n:ℝ) / 255 ≤ 1 := by
    rw [div_le_one (by norm_num)]
    exact_mod_cast hn
  obtain ⟨hx0, _hx1⟩ := srgbToLinearChannel_mem hv0 hv1
  have hmod := g_modulus hx0 hy
  rw [g_f_exact hn] at hmod
  have hclamp := le_trans (clamp01_dist hv0 hv1) hmod
  obtain ⟨hc1, hc2⟩ := abs_le.mp hclamp
  have hnv : ((n:ℝ) / 255) * 255 = (n:ℝ) := by field_simp
  rw [channelToInt, jsRound]
  constructor
  · rw [Int.le_floor]
    push_cast
    nlinarith
  · have hlt : ⌊clamp01 (linearToSrgbChannel y) * 255 + 1/2⌋ < (n:ℤ) + 2 := by
      apply Int.floor_lt.mpr
      push_cast
      nlinarith
    omega

/-! ## Round-trip building blocks: the matrix pipeline -/

lemma cube_dev01 {p x : ℝ} (hp0 : 0 ≤ p) (hp1 : p ≤ 1) (he : |x - p| ≤ 0.000000076) :
    |x * x * x - p * p * p| ≤ 0.00000023 := by
  obtain ⟨h1, h2⟩ := abs_le.mp he
  have hx0 : (-0.000001 : ℝ) ≤ x := by linarith
  have hx1 : x ≤ 1.000001 := by linarith
  have hid : x * x * x - p * p * p = (x - p) * (x * x + x * p + p * p) := by ring
  rw [hid, abs_mul]
  have hq : |x * x + x * p + p * p| ≤ 3.01 := by
    rw [abs_le]
    constructor <;> nlinarith
  calc |x - p| * |x * x + x * p + p * p| ≤ 0.000000076 * 3.01 :=
        mul_le_mul he hq (abs_nonneg _) (by norm_num)
    _ ≤ 0.00000023 := by norm_num

set_option maxHeartbeats 3000000 in
/-- The forward and backward matrix pipelines (including the cube-root and
cube) agree with the identity to within `2·10⁻⁶` per linear channel. -/
lemma matrix_roundtrip_bounds {r g b : ℝ} (hr0 : 0 ≤ r) (hr1 : r ≤ 1)
    (hg0 : 0 ≤ g) (hg1 : g ≤ 1) (hb0 : 0 ≤ b) (hb1 : b ≤ 1) :
    |(oklabToLinearRgb (linearRgbToOklab ⟨r, g, b⟩)).r - r| ≤ 0.000002 ∧
    |(oklabToLinearRgb (linearRgbToOklab ⟨r, g, b⟩)).g - g| ≤ 0.000002 ∧
    |(oklabToLinearRgb (linearRgbToOklab ⟨r, g, b⟩)).b - b| ≤ 0.000002 := by
  have hlm1_0 : (0:ℝ) ≤ 0.4122214708 * r + 0.5363325363 * g + 0.0514459929 * b := by
    positivity
  have hlm1_1 : 0.4122214708 * r + 0.5363325363 * g + 0.0514459929 * b ≤ 1 := by
    linarith
  have hlm2_0 : (0:ℝ) ≤ 0.2119034982 * r + 0.6806995451 * g + 0.1073969566 * b := by
    positivity
  have hlm2_1 : 0.2119034982 * r + 0.6806995451 * g + 0.1073969566 * b ≤ 1 := by
    linarith
  have hlm3_0 : (0:ℝ) ≤ 0.0883024619 * r + 0.2817188376 * g + 0.6299787005 * b := by
    positivity
  have hlm3_1 : 0.0883024619 * r + 0.2817188376 * g + 0.6299787005 * b ≤ 1 := by
    linarith
  obtain ⟨p1, hp1e⟩ : ∃ p, jsCbrt (0.4122214708 * r + 0.5363325363 * g +
      0.0514459929 * b) = p := ⟨_, rfl⟩
  obtain ⟨p2, hp2e⟩ : ∃ p, jsCbrt (0.2119034982 * r + 0.6806995451 * g +
      0.1073969566 * b) = p := ⟨_, rfl⟩
  obtain ⟨p3, hp3e⟩ : ∃ p, jsCbrt (0.0883024619 * r + 0.2817188376 * g +
      0.6299787005 * b) = p := ⟨_, rfl⟩
  obtain ⟨hp10, hp11⟩ := hp1e ▸ jsCbrt_mem hlm1_0 hlm1_1
  obtain ⟨hp20, hp21⟩ := hp2e ▸ jsCbrt_mem hlm2_0 hlm2_1
  obtain ⟨hp30, hp31⟩ := hp3e ▸ jsCbrt_mem hlm3_0 hlm3_1
  have hc1 : p1 * p1 * p1 = 0.4122214708 * r + 0.5363325363 * g + 0.0514459929 * b :=
    hp1e ▸ jsCbrt_cube hlm1_0
  have hc2 : p2 * p2 * p2 = 0.2119034982 * r + 0.6806995451 * g + 0.1073969566 * b :=
    hp2e ▸ jsCbrt_cube hlm2_0
  have hc3 : p3 * p3 * p3 = 0.0883024619 * r + 0.2817188376 * g + 0.6299787005 * b :=
    hp3e ▸ jsCbrt_cube hlm3_0
  rw [linearRgbToOklab]
  simp only
  rw [hp1e, hp2e, hp3e, oklabToLinearRgb]
  simp only
  -- the three recovered LMS-like sums and their cube deviations
  have hy1 : |(0.2104542553 * p1 + 0.7936177850 * p2 - 0.0040720468 * p3 +
      0.3963377774 * (1.9779984951 * p1 - 2.4285922050 * p2 + 0.4505937099 * p3) +
      0.2158037573 * (0.0259040371 * p1 + 0.7827717662 * p2 - 0.8086757660 * p3)) -
        p1| ≤ 0.000000076 := by
    rw [abs_le]
    constructor <;> linarith
  have hy2 : |(0.2104542553 * p1 + 0.7936177850 * p2 - 0.0040720468 * p3 -
      0.1055613458 * (1.9779984951 * p1 - 2.4285922050 * p2 + 0.4505937099 * p3) -
      0.0638541728 * (0.0259040371 * p1 + 0.7827717662 * p2 - 0.8086757660 * p3)) -
        p2| ≤ 0.000000076 := by
    rw [abs_le]
    constructor <;> linarith
  have hy3 : |(0.2104542553 * p1 + 0.7936177850 * p2 - 0.0040720468 * p3 -
      0.0894841775 * (1.9779984951 * p1 - 2.4285922050 * p2 + 0.4505937099 * p3) -
      1.2914855480 * (0.0259040371 * p1 + 0.7827717662 * p2 - 0.8086757660 * p3)) -
        p3| ≤ 0.000000076 := by
    rw [abs_le]
    constructor <;> linarith
  have hd1 := cube_dev01 hp10 hp11 hy1
  have hd2 := cube_dev01 hp20 hp21 hy2
  have hd3 := cube_dev01 hp30 hp31 hy3
  rw [hc1] at hd1
  rw [hc2] at hd2
  rw [hc3] at hd3
  obtain ⟨hd1l, hd1r⟩ := abs_le.mp hd1
  obtain ⟨hd2l, hd2r⟩ := abs_le.mp hd2
  obtain ⟨hd3l, hd3r⟩ := abs_le.mp hd3
  refine ⟨?_, ?_, ?_⟩ <;> (rw [abs_le]; constructor <;> linarith)

lemma hexChannels_le (s : String) :
    (hexChannels s).1 ≤ 255 ∧ (hexChannels s).2.1 ≤ 255 ∧ (hexChannels s).2.2 ≤ 255 := by
  rcases hch : hexChannels s with ⟨n1, n2, n3⟩
  simp only
  rw [hexChannels] at hch
  split at hch
  · next c1 c2 c3 c4 c5 c6 _ =>
    simp only [Prod.mk.injEq] at hch
    exact ⟨hch.1 ▸ hexPairVal_le c1 c2, hch.2.1 ▸ hexPairVal_le c3 c4,
      hch.2.2 ▸ hexPairVal_le c5 c6⟩
  · simp only [Prod.mk.injEq] at hch
    omega

/-- **C8.** For every hex color string, converting to the perceptual (OKLCH)
representation with `hexToOklch` and back with `oklchToHex` reproduces the
original color within ±1 per 8-bit channel: the resulting string is a hex
color whose three byte values each differ from the corresponding byte of the
input (as read by `hexChannels`) by at most 1. -/
theorem c8_roundtrip (s : String) :
    ∃ r g b : ℤ,
      oklchToHex (hexToOklch s) = "#" ++ byteToHex r ++ byteToHex g ++ byteToHex b ∧
      |r - ((hexChannels s).1 : ℤ)| ≤ 1 ∧
      |g - ((hexChannels s).2.1 : ℤ)| ≤ 1 ∧
      |b - ((hexChannels s).2.2 : ℤ)| ≤ 1 := by
  obtain ⟨hn1, hn2, hn3⟩ := hexChannels_le s
  obtain ⟨⟨hr0, hr1⟩, ⟨hg0, hg1⟩, ⟨hb0, hb1⟩⟩ := hexToSrgb_mem s
  obtain ⟨hl1, hl1'⟩ := srgbToLinearChannel_mem hr0 hr1
  obtain ⟨hl2, hl2'⟩ := srgbToLinearChannel_mem hg0 hg1
  obtain ⟨hl3, hl3'⟩ := srgbToLinearChannel_mem hb0 hb1
  have hpolar : oklchToOklab (hexToOklch s) =
      linearRgbToOklab (srgbToLinearRgb (hexToSrgb s)) := by
    rw [hexToOklch]
    exact oklch_ab_roundtrip _
  have hmat := matrix_roundtrip_bounds hl1 hl1' hl2 hl2' hl3 hl3'
  have hback : oklabToLinearRgb (oklchToOklab (hexToOklch s)) =
      oklabToLinearRgb (linearRgbToOklab ⟨srgbToLinearChannel (hexToSrgb s).r,
        srgbToLinearChannel (hexToSrgb s).g, srgbToLinearChannel (hexToSrgb s).b⟩) := by
    rw [hpolar]
    rfl
  have e1 : (hexToSrgb s).r = (((hexChannels s).1 : ℕ) : ℝ) / 255 := rfl
  have e2 : (hexToSrgb s).g = (((hexChannels s).2.1 : ℕ) : ℝ) / 255 := rfl
  have e3 : (hexToSrgb s).b = (((hexChannels s).2.2 : ℕ) : ℝ) / 255 := rfl
  have hy1 : |(oklabToLinearRgb (oklchToOklab (hexToOklch s))).r -
      srgbToLinearChannel ((((hexChannels s).1 : ℕ) : ℝ) / 255)| ≤ 0.000002 := by
    rw [hback, ← e1]
    exact hmat.1
  have hy2 : |(oklabToLinearRgb (oklchToOklab (hexToOklch s))).g -
      srgbToLinearChannel ((((hexChannels s).2.1 : ℕ) : ℝ) / 255)| ≤ 0.000002 := by
    rw [hback, ← e2]
    exact hmat.2.1
  have hy3 : |(oklabToLinearRgb (oklchToOklab (hexToOklch s))).b -
      srgbToLinearChannel ((((hexChannels s).2.2 : ℕ) : ℝ) / 255)| ≤ 0.000002 := by
    rw [hback, ← e3]
    exact hmat.2.2
  obtain ⟨ha1, ha2⟩ := channel_roundtrip hn1 hy1
  obtain ⟨hc1, hc2⟩ := channel_roundtrip hn2 hy2
  obtain ⟨hd1, hd2⟩ := channel_roundtrip hn3 hy3
  refine ⟨channelToInt (linearToSrgbChannel (oklabToLinearRgb
        (oklchToOklab (hexToOklch s))).r),
      channelToInt (linearToSrgbChannel (oklabToLinearRgb
        (oklchToOklab (hexToOklch s))).g),
      channelToInt (linearToSrgbChannel (oklabToLinearRgb
        (oklchToOklab (hexToOklch s))).b),
      rfl, ?_, ?_, ?_⟩ <;>
    (rw [abs_le]; constructor <;> omega)

/-! ### Claim C7 — validation -/

lemma generateRamp_error_char (s : String) (t : JSNum) (steps : ℚ) (mode : String) :
    (∃ e, generateRamp s t steps mode = .error e) ↔
      (hexFormatOk (withHash (jsTrim s)) = false ∨
        t.ltQ (-1) = true ∨ t.gtQ 1 = true ∨
        (steps ≠ 9 ∧ steps ≠ 11) ∨
        (mode ≠ "conservative" ∧ mode ≠ "painterly")) := by
  constructor
  · rintro ⟨e, he⟩
    by_contra hcon
    push_neg at hcon
    obtain ⟨h1, h2, h3, h4, h5⟩ := hcon
    rw [generateRamp_ok_shape (by simpa using h1) (by simpa using h2) (by simpa using h3)
      (by tauto) (by tauto)] at he
    exact Except.noConfusion he
  · intro h
    rw [generateRamp, normalizeHex]
    rcases hhex : hexFormatOk (withHash (jsTrim s)) with _ | _
    · exact ⟨.invalidColor, rfl⟩
    · simp only [if_true]
      rw [validateInputs]
      rcases h with h | h | h | h | h
    -- remaining cases: some validation condition fires
      · simp [hhex] at h
      · rw [if_pos (by simp [h])]
        exact ⟨.invalidTemperature, rfl⟩
      · rw [if_pos (by simp [h])]
        exact ⟨.invalidTemperature, rfl⟩
      · by_cases htb : (t.ltQ (-1) || t.gtQ 1) = true
        · rw [if_pos htb]; exact ⟨.invalidTemperature, rfl⟩
        · rw [if_neg htb, if_pos h]; exact ⟨.invalidSteps, rfl⟩
      · by_cases htb : (t.ltQ (-1) || t.gtQ 1) = true
        · rw [if_pos htb]; exact ⟨.invalidTemperature, rfl⟩
        · rw [if_neg htb]
          by_cases hsb : steps ≠ 9 ∧ steps ≠ 11
          · rw [if_pos hsb]; exact ⟨.invalidSteps, rfl⟩
          · rw [if_neg hsb, if_pos h]; exact ⟨.invalidMode, rfl⟩

/-- Claim C7 (counterexample): with `temperature = NaN`, both IEEE
comparisons in `validateInputs` are false, so `generateRamp` succeeds even
though `NaN` is not a finite number in `[-1, 1]` — the claim, which demands
failure on every non-finite temperature including `NaN`, is false. -/
theorem c7_counterexample_nan :
    (generateRamp "#2F6FED" JSNum.nan 9 "painterly").isOk = true := by
  rw [generateRamp_ok_shape (by decide) (by decide) (by decide) (Or.inl rfl) (Or.inr rfl)]
  rfl

/-- Claim C7 (amended): `generateRamp` fails, returning no output, exactly
when the trimmed hex string is not `#`-optional 6 hex digits, or the
temperature is a number comparing below `-1` or above `1` under IEEE
semantics (so `NaN` is *not* rejected, while the infinities are), or steps
is not exactly 9 or 11, or the mode is unknown; on success it returns a
full `steps`-length array, and the 5-digit example `"2F6FE"` fails with the
invalid-color-format error. -/
theorem c7_validation_amended :
    (∀ (s : String) (t : JSNum) (steps : ℚ) (mode : String),
        (∃ e, generateRamp s t steps mode = .error e) ↔
          (hexFormatOk (withHash (jsTrim s)) = false ∨
            t.ltQ (-1) = true ∨ t.gtQ 1 = true ∨
            (steps ≠ 9 ∧ steps ≠ 11) ∨
            (mode ≠ "conservative" ∧ mode ≠ "painterly"))) ∧
      generateRamp "2F6FE" (JSNum.fin 0) 9 "painterly" = .error .invalidColor ∧
      (∀ (s : String) (t : JSNum) (steps : ℚ) (mode : String) (l : List String),
        generateRamp s t steps mode = .ok l →
          l.length = if steps = 9 then 9 else 11) := by
  refine ⟨generateRamp_error_char, ?_, ?_⟩
  · rw [generateRamp, normalizeHex]
    have : hexFormatOk (withHash (jsTrim "2F6FE")) = false := by decide
    rw [this]
    rfl
  · intro s t steps mode l hok
    rw [generateRamp] at hok
    rcases hn : normalizeHex s with e | ns
    · rw [hn] at hok; exact Except.noConfusion hok
    · rw [hn] at hok
      rcases hv : validateInputs t steps mode with _ | e
      · rw [hv] at hok
        simp only [Except.ok.injEq] at hok
        subst hok
        simp [rampToHex, generateOklchRamp]
      · rw [hv] at hok; exact Except.noConfusion hok

theorem c7_validation_amended_witness :
    generateRamp "2F6FE" (JSNum.fin 0) 9 "painterly" = .error .invalidColor :=
  c7_validation_amended.2.1

/-- Claim C10: all four `generateRamp` parameters are optional, defaulting
to `#2F6FED`, `0.6`, `9` and `painterly`; a call with omitted arguments
returns exactly what the call with the defaults passed explicitly returns. -/
theorem c10_defaults :
    (∀ (a : Option String) (b : Option JSNum) (c : Option ℚ) (d : Option String),
        generateRampOpt a b c d =
          generateRamp (a.getD "#2F6FED") (b.getD (JSNum.fin 0.6)) (c.getD 9)
            (d.getD "painterly")) ∧
      generateRampOpt none none none none =
        generateRamp "#2F6FED" (JSNum.fin 0.6) 9 "painterly" := by
  have hq : (6 / 10 : ℚ) = 0.6 := by norm_num
  constructor
  · intro a b c d
    rw [generateRampOpt, DEFAULT_BASE_HEX, DEFAULT_TEMPERATURE, DEFAULT_STEPS, DEFAULT_MODE, hq]
  · rw [generateRampOpt, DEFAULT_BASE_HEX, DEFAULT_TEMPERATURE, DEFAULT_STEPS, DEFAULT_MODE, hq]
    rfl

end

end ToneLadder
